import Mathlib

/-!
# Compliance scan controller: reconciliation state machine

A shallow embedding of `pkg/controller/compliancescan/scantype.go` and
`pkg/controller/compliancescan/compliancescan_controller.go`.

Conventions of the embedding.

* A Go `error` is an `Option GoError` (`none` is `nil`).
* The API client is a record of responses (`Env`): reads are functions of the key,
  and every write request is appended to an effect log together with the events
  sent to the recorder.  A handler returns the log, the reconcile result, the error
  and the in-memory scan object it mutated through its pointer.
* Functions, constants and methods the two files use but which are declared in other
  packages of the repository (`scanResultReady`, `getScanResult`,
  `common.PodUnschedulableExitCode`, `utils.DNSLengthName`, ...) are fields of `Env`.
* `time.Duration` and timestamps are integers (nanoseconds).
-/

namespace compliancescan

/-! ## Data model -/

/-- Go error values, by the classes the controller distinguishes:
`errors.IsNotFound`, `errors.IsAlreadyExists`, `*podUnschedulableError`,
`*common.TimeoutError`, any other error, and an error wrapped with `%w`. -/
inductive GoError where
  | notFound (msg : String)
  | alreadyExists (msg : String)
  | podUnschedulable (podName : String) (message : String)
  | timeout (msg : String)
  | other (msg : String)
  | wrap (msg : String) (inner : GoError)
  | unknownScanType
deriving DecidableEq, Repr

namespace GoError

/-- Go `errors.IsNotFound(err)` on a non-nil error (it looks through wrapping). -/
def IsNotFound : GoError → Bool
  | notFound _ => true
  | wrap _ e => IsNotFound e
  | _ => false

/-- Go `errors.IsAlreadyExists(err)` on a non-nil error. -/
def IsAlreadyExists : GoError → Bool
  | alreadyExists _ => true
  | wrap _ e => IsAlreadyExists e
  | _ => false

/-- Go `goerrors.As(err, &unschedulableErr)` with `*podUnschedulableError`. -/
def AsUnschedulable : GoError → Bool
  | podUnschedulable _ _ => true
  | wrap _ e => AsUnschedulable e
  | _ => false

/-- Go `goerrors.As(err, &timeoutErr)` with `*common.TimeoutError`. -/
def AsTimeout : GoError → Bool
  | timeout _ => true
  | wrap _ e => AsTimeout e
  | _ => false

/-- Go `err.Error()`. -/
def Error : GoError → String
  | notFound m => m
  | alreadyExists m => m
  | podUnschedulable p m => "Couldn't schedule scan pod " ++ p ++ ": " ++ m
  | timeout m => m
  | other m => m
  | wrap m e => m ++ Error e
  | unknownScanType => "unknown scan type"

/-- Go `goerrors.Is(err, compv1alpha1.ErrUnkownScanType)` on a non-nil error. -/
def IsUnknownScanType : GoError → Bool
  | unknownScanType => true
  | wrap _ e => IsUnknownScanType e
  | _ => false

end GoError

/-- The type `compv1alpha1.ComplianceScanStatusResult`; `unset` is the zero value `""`. -/
inductive ScanStatusResult where
  | unset
  | NotAvailable
  | Compliant
  | NonCompliant
  | Error
  | NotApplicable
  | Inconsistent
deriving DecidableEq, Repr

/-- The string of a result, as `%s` prints it. -/
def ScanStatusResult.toString : ScanStatusResult → String
  | unset => ""
  | NotAvailable => "NOT-AVAILABLE"
  | Compliant => "COMPLIANT"
  | NonCompliant => "NON-COMPLIANT"
  | Error => "ERROR"
  | NotApplicable => "NOT-APPLICABLE"
  | Inconsistent => "INCONSISTENT"

/-- The type `compv1alpha1.ComplianceScanStatusPhase`; `unset` is the zero value `""`. -/
inductive ScanStatusPhase where
  | unset
  | Pending
  | Launching
  | Running
  | Aggregating
  | Done
deriving DecidableEq, Repr

/-- The durations are nanosecond counts, as Go `time.Duration`. -/
abbrev Duration := Int

/-- The constant `podTimeoutDisable = time.Duration(0)`. -/
def podTimeoutDisable : Duration := 0

/-- The constant `maxDuration` of Go package `time`: the largest `int64`. -/
def maxDuration : Duration := 9223372036854775807

/-- The constant `minDuration` of Go package `time`: the smallest `int64`. -/
def minDuration : Duration := -9223372036854775808

/-- Go `t.Sub(u)` on times given as nanosecond counts: the difference `t - u` as a
`Duration`, or the largest (smallest) duration when the difference is beyond it.
`time.Since(u)` is `time.Now().Sub(u)`. -/
def timeSub (t u : Int) : Duration :=
  if t - u > maxDuration then maxDuration
  else if t - u < minDuration then minDuration
  else t - u

/-- The constant `requeueAfterDefault = 10 * time.Second`. -/
def requeueAfterDefault : Duration := 10 * 1000000000

/-- The constant `doDelete`. -/
def doDelete : Bool := true

/-- The constant `dontDelete`. -/
def dontDelete : Bool := false

/-- The constant `DelveRemoteScanType`. -/
def DelveRemoteScanType : String := "DelveRemote"

/-- The constant `PlatformScanName`, declared outside the two files. -/
def PlatformScanName : String := "api-checks"

structure RawResultStorageSettings where
  Size : String := ""
  PVAccessModes : List String := []
deriving DecidableEq, Repr

structure ComplianceScanSpec where
  ScanType : String := ""
  Debug : Bool := false
  MaxRetryOnTimeout : Int := 0
  /-- The field `ComplianceScanSettings.Timeout`. -/
  Timeout : String := ""
  /-- The value of the method `IsStrictNodeScan()`. -/
  StrictNodeScan : Bool := true
  PriorityClass : String := ""
  RawResultStorage : RawResultStorageSettings := {}
  DelveRemoteConfigMap : String := ""
deriving DecidableEq, Repr

structure ComplianceScanStatus where
  Phase : ScanStatusPhase := ScanStatusPhase.unset
  Result : ScanStatusResult := ScanStatusResult.unset
  ErrorMessage : String := ""
  Warnings : String := ""
  RemainingRetries : Int := 0
  StartTimestamp : Option Int := none
  EndTimestamp : Option Int := none
  CurrentIndex : Int := 0
  /-- The condition setters (`SetConditionReady`, `SetConditionTimeout`, ...) are
  methods declared outside the two files; the field records the last one called. -/
  Conditions : String := ""
  Results : String := ""
deriving DecidableEq, Repr

structure ComplianceScan where
  Name : String := ""
  Namespace : String := ""
  Annotations : List (String × String) := []
  Finalizers : List String := []
  DeletionTimestamp : Option Int := none
  Spec : ComplianceScanSpec := {}
  Status : ComplianceScanStatus := {}
deriving DecidableEq, Repr

/-- The method `IsStrictNodeScan()`. -/
def ComplianceScan.IsStrictNodeScan (s : ComplianceScan) : Bool := s.Spec.StrictNodeScan

structure Node where
  Name : String := ""
  /-- The field `Spec.Unschedulable`. -/
  Unschedulable : Bool := false
deriving DecidableEq, Repr

structure NamespacedName where
  Name : String := ""
  Namespace : String := ""
deriving DecidableEq, Repr

structure ConfigMap where
  Name : String := ""
  Namespace : String := ""
  Data : List (String × String) := []
  Labels : List (String × String) := []
  Immutable : Bool := false
deriving DecidableEq, Repr

/-- Go map read `m[key]`, the zero value `""` when the key is absent. -/
def mapGet (m : List (String × String)) (key : String) : String :=
  (m.lookup key).getD ""

inductive PodPhase where
  | Pending
  | Running
  | Succeeded
  | Failed
  | Unknown
deriving DecidableEq, Repr

structure PodCondition where
  /-- The field `Type`. -/
  Kind : String := ""
  Reason : String := ""
  Message : String := ""
deriving DecidableEq, Repr

/-- The constant `corev1.PodScheduled`. -/
def PodScheduled : String := "PodScheduled"

/-- The constant `corev1.PodReasonUnschedulable`. -/
def PodReasonUnschedulable : String := "Unschedulable"

structure Pod where
  Name : String := ""
  Namespace : String := ""
  Phase : PodPhase := PodPhase.Pending
  Reason : String := ""
  Message : String := ""
  Conditions : List PodCondition := []
  CreationTimestamp : Int := 0
  PriorityClassName : String := ""
deriving DecidableEq, Repr

/-- The type `reconcile.Result`. -/
structure ReconcileResult where
  Requeue : Bool := false
  RequeueAfter : Duration := 0
deriving DecidableEq, Repr

/-- The methods of the reconciler that are declared in other files of the package and
that take the scan and return an error: they create, scale or delete objects owned by the
scan. -/
inductive Op where
  | createConfigMaps
  | handleRootCASecret
  | handleResultServerSecret
  | handleResultClientSecret
  | handleRawResultsForScan
  | createResultServer
  | deleteScanPods
  | deletePlatformScanPod
  | deleteAggregator
  | deleteResultServer
  | deleteResultServerSecret
  | deleteResultClientSecret
  | deleteRootCASecret
  | scaleDownResultServer
  | deleteRawResultsForScan
deriving DecidableEq, Repr

/-- The response to the read of a node's `configz` endpoint in
`getRuntimeKubeletConfig`: the stream cannot be opened, it cannot be read, or its
content. -/
inductive ConfigzResponse where
  | streamError (err : GoError)
  | readError (err : GoError)
  | content (config : String)
deriving DecidableEq, Repr

/-- Requests sent to the API server, the event recorder and the metrics during a pass,
in program order. -/
inductive Effect where
  | event (eventtype : String) (reason : String) (message : String)
  | statusUpdate (scan : ComplianceScan)
  | update (scan : ComplianceScan)
  | createConfigMap (cm : ConfigMap)
  | createJob (name : String)
  | launchAggregatorPod (scan : ComplianceScan) (aggregator : Pod)
  | metric (name : String) (status : ComplianceScanStatus)
  | op (op : Op) (scanName : String)
  | deleteAllOfConfigMaps (labels : List (String × String))
  | launchScanPod (scan : ComplianceScan) (pod : Pod)
deriving DecidableEq, Repr

/-- The reconciler `r` as seen from one pass: the responses of its client to each
request, the clock, and the functions of other packages the two files call. -/
structure Env where
  /-- The response of `r.Client.Get` for a pod. -/
  getPod : NamespacedName → Except GoError Pod
  /-- The response of `r.Client.Get` for a config map. -/
  getConfigMap : NamespacedName → Except GoError ConfigMap
  /-- The response of `r.Client.Create` for a config map. -/
  createConfigMap : ConfigMap → Option GoError
  /-- The response of `r.Client.Create` for a job, by name. -/
  createJob : String → Option GoError
  /-- The response of `r.Client.Status().Update`. -/
  statusUpdate : ComplianceScan → Option GoError
  /-- The response of `r.Client.Update`. -/
  update : ComplianceScan → Option GoError
  /-- The response of `r.Client.List` for check results labelled inconsistent and
  with the scan label of the given scan name: the names of the items, and the error. -/
  listInconsistent : String → List String × Option GoError
  /-- The value of `time.Now()`. -/
  now : Int
  /-- The test `r.Recorder != nil`. -/
  hasRecorder : Bool
  /-- The function `common.GetComplianceOperatorNamespace`. -/
  operatorNamespace : String
  /-- The function `utils.DNSLengthName`. -/
  DNSLengthName : String → String → String → String → String
  /-- The function `scanResultReady`. -/
  scanResultReady : ConfigMap → Bool
  /-- The function `getScanResult`. -/
  getScanResult : ConfigMap → ScanStatusResult × Option GoError
  /-- The function `checkScanUnknownError`. -/
  checkScanUnknownError : ConfigMap → Option GoError
  /-- The constant `common.PodUnschedulableExitCode`. -/
  PodUnschedulableExitCode : String
  /-- The function `time.ParseDuration`. -/
  parseDuration : String → Except GoError Duration
  /-- The function `utils.GetResultConfigMap`, by scan, config map name, node name,
  content and exit code (file name `error-msg`, not compressed, no warnings). -/
  GetResultConfigMap : ComplianceScan → String → String → String → String → ConfigMap
  /-- The method `newAggregatorPod`. -/
  newAggregatorPod : ComplianceScan → Pod
  /-- The function `utils.ValidatePriorityClassExist`. -/
  ValidatePriorityClassExist : String → Bool × String
  /-- The response of the method `launchAggregatorPod`. -/
  launchAggregatorPod : ComplianceScan → Pod → Option GoError
  /-- The function `isAggregatorRunning`. -/
  isAggregatorRunning : ComplianceScan → Bool × Option GoError
  /-- The function `utils.HaveOutdatedRemediations`. -/
  HaveOutdatedRemediations : Option GoError × Bool
  /-- The constant `compv1alpha1.ScanTypeDelveRemote`. -/
  ScanTypeDelveRemote : String
  /-- The response of `r.Client.Get` for a scan. -/
  getScan : NamespacedName → Except GoError ComplianceScan
  /-- The response of `r.Client.List` for the nodes that match the node selector of the
  scan and the label `kubernetes.io/os=linux`: the items, and the error. -/
  listNodes : ComplianceScan → List Node × Option GoError
  /-- The response of `r.Client.List` for the jobs labelled with the scan. -/
  listJobs : ComplianceScan → Option GoError
  /-- The response of `r.Client.DeleteAllOf` for the config maps of the operator
  namespace with the given labels. -/
  deleteAllOfConfigMaps : List (String × String) → Option GoError
  /-- The response of a method of `Op`. -/
  op : Op → ComplianceScan → Option GoError
  /-- The first value the method `handleRawResultsForScan` returns (resume). -/
  resumeAfterRawResults : ComplianceScan → Bool
  /-- The response to the read of `/api/v1/nodes/<node>/proxy/configz`. -/
  getConfigz : String → ConfigzResponse
  /-- The function `getKubeletCMNameForScan`. -/
  getKubeletCMNameForScan : ComplianceScan → Node → String
  /-- The function `newScanPodForNode`. -/
  newScanPodForNode : ComplianceScan → Node → Pod
  /-- The method `newPlatformScanPod`. -/
  newPlatformScanPod : ComplianceScan → Pod
  /-- The response of the method `launchScanPod`. -/
  launchScanPod : ComplianceScan → Pod → Option GoError
  /-- The function `common.IsRetriable`. -/
  IsRetriable : GoError → Bool
  /-- The function `common.ReturnWithRetriableError`. -/
  ReturnWithRetriableError : GoError → ReconcileResult × Option GoError
  /-- The method `GetScanTypeIfValid`. -/
  GetScanTypeIfValid : ComplianceScan → Except GoError String
  /-- The method `GetScanType`. -/
  GetScanType : ComplianceScan → String
  /-- The error of the function `resource.ParseQuantity`. -/
  ParseQuantity : String → Option GoError

/-- The struct `nodeScanTypeHandler` (the reconciler is passed separately). -/
structure nodeScanTypeHandler where
  scan : ComplianceScan
  nodes : List Node

/-- The struct `platformScanTypeHandler`. -/
structure platformScanTypeHandler where
  scan : ComplianceScan

/-- The interface `scanTypeHandler` with its two implementations. -/
inductive scanTypeHandler where
  | node (nh : nodeScanTypeHandler)
  | platform (ph : platformScanTypeHandler)

/-- The method `getScan`. -/
def scanTypeHandler.getScan : scanTypeHandler → ComplianceScan
  | node nh => nh.scan
  | platform ph => ph.scan

/-- The handler with its scan pointer target replaced. -/
def scanTypeHandler.setScan : scanTypeHandler → ComplianceScan → scanTypeHandler
  | node nh, s => node { nh with scan := s }
  | platform ph, s => platform { ph with scan := s }

/-! ## Result records -/

/-- The function `getConfigMapForNodeName`. -/
def getConfigMapForNodeName (env : Env) (scanName nodeName : String) : String :=
  env.DNSLengthName "openscap-pod-" "%s-%s-pod" scanName nodeName

/-- The function `getPodForNodeName`. -/
def getPodForNodeName (env : Env) (scanName nodeName : String) : String :=
  env.DNSLengthName "openscap-pod-" "%s-%s-pod" scanName nodeName

/-- The function `getNodeScanCM`. -/
def getNodeScanCM (env : Env) (instance_ : ComplianceScan) (nodeName : String) :
    Except GoError ConfigMap :=
  env.getConfigMap
    { Name := getConfigMapForNodeName env instance_.Name nodeName,
      Namespace := env.operatorNamespace }

/-- The function `getPlatformScanCM`. -/
def getPlatformScanCM (env : Env) (instance_ : ComplianceScan) : Except GoError ConfigMap :=
  env.getConfigMap
    { Name := getConfigMapForNodeName env instance_.Name PlatformScanName,
      Namespace := env.operatorNamespace }

/-! ## Result gathering -/

/-- The value a `gatherResults` returns, with the events it sent. -/
structure GatherOutcome where
  result : ScanStatusResult
  isReady : Bool
  err : Option GoError
  log : List Effect := []
deriving DecidableEq, Repr

/-- The local variables of `nodeScanTypeHandler.gatherResults` across its loop. -/
structure GatherState where
  lastNonCompliance : ScanStatusResult := ScanStatusResult.unset
  result : ScanStatusResult := ScanStatusResult.unset
  compliant : Bool := true
  isReady : Bool := true
  log : List Effect := []
deriving DecidableEq, Repr

/-- The loop of `nodeScanTypeHandler.gatherResults` over the remaining nodes, followed
by the statements after the loop. -/
def nodeGatherLoop (env : Env) (scan : ComplianceScan) :
    List Node → GatherState → GatherOutcome
  | [], st =>
    if !st.compliant then
      { result := st.lastNonCompliance, isReady := st.isReady, err := none, log := st.log }
    else
      { result := st.result, isReady := st.isReady, err := none, log := st.log }
  | node :: rest, st =>
    match getNodeScanCM env scan node.Name with
    | .error _ => nodeGatherLoop env scan rest { st with isReady := false }
    | .ok foundCM =>
      if env.scanResultReady foundCM = false then
        nodeGatherLoop env scan rest { st with isReady := false }
      else if (env.getScanResult foundCM).1 = ScanStatusResult.Error then
        if !scan.IsStrictNodeScan
            ∧ mapGet foundCM.Data "exit-code" = env.PodUnschedulableExitCode then
          nodeGatherLoop env scan rest
            { st with
              result := (env.getScanResult foundCM).1,
              log := st.log ++ [Effect.event "Warning" "UnschedulableNode"
                ("Skipping result for scan: Node is unschedulable: " ++ node.Name)] }
        else
          { result := (env.getScanResult foundCM).1, isReady := true,
            err := (env.getScanResult foundCM).2, log := st.log }
      else if (env.getScanResult foundCM).1 = ScanStatusResult.NonCompliant then
        nodeGatherLoop env scan rest
          { st with
            result := (env.getScanResult foundCM).1,
            lastNonCompliance := (env.getScanResult foundCM).1,
            compliant := false }
      else
        nodeGatherLoop env scan rest { st with result := (env.getScanResult foundCM).1 }

/-- The method `nodeScanTypeHandler.gatherResults`. -/
def nodeScanTypeHandler.gatherResults (env : Env) (nh : nodeScanTypeHandler) : GatherOutcome :=
  nodeGatherLoop env nh.scan nh.nodes {}

/-- The method `platformScanTypeHandler.gatherResults`. -/
def platformScanTypeHandler.gatherResults (env : Env) (ph : platformScanTypeHandler) :
    GatherOutcome :=
  match getPlatformScanCM env ph.scan with
  | .error _ => { result := ScanStatusResult.unset, isReady := false, err := none }
  | .ok foundCM =>
    if env.scanResultReady foundCM = false then
      { result := ScanStatusResult.unset, isReady := false, err := none }
    else
      { result := (env.getScanResult foundCM).1, isReady := true,
        err := (env.getScanResult foundCM).2 }

/-- The interface method `gatherResults`. -/
def scanTypeHandler.gatherResults (env : Env) : scanTypeHandler → GatherOutcome
  | node nh => nh.gatherResults env
  | platform ph => ph.gatherResults env

/-- The function `gatherResults` of the controller: the handler's result, then the
query for check results of this scan that are labelled inconsistent. -/
def gatherResults (env : Env) (h : scanTypeHandler) : GatherOutcome :=
  let instance_ := h.getScan
  let hr := h.gatherResults env
  match hr.err with
  | some err => { result := hr.result, isReady := hr.isReady, err := some err, log := hr.log }
  | none =>
    let checkList := (env.listInconsistent instance_.Name).1
    let isReady := if ((env.listInconsistent instance_.Name).2).isSome then false else hr.isReady
    if checkList.length > 0 then
      { result := ScanStatusResult.Inconsistent, isReady := isReady,
        err := some (GoError.other ("results were not consistent, search for " ++
          "compliancecheckresults labeled with compliance.openshift.io/inconsistent-check")),
        log := hr.log }
    else
      { result := hr.result, isReady := isReady, err := none, log := hr.log }

/-! ## Polling the execution units -/

/-- The scan over `foundPod.Status.Conditions` in `isPodRunning`: the message of the
first `PodScheduled` condition when its reason is `Unschedulable`. -/
def podScheduledUnschedulable : List PodCondition → Option String
  | [] => none
  | condition :: rest =>
    if condition.Kind = PodScheduled then
      if condition.Reason = PodReasonUnschedulable then some condition.Message else none
    else podScheduledUnschedulable rest

/-- The function `isPodRunning`. -/
def isPodRunning (env : Env) (podName namespace_ : String) (timeout : Duration) :
    Bool × Option GoError :=
  match env.getPod { Name := podName, Namespace := namespace_ } with
  | .error err => (false, some err)
  | .ok foundPod =>
    if foundPod.Phase = PodPhase.Succeeded then (false, none)
    else
      match podScheduledUnschedulable foundPod.Conditions with
      | some message => (false, some (GoError.podUnschedulable foundPod.Name message))
      | none =>
        if foundPod.Phase = PodPhase.Failed then (true, none)
        else if timeout = podTimeoutDisable then (true, none)
        else if timeSub env.now foundPod.CreationTimestamp > timeout then
          (true, some (GoError.timeout
            ("Timeout reached while waiting for the scan to finish in the pod: " ++ podName)))
        else (true, none)

/-- The function `isPodRunningInNode`. -/
def isPodRunningInNode (env : Env) (scanInstance : ComplianceScan) (node : Node)
    (timeout : Duration) : Bool × Option GoError :=
  isPodRunning env (getPodForNodeName env scanInstance.Name node.Name)
    env.operatorNamespace timeout

/-- The function `isPlatformScanPodRunning`. -/
def isPlatformScanPodRunning (env : Env) (scanInstance : ComplianceScan)
    (timeout : Duration) : Bool × Option GoError :=
  isPodRunning env (getPodForNodeName env scanInstance.Name PlatformScanName)
    env.operatorNamespace timeout

/-- The value a `handleRunningScan` returns, with the scan it may have mutated and the
requests it sent. -/
structure RunningOutcome where
  running : Bool
  timeoutNodes : List String
  err : Option GoError
  scan : ComplianceScan
  log : List Effect := []
deriving DecidableEq, Repr

/-- The statements of the `unschedulableErr` branch of
`nodeScanTypeHandler.handleRunningScan`: make sure the result record that tells about
the unschedulable pod exists.  Returns the error the branch returns with, if any, and
the requests sent. -/
def ensureUnschedulableCM (env : Env) (scan : ComplianceScan) (node : Node) (err : GoError) :
    Option GoError × List Effect :=
  let cmName := getConfigMapForNodeName env scan.Name node.Name
  let cm := env.GetResultConfigMap scan cmName node.Name err.Error env.PodUnschedulableExitCode
  match env.getConfigMap { Name := cm.Name, Namespace := cm.Namespace } with
  | .ok _ => (none, [])
  | .error cmGetErr =>
    if cmGetErr.IsNotFound then
      match env.createConfigMap cm with
      | none => (none, [Effect.createConfigMap cm])
      | some cmCreateErr =>
        if !cmCreateErr.IsAlreadyExists then (some cmCreateErr, [Effect.createConfigMap cm])
        else (none, [Effect.createConfigMap cm])
    else (some cmGetErr, [])

/-- The loop of `nodeScanTypeHandler.handleRunningScan` over the remaining nodes,
followed by the return after the loop. -/
def nodeRunningLoop (env : Env) (scan : ComplianceScan) (timeoutVal : Duration) :
    List Node → List String → List Effect → RunningOutcome
  | [], timeoutNodes, log =>
    { running := false, timeoutNodes := timeoutNodes, err := none, scan := scan, log := log }
  | node :: rest, timeoutNodes, log =>
    let running := (isPodRunningInNode env scan node timeoutVal).1
    match (isPodRunningInNode env scan node timeoutVal).2 with
    | none =>
      if running then
        { running := true, timeoutNodes := timeoutNodes, err := none, scan := scan, log := log }
      else nodeRunningLoop env scan timeoutVal rest timeoutNodes log
    | some err =>
      if err.IsNotFound then
        let scan1 := { scan with Status := { scan.Status with Phase := ScanStatusPhase.Launching } }
        { running := true, timeoutNodes := timeoutNodes, err := env.statusUpdate scan1,
          scan := scan1, log := log ++ [Effect.statusUpdate scan1] }
      else if err.AsUnschedulable then
        match ensureUnschedulableCM env scan node err with
        | (some cmErr, sent) =>
          { running := true, timeoutNodes := timeoutNodes, err := some cmErr, scan := scan,
            log := log ++ sent }
        | (none, sent) =>
          if running then
            { running := true, timeoutNodes := timeoutNodes, err := none, scan := scan,
              log := log ++ sent }
          else nodeRunningLoop env scan timeoutVal rest timeoutNodes (log ++ sent)
      else if err.AsTimeout then
        { running := true, timeoutNodes := timeoutNodes ++ [node.Name], err := none,
          scan := scan, log := log }
      else
        { running := true, timeoutNodes := timeoutNodes, err := some err, scan := scan,
          log := log }

/-- The method `nodeScanTypeHandler.handleRunningScan`. -/
def nodeScanTypeHandler.handleRunningScan (env : Env) (nh : nodeScanTypeHandler) :
    RunningOutcome :=
  if nh.scan.Spec.Timeout ≠ "" then
    match env.parseDuration nh.scan.Spec.Timeout with
    | .error err =>
      { running := true, timeoutNodes := [],
        err := some (GoError.wrap "couldn't parse timeout: " err), scan := nh.scan }
    | .ok timeoutVal => nodeRunningLoop env nh.scan timeoutVal nh.nodes [] []
  else nodeRunningLoop env nh.scan podTimeoutDisable nh.nodes [] []

/-- The statements of `platformScanTypeHandler.handleRunningScan` after the timeout
value is known. -/
def platformRunningPoll (env : Env) (scan : ComplianceScan) (timeoutVal : Duration) :
    RunningOutcome :=
  let running := (isPlatformScanPodRunning env scan timeoutVal).1
  match (isPlatformScanPodRunning env scan timeoutVal).2 with
  | none => { running := running, timeoutNodes := [], err := none, scan := scan }
  | some err =>
    if err.IsNotFound then
      let scan1 := { scan with Status := { scan.Status with Phase := ScanStatusPhase.Launching } }
      { running := true, timeoutNodes := [], err := env.statusUpdate scan1, scan := scan1,
        log := [Effect.statusUpdate scan1] }
    else if err.AsTimeout then
      { running := true, timeoutNodes := [PlatformScanName], err := none, scan := scan }
    else { running := true, timeoutNodes := [], err := some err, scan := scan }

/-- The method `platformScanTypeHandler.handleRunningScan`. -/
def platformScanTypeHandler.handleRunningScan (env : Env) (ph : platformScanTypeHandler) :
    RunningOutcome :=
  if ph.scan.Spec.Timeout ≠ "" then
    match env.parseDuration ph.scan.Spec.Timeout with
    | .error err =>
      { running := true, timeoutNodes := [],
        err := some (GoError.wrap "couldn't parse timeout: " err), scan := ph.scan }
    | .ok timeoutVal => platformRunningPoll env ph.scan timeoutVal
  else platformRunningPoll env ph.scan podTimeoutDisable

/-- The interface method `handleRunningScan`. -/
def scanTypeHandler.handleRunningScan (env : Env) : scanTypeHandler → RunningOutcome
  | node nh => nh.handleRunningScan env
  | platform ph => ph.handleRunningScan env

/-! ## Aggregation readiness -/

/-- The value a `shouldLaunchAggregator` returns. -/
structure LaunchOutcome where
  isReady : Bool
  warnings : String
  err : Option GoError
deriving DecidableEq, Repr

/-- The loop of `nodeScanTypeHandler.shouldLaunchAggregator` over the remaining nodes,
followed by the return after the loop. -/
def nodeShouldLaunchLoop (env : Env) (scan : ComplianceScan) :
    List Node → String → LaunchOutcome
  | [], warnings => { isReady := true, warnings := warnings, err := none }
  | node :: rest, warnings =>
    match getNodeScanCM env scan node.Name with
    | .error _ => { isReady := false, warnings := "", err := none }
    | .ok foundCM =>
      let warnings1 :=
        match foundCM.Data.lookup "warnings" with
        | some warns => warns
        | none => warnings
      match env.checkScanUnknownError foundCM with
      | some err => { isReady := true, warnings := warnings1, err := some err }
      | none => nodeShouldLaunchLoop env scan rest warnings1

/-- The method `nodeScanTypeHandler.shouldLaunchAggregator`. -/
def nodeScanTypeHandler.shouldLaunchAggregator (env : Env) (nh : nodeScanTypeHandler) :
    LaunchOutcome :=
  nodeShouldLaunchLoop env nh.scan nh.nodes ""

/-- The method `platformScanTypeHandler.shouldLaunchAggregator`. -/
def platformScanTypeHandler.shouldLaunchAggregator (env : Env) (ph : platformScanTypeHandler) :
    LaunchOutcome :=
  match getPlatformScanCM env ph.scan with
  | .error _ => { isReady := false, warnings := "", err := none }
  | .ok foundCM =>
    let warnings :=
      match foundCM.Data.lookup "warnings" with
      | some warns => warns
      | none => ""
    match env.checkScanUnknownError foundCM with
    | some err => { isReady := true, warnings := warnings, err := some err }
    | none => { isReady := true, warnings := warnings, err := none }

/-- The interface method `shouldLaunchAggregator`. -/
def scanTypeHandler.shouldLaunchAggregator (env : Env) : scanTypeHandler → LaunchOutcome
  | node nh => nh.shouldLaunchAggregator env
  | platform ph => ph.shouldLaunchAggregator env

/-! ## Phase handlers -/

/-- The value a phase handler returns, with the scan object it mutated through its
pointer and the requests it sent. -/
structure HandlerOutcome where
  result : ReconcileResult
  err : Option GoError
  scan : ComplianceScan
  log : List Effect := []
deriving DecidableEq, Repr

/-- The method `generateResultEventForScan`: the events it sends. -/
def generateResultEventForScan (env : Env) (scan : ComplianceScan) : List Effect :=
  [Effect.event "Normal" "ResultAvailable"
    ("ComplianceScan's result is: " ++ scan.Status.Result.toString)]
  ++ (if scan.Status.Result = ScanStatusResult.NotApplicable then
        [Effect.event "Warning" "ScanNotApplicable"
          ("The scan result is not applicable, please check if you're using the correct " ++
           "platform or if the nodeSelector matches nodes.")]
      else if scan.Status.Result = ScanStatusResult.Inconsistent then
        [Effect.event "Normal" "ScanNotConsistent"
          ("The scan result is not consistent, please check for scan results labeled with " ++
           "compliance.openshift.io/inconsistent-check")]
      else [])
  ++ (if env.HaveOutdatedRemediations.2 then
        [Effect.event "Normal" "HaveOutdatedRemediations"
          ("The scan produced outdated remediations, please check for " ++
           "complianceremediation objects labeled with " ++
           "complianceoperator.openshift.io/outdated-remediation")]
      else [])

/-- The method `updateStatusWithEvent`: the error it returns and the requests it sends. -/
def updateStatusWithEvent (env : Env) (scan : ComplianceScan) : Option GoError × List Effect :=
  match env.statusUpdate scan with
  | some err => (some err, [Effect.statusUpdate scan])
  | none =>
    if env.hasRecorder then
      (none, [Effect.statusUpdate scan] ++ generateResultEventForScan env scan)
    else (none, [Effect.statusUpdate scan])

/-- The method `updateScanStatusOnTimeout`. -/
def updateScanStatusOnTimeout (env : Env) (scan : ComplianceScan) (timeoutNodes : List String) :
    HandlerOutcome :=
  let remRetries := scan.Status.RemainingRetries
  let scan1 : ComplianceScan :=
    { scan with
      Status := { scan.Status with
        Phase := ScanStatusPhase.Done,
        EndTimestamp := some env.now,
        Result := ScanStatusResult.Error,
        ErrorMessage := "Timeout while waiting for the scan pod to be finished.",
        Conditions := "Timeout" } }
  if remRetries > 0 then
    let scan2 : ComplianceScan :=
      { scan1 with Status := { scan1.Status with RemainingRetries := remRetries - 1 } }
    { result := {}, err := env.statusUpdate scan2, scan := scan2,
      log := [Effect.event "Warning" "Retrying"
                ("Retrying scan " ++ scan.Name ++ " due to timeout on " ++
                 ",".intercalate timeoutNodes),
              Effect.statusUpdate scan2] }
  else
    let scan2 : ComplianceScan :=
      { scan1 with
        Status := { scan1.Status with RemainingRetries := scan.Spec.MaxRetryOnTimeout } }
    { result := {}, err := env.statusUpdate scan2, scan := scan2,
      log := generateResultEventForScan env scan2 ++ [Effect.statusUpdate scan2] }

/-- Go map write `m[key] = value`. -/
def mapSet (m : List (String × String)) (key value : String) : List (String × String) :=
  (key, value) :: m.filter (fun kv => kv.1 ≠ key)

/-- The constant `compv1alpha1.ComplianceScanTimeoutAnnotation`. -/
def ComplianceScanTimeoutAnnotation : String := "compliance.openshift.io/timeout"

/-- The constant `compv1alpha1.ComplianceScanRescanAnnotation`. -/
def ComplianceScanRescanAnnotation : String := "compliance.openshift.io/rescan"

/-- The method `setAnnotationOnTimeout`. -/
def setAnnotationOnTimeout (env : Env) (scan : ComplianceScan) (timeoutNodes : List String) :
    HandlerOutcome :=
  let annotations1 :=
    mapSet scan.Annotations ComplianceScanTimeoutAnnotation (",".intercalate timeoutNodes)
  let annotations2 :=
    if scan.Status.RemainingRetries > 0 then mapSet annotations1 ComplianceScanRescanAnnotation ""
    else annotations1
  let scan1 : ComplianceScan := { scan with Annotations := annotations2 }
  { result := {}, err := env.update scan1, scan := scan1, log := [Effect.update scan1] }

/-- The outcome with the requests `sent` before it put in front of its log. -/
def HandlerOutcome.after (sent : List Effect) (o : HandlerOutcome) : HandlerOutcome :=
  { o with log := sent ++ o.log }

/-- The block of `phaseAggregatingHandler` entered when `shouldLaunchAggregator` returned
the error `err`: the scan is finished with result Error. -/
def aggregatingOnError (env : Env) (instance_ : ComplianceScan) (err : GoError) :
    HandlerOutcome :=
  let instance2 : ComplianceScan :=
    { instance_ with
      Status := { instance_.Status with
        Phase := ScanStatusPhase.Done,
        EndTimestamp := some env.now,
        Result := ScanStatusResult.Error,
        Conditions := "Invalid",
        ErrorMessage := err.Error } }
  match (updateStatusWithEvent env instance2).1 with
  | some uerr =>
    { result := {}, err := some uerr, scan := instance2,
      log := (updateStatusWithEvent env instance2).2 }
  | none =>
    { result := {}, err := none, scan := instance2,
      log := (updateStatusWithEvent env instance2).2
        ++ [Effect.metric instance2.Name instance2.Status] }

/-- The statements of `phaseAggregatingHandler` from the call of `gatherResults` to the
end: requeue while the results are not ready, else finish the scan with the gathered
result. -/
def aggregatingGather (env : Env) (h : scanTypeHandler) (instance_ : ComplianceScan) :
    HandlerOutcome :=
  let g := gatherResults env (h.setScan instance_)
  if g.err.isNone ∧ !g.isReady then
    { result := { Requeue := true, RequeueAfter := requeueAfterDefault }, err := none,
      scan := instance_, log := g.log }
  else
    let instance2 : ComplianceScan :=
      { instance_ with
        Status := { instance_.Status with
          Result := g.result,
          ErrorMessage :=
            match g.err with
            | some err => err.Error
            | none => instance_.Status.ErrorMessage,
          Phase := ScanStatusPhase.Done,
          EndTimestamp := some env.now,
          Conditions := "Ready" } }
    match (updateStatusWithEvent env instance2).1 with
    | some uerr =>
      { result := {}, err := some uerr, scan := instance2,
        log := g.log ++ (updateStatusWithEvent env instance2).2 }
    | none =>
      { result := {}, err := none, scan := instance2,
        log := g.log ++ (updateStatusWithEvent env instance2).2
          ++ [Effect.metric instance2.Name instance2.Status] }

/-- The statements of `phaseAggregatingHandler` after the aggregator pod is launched:
the check whether it is running, and then the gathering. -/
def aggregatingAwait (env : Env) (h : scanTypeHandler) (instance_ : ComplianceScan) :
    HandlerOutcome :=
  match (env.isAggregatorRunning instance_).2 with
  | some err =>
    if err.IsNotFound then
      { result := { Requeue := true, RequeueAfter := requeueAfterDefault / 2 },
        err := none, scan := instance_ }
    else { result := {}, err := some err, scan := instance_ }
  | none =>
    if (env.isAggregatorRunning instance_).1 then
      let instance2 : ComplianceScan :=
        { instance_ with
          Status := { instance_.Status with Phase := ScanStatusPhase.Aggregating } }
      match env.statusUpdate instance2 with
      | some _ =>
        { result := { Requeue := true, RequeueAfter := requeueAfterDefault },
          err := none, scan := instance2, log := [Effect.statusUpdate instance2] }
      | none =>
        { result := { Requeue := true, RequeueAfter := requeueAfterDefault },
          err := none, scan := instance2,
          log := [Effect.statusUpdate instance2,
            Effect.metric instance2.Name instance2.Status] }
    else aggregatingGather env h instance_

/-- The statements of `phaseAggregatingHandler` from the creation of the aggregator pod
on. -/
def aggregatingLaunch (env : Env) (h : scanTypeHandler) (instance_ : ComplianceScan) :
    HandlerOutcome :=
  let aggregator0 := env.newAggregatorPod instance_
  let exist := (env.ValidatePriorityClassExist aggregator0.PriorityClassName).1
  let why := (env.ValidatePriorityClassExist aggregator0.PriorityClassName).2
  let aggregator : Pod :=
    if !exist then { aggregator0 with PriorityClassName := "" } else aggregator0
  let log1 : List Effect :=
    (if !exist then
      [Effect.event "Warning" "PriorityClass" (why ++ " aggregator:" ++ aggregator0.Name)]
     else [])
    ++ [Effect.launchAggregatorPod instance_ aggregator]
  match env.launchAggregatorPod instance_ aggregator with
  | some err => { result := {}, err := some err, scan := instance_, log := log1 }
  | none => (aggregatingAwait env h instance_).after log1

/-- The method `phaseAggregatingHandler`. -/
def phaseAggregatingHandler (env : Env) (h : scanTypeHandler) : HandlerOutcome :=
  let instance0 := h.getScan
  let sl := h.shouldLaunchAggregator env
  let instance1 : ComplianceScan :=
    if sl.warnings ≠ "" then
      { instance0 with Status := { instance0.Status with Warnings := sl.warnings } }
    else instance0
  match sl.err with
  | some err => aggregatingOnError env instance1 err
  | none =>
    if !sl.isReady then
      { result := { Requeue := true, RequeueAfter := requeueAfterDefault }, err := none,
        scan := instance1 }
    else aggregatingLaunch env h instance1

/-- The method `phaseRunningHandler`.  In the source the parameter is named `instance`
and the body polls `h`; the dispatcher in `Reconcile` passes the handler, so the
embedding takes the handler, `instance` being the scan it points to, and passes the
handler on to `phaseAggregatingHandler`. -/
def phaseRunningHandler (env : Env) (h : scanTypeHandler) : HandlerOutcome :=
  let instance_ := h.getScan
  if instance_.Spec.ScanType = env.ScanTypeDelveRemote then
    let jobName := instance_.Name ++ "-delve-remote-scan"
    { result := {}, err := env.createJob jobName, scan := instance_,
      log := [Effect.createJob jobName] }
  else
    let p := h.handleRunningScan env
    match p.err with
    | some err => { result := {}, err := some err, scan := p.scan, log := p.log }
    | none =>
      if p.running then
        { result := { RequeueAfter := requeueAfterDefault }, err := none, scan := p.scan,
          log := p.log }
      else if p.timeoutNodes.length > 0 then
        (phaseAggregatingHandler env (h.setScan p.scan)).after p.log
      else { result := {}, err := none, scan := p.scan, log := p.log }

/-! ## Constants and object helpers declared outside the two files -/

/-- The constant `compv1alpha1.ScanFinalizer`. -/
def ScanFinalizer : String := "scan.finalizers.compliance.openshift.io"

/-- The constant `compv1alpha1.ScanTypeNode`. -/
def ScanTypeNode : String := "Node"

/-- The constant `compv1alpha1.ScanTypePlatform`. -/
def ScanTypePlatform : String := "Platform"

/-- The constant `compv1alpha1.DefaultRawStorageSize`. -/
def DefaultRawStorageSize : String := "1Gi"

/-- The package variable `defaultAccessMode`. -/
def defaultAccessMode : List String := ["ReadWriteOnce"]

/-- The constant `compv1alpha1.ComplianceScanLabel`. -/
def ComplianceScanLabel : String := "compliance.openshift.io/scan-name"

/-- The constant `compv1alpha1.ScriptLabel`. -/
def ScriptLabel : String := "complianceoperator.openshift.io/scan-script"

/-- The constant `compv1alpha1.KubeletConfigLabel`. -/
def KubeletConfigLabel : String := "complianceoperator.openshift.io/scan-kubeletconfig"

/-- The constant `KubeletConfigMapName`. -/
def KubeletConfigMapName : String := "kubelet-config"

/-- The constant `math.MaxInt64`. -/
def MaxInt64 : Int := 9223372036854775807

/-- The value of a Go `int64` expression whose mathematical value is `x`: two's
complement wrap-around to 64 bits. -/
def wrapInt64 (x : Int) : Int := (x + 2 ^ 63) % 2 ^ 64 - 2 ^ 63

/-- Go `delete(m, key)`. -/
def mapDelete (m : List (String × String)) (key : String) : List (String × String) :=
  m.filter (fun kv => kv.1 ≠ key)

/-- Modelled from the spec: the method `NeedsRescan` is declared outside the two files;
the rescan request is the rescan annotation set on the object. -/
def ComplianceScan.NeedsRescan (s : ComplianceScan) : Bool :=
  (s.Annotations.lookup ComplianceScanRescanAnnotation).isSome

/-- Modelled from the spec: the method `NeedsTimeoutRescan` is declared outside the two
files; the timeout marker is the timeout annotation set on the object. -/
def ComplianceScan.NeedsTimeoutRescan (s : ComplianceScan) : Bool :=
  (s.Annotations.lookup ComplianceScanTimeoutAnnotation).isSome

/-- Modelled from the spec: the function `common.ContainsFinalizer` is declared outside
the two files; the finalizer is a member of the finalizer list. -/
def ContainsFinalizer (finalizers : List String) (f : String) : Bool :=
  finalizers.contains f

/-- Modelled from the spec: the function `common.RemoveFinalizer` is declared outside the
two files; every copy of the finalizer is removed from the list. -/
def RemoveFinalizer (finalizers : List String) (f : String) : List String :=
  finalizers.filter (fun g => g ≠ f)

/-! ## Validation and defaulting -/

/-- The value a `validate` returns, with the requests it sent. -/
structure ValidateOutcome where
  cont : Bool
  err : Option GoError
  log : List Effect := []
deriving DecidableEq, Repr

/-- The statements the three status-writing branches of the reconciler's `validate`
end with: the status write of the copy, the metric, and the return of continue = false;
`pre` are the events sent before. -/
def validateStatusWrite (env : Env) (instanceCopy : ComplianceScan) (pre : List Effect) :
    ValidateOutcome :=
  match env.statusUpdate instanceCopy with
  | some updateErr =>
    { cont := false, err := some updateErr, log := pre ++ [Effect.statusUpdate instanceCopy] }
  | none =>
    { cont := false, err := none,
      log := pre ++ [Effect.statusUpdate instanceCopy,
        Effect.metric instanceCopy.Name instanceCopy.Status] }

/-- The method `ReconcileComplianceScan.validate`. -/
def validate (env : Env) (instance_ : ComplianceScan) : ValidateOutcome :=
  if instance_.Status.Phase = ScanStatusPhase.unset then
    validateStatusWrite env
      { instance_ with
        Status := { instance_.Status with
          RemainingRetries := instance_.Spec.MaxRetryOnTimeout,
          Phase := ScanStatusPhase.Pending,
          StartTimestamp := some env.now,
          Conditions := "Pending" } } []
  else if instance_.Spec.ScanType = "" then
    { cont := false,
      err := env.update { instance_ with Spec := { instance_.Spec with ScanType := ScanTypeNode } },
      log := [Effect.update
        { instance_ with Spec := { instance_.Spec with ScanType := ScanTypeNode } }] }
  else
    match env.GetScanTypeIfValid instance_ with
    | .error _ =>
      validateStatusWrite env
        { instance_ with
          Status := { instance_.Status with
            Result := ScanStatusResult.Error,
            ErrorMessage := "Scan type '" ++ instance_.Spec.ScanType ++ "' is not valid",
            Phase := ScanStatusPhase.Done,
            EndTimestamp := some env.now,
            Conditions := "Invalid" } }
        [Effect.event "Warning" "InvalidScanType" "The scan type was invalid"]
    | .ok _ =>
      if instance_.Spec.RawResultStorage.Size = "" then
        { cont := false,
          err := env.update
            { instance_ with
              Spec := { instance_.Spec with
                RawResultStorage := { instance_.Spec.RawResultStorage with
                  Size := DefaultRawStorageSize } } },
          log := [Effect.update
            { instance_ with
              Spec := { instance_.Spec with
                RawResultStorage := { instance_.Spec.RawResultStorage with
                  Size := DefaultRawStorageSize } } }] }
      else if instance_.Spec.RawResultStorage.PVAccessModes.length = 0 then
        { cont := false,
          err := env.update
            { instance_ with
              Spec := { instance_.Spec with
                RawResultStorage := { instance_.Spec.RawResultStorage with
                  PVAccessModes := defaultAccessMode } } },
          log := [Effect.update
            { instance_ with
              Spec := { instance_.Spec with
                RawResultStorage := { instance_.Spec.RawResultStorage with
                  PVAccessModes := defaultAccessMode } } }] }
      else
        match env.ParseQuantity instance_.Spec.RawResultStorage.Size with
        | some err =>
          validateStatusWrite env
            { instance_ with
              Status := { instance_.Status with
                ErrorMessage := "Error parsing RawResultsStorageSize: " ++ err.Error,
                Result := ScanStatusResult.Error,
                Phase := ScanStatusPhase.Done,
                EndTimestamp := some env.now,
                Conditions := "Invalid" } } []
        | none => { cont := true, err := none }

/-- The loop of `nodeScanTypeHandler.validate` over the nodes: the name of the first
unschedulable node of a strict scan. -/
def firstUnschedulable (scan : ComplianceScan) : List Node → Option String
  | [] => none
  | node :: rest =>
    if scan.IsStrictNodeScan ∧ node.Unschedulable then some node.Name
    else firstUnschedulable scan rest

/-- The check of the timeout string both handler `validate` methods end with. -/
def validateTimeout (env : Env) (scan : ComplianceScan) : ValidateOutcome :=
  if scan.Spec.Timeout ≠ "" then
    match env.parseDuration scan.Spec.Timeout with
    | .error err =>
      { cont := false, err := none,
        log := [Effect.event "Warning" "InvalidTimeout"
          ("Cannot parse timeout value" ++ err.Error)] }
    | .ok _ => { cont := true, err := none }
  else { cont := true, err := none }

/-- The method `nodeScanTypeHandler.validate`. -/
def nodeScanTypeHandler.validate (env : Env) (nh : nodeScanTypeHandler) : ValidateOutcome :=
  if nh.nodes.length = 0 then
    { cont := false,
      err := (updateStatusWithEvent env
        { nh.scan with
          Status := { nh.scan.Status with
            Result := ScanStatusResult.NotApplicable,
            Phase := ScanStatusPhase.Done } }).1,
      log := [Effect.event "Warning" "NoMatchingNodes" "No nodes matched the nodeSelector"]
        ++ (updateStatusWithEvent env
          { nh.scan with
            Status := { nh.scan.Status with
              Result := ScanStatusResult.NotApplicable,
              Phase := ScanStatusPhase.Done } }).2 }
  else
    match firstUnschedulable nh.scan nh.nodes with
    | some name =>
      { cont := false, err := none,
        log := [Effect.event "Warning" "UnschedulableNode"
          ("Not continuing scan: Node is unschedulable: " ++ name)] }
    | none => validateTimeout env nh.scan

/-- The method `platformScanTypeHandler.validate`. -/
def platformScanTypeHandler.validate (env : Env) (ph : platformScanTypeHandler) :
    ValidateOutcome :=
  validateTimeout env ph.scan

/-- The interface method `validate`. -/
def scanTypeHandler.validate (env : Env) : scanTypeHandler → ValidateOutcome
  | node nh => nh.validate env
  | platform ph => ph.validate env

/-! ## Handler construction -/

/-- The method `nodeScanTypeHandler.getTargetNodes`. -/
def getTargetNodes (env : Env) (scan : ComplianceScan) : List Node × Option GoError :=
  if env.GetScanType scan = ScanTypePlatform then ([], none)
  else if env.GetScanType scan = ScanTypeNode then
    match (env.listNodes scan).2 with
    | some err => ((env.listNodes scan).1, some err)
    | none => ((env.listNodes scan).1, none)
  else ([], none)

/-- The function `newNodeScanTypeHandler`. -/
def newNodeScanTypeHandler (env : Env) (scan : ComplianceScan) :
    Except GoError scanTypeHandler :=
  match (getTargetNodes env scan).2 with
  | some err => .error err
  | none => .ok (scanTypeHandler.node { scan := scan, nodes := (getTargetNodes env scan).1 })

/-- The function `newPlatformScanTypeHandler`. -/
def newPlatformScanTypeHandler (scan : ComplianceScan) : Except GoError scanTypeHandler :=
  .ok (scanTypeHandler.platform { scan := scan })

/-- The function `getScanTypeHandler`; `none` is the nil handler it returns for a scan
type that is neither of the two. -/
def getScanTypeHandler (env : Env) (scan : ComplianceScan) :
    Except GoError (Option scanTypeHandler) :=
  match env.GetScanTypeIfValid scan with
  | .error err => .error err
  | .ok scantype =>
    if scantype = ScanTypePlatform then
      match newPlatformScanTypeHandler scan with
      | .error err => .error err
      | .ok h => .ok (some h)
    else if scantype = ScanTypeNode then
      match newNodeScanTypeHandler env scan with
      | .error err => .error err
      | .ok h => .ok (some h)
    else .ok none

/-! ## Workload creation and cleanup -/

/-- The loop of `nodeScanTypeHandler.createScanWorkload` over the remaining nodes: the
error it returns with and the requests sent. -/
def nodeCreateWorkloadLoop (env : Env) (scan : ComplianceScan) :
    List Node → List Effect → Option GoError × List Effect
  | [], log => (none, log)
  | node :: rest, log =>
    if (env.ValidatePriorityClassExist scan.Spec.PriorityClass).1 then
      match env.launchScanPod scan (env.newScanPodForNode scan node) with
      | some err =>
        (some err, log ++ [Effect.launchScanPod scan (env.newScanPodForNode scan node)])
      | none =>
        nodeCreateWorkloadLoop env scan rest
          (log ++ [Effect.launchScanPod scan (env.newScanPodForNode scan node)])
    else
      match env.launchScanPod scan
          { env.newScanPodForNode scan node with PriorityClassName := "" } with
      | some err =>
        (some err, log ++
          [Effect.event "Warning" "PriorityClass"
            ((env.ValidatePriorityClassExist scan.Spec.PriorityClass).2 ++ " Scan:" ++ scan.Name),
           Effect.launchScanPod scan
            { env.newScanPodForNode scan node with PriorityClassName := "" }])
      | none =>
        nodeCreateWorkloadLoop env scan rest (log ++
          [Effect.event "Warning" "PriorityClass"
            ((env.ValidatePriorityClassExist scan.Spec.PriorityClass).2 ++ " Scan:" ++ scan.Name),
           Effect.launchScanPod scan
            { env.newScanPodForNode scan node with PriorityClassName := "" }])

/-- The method `nodeScanTypeHandler.createScanWorkload`. -/
def nodeScanTypeHandler.createScanWorkload (env : Env) (nh : nodeScanTypeHandler) :
    Option GoError × List Effect :=
  nodeCreateWorkloadLoop env nh.scan nh.nodes []

/-- The method `platformScanTypeHandler.createScanWorkload`. -/
def platformScanTypeHandler.createScanWorkload (env : Env) (ph : platformScanTypeHandler) :
    Option GoError × List Effect :=
  if (env.ValidatePriorityClassExist ph.scan.Spec.PriorityClass).1 then
    (env.launchScanPod ph.scan (env.newPlatformScanPod ph.scan),
     [Effect.launchScanPod ph.scan (env.newPlatformScanPod ph.scan)])
  else
    (env.launchScanPod ph.scan { env.newPlatformScanPod ph.scan with PriorityClassName := "" },
     [Effect.event "Warning" "PriorityClass"
        ((env.ValidatePriorityClassExist ph.scan.Spec.PriorityClass).2 ++ " Scan:"
          ++ ph.scan.Name),
      Effect.launchScanPod ph.scan
        { env.newPlatformScanPod ph.scan with PriorityClassName := "" }])

/-- The interface method `createScanWorkload`. -/
def scanTypeHandler.createScanWorkload (env : Env) :
    scanTypeHandler → Option GoError × List Effect
  | node nh => nh.createScanWorkload env
  | platform ph => ph.createScanWorkload env

/-- A call that creates or deletes objects of a scan and returns an error: a method of
`Op`, or `r.Client.DeleteAllOf` on the config maps with the given labels. -/
inductive Call where
  | op (op : Op)
  | deleteAllOfConfigMaps (labels : List (String × String))
deriving DecidableEq, Repr

/-- The request a call sends. -/
def Call.effect (scan : ComplianceScan) : Call → Effect
  | op o => Effect.op o scan.Name
  | deleteAllOfConfigMaps labels => Effect.deleteAllOfConfigMaps labels

/-- The error a call returns. -/
def Call.response (env : Env) (scan : ComplianceScan) : Call → Option GoError
  | op o => env.op o scan
  | deleteAllOfConfigMaps labels => env.deleteAllOfConfigMaps labels

/-- A sequence of statements `if err := call; err != nil then return err`: the calls are
made in order up to the first that returns an error.  Returns that error, if any, and
the requests sent. -/
def runCalls (env : Env) (scan : ComplianceScan) : List Call → Option GoError × List Effect
  | [] => (none, [])
  | c :: rest =>
    match c.response env scan with
    | some err => (some err, [c.effect scan])
    | none => ((runCalls env scan rest).1, c.effect scan :: (runCalls env scan rest).2)

/-- The method `deleteScriptConfigMaps`. -/
def deleteScriptConfigMaps (instance_ : ComplianceScan) : Call :=
  Call.deleteAllOfConfigMaps [(ComplianceScanLabel, instance_.Name), (ScriptLabel, "")]

/-- The method `deleteResultConfigMaps`. -/
def deleteResultConfigMaps (instance_ : ComplianceScan) : Call :=
  Call.deleteAllOfConfigMaps [(ComplianceScanLabel, instance_.Name)]

/-- The method `deleteKubeletConfigConfigMaps`. -/
def deleteKubeletConfigConfigMaps (instance_ : ComplianceScan) : Call :=
  Call.deleteAllOfConfigMaps [(ComplianceScanLabel, instance_.Name), (KubeletConfigLabel, "")]

/-- The interface method `cleanup`: the one call it makes (`deleteScanPods` or
`deletePlatformScanPod`). -/
def scanTypeHandler.cleanup : scanTypeHandler → Call
  | node _ => Call.op Op.deleteScanPods
  | platform _ => Call.op Op.deletePlatformScanPod

/-! ## The Pending, Launching and Done phases -/

/-- The object `phasePendingHandler` writes when the scan carries the rescan marker: both
markers deleted. -/
def withoutRescanMarkers (instance_ : ComplianceScan) : ComplianceScan :=
  { instance_ with
    Annotations := mapDelete (mapDelete instance_.Annotations
      ComplianceScanRescanAnnotation) ComplianceScanTimeoutAnnotation }

/-- The object `phasePendingHandler` writes when the scan carries only the timeout
marker: the timeout marker deleted (the source deletes it twice). -/
def withoutTimeoutMarker (instance_ : ComplianceScan) : ComplianceScan :=
  { instance_ with
    Annotations := mapDelete (mapDelete instance_.Annotations
      ComplianceScanTimeoutAnnotation) ComplianceScanTimeoutAnnotation }

/-- The scan after the assignments of `phasePendingHandler` that precede its status
write. -/
def pendingToLaunching (env : Env) (instance_ : ComplianceScan) : ComplianceScan :=
  { instance_ with
    Status := { instance_.Status with
      Phase := ScanStatusPhase.Launching,
      Result := ScanStatusResult.NotAvailable,
      StartTimestamp := some env.now,
      EndTimestamp := none } }

/-- The method `phasePendingHandler`. -/
def phasePendingHandler (env : Env) (instance_ : ComplianceScan) : HandlerOutcome :=
  if instance_.NeedsRescan then
    { result := {}, err := env.update (withoutRescanMarkers instance_), scan := instance_,
      log := [Effect.update (withoutRescanMarkers instance_)] }
  else if instance_.NeedsTimeoutRescan then
    { result := {}, err := env.update (withoutTimeoutMarker instance_), scan := instance_,
      log := [Effect.update (withoutTimeoutMarker instance_)] }
  else
    match env.statusUpdate (pendingToLaunching env instance_) with
    | some err =>
      { result := {}, err := some err, scan := pendingToLaunching env instance_,
        log := [Effect.statusUpdate (pendingToLaunching env instance_)] }
    | none =>
      { result := {}, err := none, scan := pendingToLaunching env instance_,
        log := [Effect.statusUpdate (pendingToLaunching env instance_),
          Effect.metric instance_.Name (pendingToLaunching env instance_).Status] }

/-- The method `getRuntimeKubeletConfig`. -/
def getRuntimeKubeletConfig (env : Env) (nodeName : String) : Except GoError String :=
  match env.getConfigz nodeName with
  | .streamError err =>
    .error (GoError.other ("cannot get the runtime kubelet config for node " ++ nodeName
      ++ ": " ++ err.Error))
  | .readError err =>
    .error (GoError.other ("cannot read the runtime kubelet config for node " ++ nodeName
      ++ ": " ++ err.Error))
  | .content kubeletConfig => .ok kubeletConfig

/-- The method `createKubeletConfigCM`: the error it returns and the requests sent.  The
creation timestamp it sets on the config map is not part of the model of a config map. -/
def createKubeletConfigCM (env : Env) (instance_ : ComplianceScan) (node : Node) :
    Option GoError × List Effect :=
  match getRuntimeKubeletConfig env node.Name with
  | .error err =>
    (some (GoError.other ("cannot get the runtime kubelet config for node " ++ node.Name
      ++ ": " ++ err.Error)), [])
  | .ok kubeletConfig =>
    (env.createConfigMap
      { Name := env.getKubeletCMNameForScan instance_ node,
        Namespace := instance_.Namespace,
        Labels := [(ComplianceScanLabel, instance_.Name), (KubeletConfigLabel, "")],
        Data := [(KubeletConfigMapName, kubeletConfig)],
        Immutable := true },
     [Effect.createConfigMap
      { Name := env.getKubeletCMNameForScan instance_ node,
        Namespace := instance_.Namespace,
        Labels := [(ComplianceScanLabel, instance_.Name), (KubeletConfigLabel, "")],
        Data := [(KubeletConfigMapName, kubeletConfig)],
        Immutable := true }])

/-- The method `getNodesForScan`. -/
def getNodesForScan (env : Env) (instance_ : ComplianceScan) : List Node × Option GoError :=
  env.listNodes instance_

/-- The loop of `handleRuntimeKubeletConfig` over the remaining nodes. -/
def kubeletConfigLoop (env : Env) (instance_ : ComplianceScan) :
    List Node → List Effect → Option GoError × List Effect
  | [], log => (none, log)
  | node :: rest, log =>
    match env.getConfigMap
        { Name := env.getKubeletCMNameForScan instance_ node,
          Namespace := instance_.Namespace } with
    | .ok _ => kubeletConfigLoop env instance_ rest log
    | .error err =>
      if !err.IsNotFound then (some err, log)
      else
        match (createKubeletConfigCM env instance_ node).1 with
        | some cerr => (some cerr, log ++ (createKubeletConfigCM env instance_ node).2)
        | none =>
          kubeletConfigLoop env instance_ rest
            (log ++ (createKubeletConfigCM env instance_ node).2)

/-- The method `handleRuntimeKubeletConfig`. -/
def handleRuntimeKubeletConfig (env : Env) (instance_ : ComplianceScan) :
    Option GoError × List Effect :=
  if instance_.Spec.ScanType ≠ ScanTypeNode then (none, [])
  else
    match (getNodesForScan env instance_).2 with
    | some err => (some err, [])
    | none => kubeletConfigLoop env instance_ (getNodesForScan env instance_).1 []

/-- The scan copy `phaseLaunchingHandler` writes when the workload creation failed with
an error that is not retriable. -/
def launchFailed (env : Env) (scan : ComplianceScan) (err : GoError) : ComplianceScan :=
  { scan with
    Status := { scan.Status with
      ErrorMessage := err.Error,
      Result := ScanStatusResult.Error,
      Phase := ScanStatusPhase.Done,
      EndTimestamp := some env.now,
      Conditions := "Invalid" } }

/-- The scan after the assignments of `phaseLaunchingHandler` that follow a successful
workload creation. -/
def launchingToRunning (scan : ComplianceScan) : ComplianceScan :=
  { scan with
    Status := { scan.Status with Phase := ScanStatusPhase.Running, Conditions := "Processing" } }

/-- The statements of `phaseLaunchingHandler` from the call of `createScanWorkload` to
the end. -/
def launchingWorkload (env : Env) (h : scanTypeHandler) : HandlerOutcome :=
  match (h.createScanWorkload env).1 with
  | some err =>
    if !env.IsRetriable err then
      match env.statusUpdate (launchFailed env h.getScan err) with
      | some updateerr =>
        { result := {}, err := some updateerr, scan := h.getScan,
          log := (h.createScanWorkload env).2
            ++ [Effect.statusUpdate (launchFailed env h.getScan err)] }
      | none =>
        { result := (env.ReturnWithRetriableError err).1,
          err := (env.ReturnWithRetriableError err).2, scan := h.getScan,
          log := (h.createScanWorkload env).2
            ++ [Effect.statusUpdate (launchFailed env h.getScan err),
                Effect.metric h.getScan.Name (launchFailed env h.getScan err).Status] }
    else
      { result := (env.ReturnWithRetriableError err).1,
        err := (env.ReturnWithRetriableError err).2, scan := h.getScan,
        log := (h.createScanWorkload env).2 }
  | none =>
    match env.statusUpdate (launchingToRunning h.getScan) with
    | some err =>
      { result := {}, err := some err, scan := launchingToRunning h.getScan,
        log := (h.createScanWorkload env).2
          ++ [Effect.statusUpdate (launchingToRunning h.getScan)] }
    | none =>
      { result := {}, err := none, scan := launchingToRunning h.getScan,
        log := (h.createScanWorkload env).2
          ++ [Effect.statusUpdate (launchingToRunning h.getScan),
              Effect.metric h.getScan.Name (launchingToRunning h.getScan).Status] }

/-- The calls `phaseLaunchingHandler` starts with, up to `handleRawResultsForScan`. -/
def launchingPrerequisites : List Call :=
  [Call.op Op.createConfigMaps, Call.op Op.handleRootCASecret,
   Call.op Op.handleResultServerSecret, Call.op Op.handleResultClientSecret,
   Call.op Op.handleRawResultsForScan]

/-- The statements of `phaseLaunchingHandler` from the call of `createResultServer` on. -/
def launchingServer (env : Env) (h : scanTypeHandler) : HandlerOutcome :=
  match env.op Op.createResultServer h.getScan with
  | some err =>
    { result := {}, err := some err, scan := h.getScan,
      log := [Effect.op Op.createResultServer h.getScan.Name] }
  | none =>
    match (handleRuntimeKubeletConfig env h.getScan).1 with
    | some err =>
      { result := {}, err := some err, scan := h.getScan,
        log := Effect.op Op.createResultServer h.getScan.Name
          :: (handleRuntimeKubeletConfig env h.getScan).2 }
    | none =>
      (launchingWorkload env h).after
        (Effect.op Op.createResultServer h.getScan.Name
          :: (handleRuntimeKubeletConfig env h.getScan).2)

/-- The method `phaseLaunchingHandler`. -/
def phaseLaunchingHandler (env : Env) (h : scanTypeHandler) : HandlerOutcome :=
  match (runCalls env h.getScan launchingPrerequisites).1 with
  | some err =>
    { result := {}, err := some err, scan := h.getScan,
      log := (runCalls env h.getScan launchingPrerequisites).2 }
  | none =>
    if !env.resumeAfterRawResults h.getScan then
      { result := {}, err := none, scan := h.getScan,
        log := (runCalls env h.getScan launchingPrerequisites).2 }
    else (launchingServer env h).after (runCalls env h.getScan launchingPrerequisites).2

/-- The rescan index `phaseDoneHandler` assigns, from the old index: 0 at
`math.MaxInt64`, the `int64` sum `old + 1` otherwise. -/
def nextRescanIndex (old : Int) : Int :=
  if old = MaxInt64 then 0 else wrapInt64 (old + 1)

/-- The scan copy `phaseDoneHandler` writes when it services a rescan. -/
def rescanReset (env : Env) (instance_ : ComplianceScan) : ComplianceScan :=
  { instance_ with
    Status := { instance_.Status with
      Phase := ScanStatusPhase.Pending,
      Result := ScanStatusResult.NotAvailable,
      StartTimestamp := some env.now,
      CurrentIndex := nextRescanIndex instance_.Status.CurrentIndex } }

/-- The calls of `phaseDoneHandler` that precede its status write, in order: the
cleanup of the handler (when it is not nil) and of the aggregator unless the scan is kept
for debugging, then either the deletion of the scan's resources (with the result records
when a rescan is requested) or the scale-down of the result server. -/
def doneCalls (h : Option scanTypeHandler) (instance_ : ComplianceScan) (doDelete : Bool) :
    List Call :=
  (if doDelete = true ∨ instance_.Spec.Debug = false ∨ instance_.NeedsRescan = true then
    (match h with
      | some hh => [hh.cleanup]
      | none => []) ++ [Call.op Op.deleteAggregator]
   else [])
  ++ (if doDelete = true ∨ instance_.NeedsRescan = true then
        [Call.op Op.deleteResultServer, Call.op Op.deleteResultServerSecret,
         Call.op Op.deleteResultClientSecret, Call.op Op.deleteRootCASecret,
         deleteScriptConfigMaps instance_, deleteKubeletConfigConfigMaps instance_]
        ++ (if instance_.NeedsRescan = true then [deleteResultConfigMaps instance_] else [])
      else [Call.op Op.scaleDownResultServer])

/-- The method `phaseDoneHandler`; at every call site the handler, when not nil, points
to `instance`. -/
def phaseDoneHandler (env : Env) (h : Option scanTypeHandler) (instance_ : ComplianceScan)
    (doDelete : Bool) : HandlerOutcome :=
  match (runCalls env instance_ (doneCalls h instance_ doDelete)).1 with
  | some err =>
    { result := {}, err := some err, scan := instance_,
      log := (runCalls env instance_ (doneCalls h instance_ doDelete)).2 }
  | none =>
    if instance_.NeedsRescan then
      match env.statusUpdate (rescanReset env instance_) with
      | some err =>
        { result := {}, err := some err, scan := instance_,
          log := (runCalls env instance_ (doneCalls h instance_ doDelete)).2
            ++ [Effect.statusUpdate (rescanReset env instance_)] }
      | none =>
        { result := {}, err := none, scan := instance_,
          log := (runCalls env instance_ (doneCalls h instance_ doDelete)).2
            ++ [Effect.statusUpdate (rescanReset env instance_),
                Effect.metric instance_.Name (rescanReset env instance_).Status] }
    else
      { result := {}, err := none, scan := instance_,
        log := (runCalls env instance_ (doneCalls h instance_ doDelete)).2 }

/-! ## Deletion -/

/-- The scan copy of `scanDeleteHandler` after the forced removal of the rescan
annotation. -/
def withoutRescanAnnotation (scan : ComplianceScan) : ComplianceScan :=
  if scan.NeedsRescan then
    { scan with Annotations := mapDelete scan.Annotations ComplianceScanRescanAnnotation }
  else scan

/-- The scan copy of `scanDeleteHandler` with the scan finalizer removed. -/
def withoutFinalizer (scan : ComplianceScan) : ComplianceScan :=
  { scan with Finalizers := RemoveFinalizer scan.Finalizers ScanFinalizer }

/-- The statements of `scanDeleteHandler` after the handler is obtained (`h` is nil for an
unknown scan type); `scan` is the copy with the rescan annotation removed. -/
def scanDeleteCleanup (env : Env) (h : Option scanTypeHandler) (scan : ComplianceScan) :
    HandlerOutcome :=
  match (phaseDoneHandler env h scan doDelete).err with
  | some err =>
    { result := {}, err := some err, scan := scan,
      log := (phaseDoneHandler env h scan doDelete).log }
  | none =>
    match (runCalls env scan
        [deleteResultConfigMaps scan, Call.op Op.deleteRawResultsForScan]).1 with
    | some err =>
      { result := {}, err := some err, scan := scan,
        log := (phaseDoneHandler env h scan doDelete).log
          ++ (runCalls env scan
            [deleteResultConfigMaps scan, Call.op Op.deleteRawResultsForScan]).2 }
    | none =>
      { result := {}, err := env.update (withoutFinalizer scan),
        scan := withoutFinalizer scan,
        log := (phaseDoneHandler env h scan doDelete).log
          ++ (runCalls env scan
            [deleteResultConfigMaps scan, Call.op Op.deleteRawResultsForScan]).2
          ++ [Effect.update (withoutFinalizer scan)] }

/-- The method `scanDeleteHandler`. -/
def scanDeleteHandler (env : Env) (instance_ : ComplianceScan) : HandlerOutcome :=
  if ContainsFinalizer instance_.Finalizers ScanFinalizer then
    match getScanTypeHandler env instance_ with
    | .error err =>
      if !err.IsUnknownScanType then
        { result := {}, err := some err, scan := instance_ }
      else scanDeleteCleanup env none ( withoutRescanAnnotation instance_)
    | .ok none => scanDeleteCleanup env none ( withoutRescanAnnotation instance_)
    | .ok (some h) =>
      scanDeleteCleanup env (some (h.setScan ( withoutRescanAnnotation instance_)))
        ( withoutRescanAnnotation instance_)
  else { result := {}, err := none, scan := instance_ }

/-! ## The reconcile pass -/

/-- The parts of `Reconcile` a pass went through, recorded in order. -/
inductive Step where
  | delveRemote
  | createDelveJob
  | addFinalizer
  | scanDeleteHandler
  | validate
  | getScanTypeHandler
  | handlerValidate
  | nilHandlerCall
  | phasePending
  | phaseLaunching
  | phaseRunning
  | phaseAggregating
  | phaseDone
deriving DecidableEq, Repr

/-- The value `Reconcile` returns, with the requests it sent and the parts it went
through. -/
structure ReconcileOutcome where
  result : ReconcileResult
  err : Option GoError
  log : List Effect := []
  steps : List Step := []
deriving DecidableEq, Repr

/-- The outcome with the requests `sent` and the parts `done` before it put in front. -/
def ReconcileOutcome.after (sent : List Effect) (done : List Step) (o : ReconcileOutcome) :
    ReconcileOutcome :=
  { o with log := sent ++ o.log, steps := done ++ o.steps }

/-- The outcome of a pass that ends by returning what the handler of `step` returns. -/
def ReconcileOutcome.ofHandler (step : Step) (o : HandlerOutcome) : ReconcileOutcome :=
  { result := o.result, err := o.err, log := o.log, steps := [step] }

/-- The `switch` on `scanToBeUpdated.Status.Phase` at the end of `Reconcile`; the handler
points to `scanToBeUpdated`. -/
def reconcileDispatch (env : Env) (h : scanTypeHandler) (scanToBeUpdated : ComplianceScan) :
    ReconcileOutcome :=
  match scanToBeUpdated.Status.Phase with
  | ScanStatusPhase.Pending =>
    ReconcileOutcome.ofHandler Step.phasePending (phasePendingHandler env scanToBeUpdated)
  | ScanStatusPhase.Launching =>
    ReconcileOutcome.ofHandler Step.phaseLaunching (phaseLaunchingHandler env h)
  | ScanStatusPhase.Running =>
    ReconcileOutcome.ofHandler Step.phaseRunning (phaseRunningHandler env h)
  | ScanStatusPhase.Aggregating =>
    ReconcileOutcome.ofHandler Step.phaseAggregating (phaseAggregatingHandler env h)
  | ScanStatusPhase.Done =>
    ReconcileOutcome.ofHandler Step.phaseDone
      (phaseDoneHandler env (some h) scanToBeUpdated dontDelete)
  | ScanStatusPhase.unset => { result := {}, err := none }

/-- The statements of `Reconcile` from the call of the handler's `validate` on. -/
def reconcileHandler (env : Env) (h : scanTypeHandler) (scanToBeUpdated : ComplianceScan) :
    ReconcileOutcome :=
  match (h.validate env).err with
  | some err =>
    { result := {}, err := some err, log := (h.validate env).log,
      steps := [Step.handlerValidate] }
  | none =>
    if !(h.validate env).cont then
      { result := { Requeue := true, RequeueAfter := requeueAfterDefault }, err := none,
        log := (h.validate env).log, steps := [Step.handlerValidate] }
    else
      (reconcileDispatch env h scanToBeUpdated).after (h.validate env).log
        [Step.handlerValidate]

/-- The statements of `Reconcile` from the copy of the instance and the call of
`validate` on.  A nil handler returned without error makes the call of its `validate`
panic; the pass then ends with an error and the part `nilHandlerCall`. -/
def reconcileValidated (env : Env) (instance_ : ComplianceScan) : ReconcileOutcome :=
  match (validate env instance_).err with
  | some err =>
    { result := {}, err := some err, log := (validate env instance_).log,
      steps := [Step.validate] }
  | none =>
    if !(validate env instance_).cont then
      { result := { Requeue := true, RequeueAfter := requeueAfterDefault }, err := none,
        log := (validate env instance_).log, steps := [Step.validate] }
    else
      match getScanTypeHandler env instance_ with
      | .error err =>
        { result := {}, err := some err, log := (validate env instance_).log,
          steps := [Step.validate, Step.getScanTypeHandler] }
      | .ok none =>
        { result := {},
          err := some (GoError.other "panic: invalid memory address or nil pointer dereference"),
          log := (validate env instance_).log,
          steps := [Step.validate, Step.getScanTypeHandler, Step.nilHandlerCall] }
      | .ok (some h) =>
        (reconcileHandler env h instance_).after (validate env instance_).log
          [Step.validate, Step.getScanTypeHandler]

/-- The instance with the scan finalizer appended. -/
def withFinalizer (instance_ : ComplianceScan) : ComplianceScan :=
  { instance_ with Finalizers := instance_.Finalizers ++ [ScanFinalizer] }

/-- The statements of `Reconcile` from the test of the deletion timestamp on. -/
def reconcileFinalizer (env : Env) (instance_ : ComplianceScan) : ReconcileOutcome :=
  if instance_.DeletionTimestamp.isNone then
    if !ContainsFinalizer instance_.Finalizers ScanFinalizer then
      match env.update (withFinalizer instance_) with
      | some err =>
        { result := {}, err := some err, log := [Effect.update (withFinalizer instance_)],
          steps := [Step.addFinalizer] }
      | none =>
        (reconcileValidated env (withFinalizer instance_)).after
          [Effect.update (withFinalizer instance_)] [Step.addFinalizer]
    else reconcileValidated env instance_
  else ReconcileOutcome.ofHandler Step.scanDeleteHandler (scanDeleteHandler env instance_)

/-- The method `retrieveDelveRemoteResults`. -/
def retrieveDelveRemoteResults (env : Env) (instance_ : ComplianceScan) :
    Except GoError String :=
  match env.listJobs instance_ with
  | some err => .error err
  | none => .ok "PLACEHOLDER FOR JOB RESULTS"

/-- The method `parseDelveRemoteResults`. -/
def parseDelveRemoteResults (_rawResults : String) : Except GoError String :=
  .ok "PLACEHOLDER FOR PARSED RESULTS"

/-- The statements of the DelveRemote branch of `Reconcile` after the job is created. -/
def reconcileDelveResults (env : Env) (instance_ : ComplianceScan) : ReconcileOutcome :=
  match retrieveDelveRemoteResults env instance_ with
  | .error err => { result := {}, err := some err }
  | .ok jobResults =>
    match parseDelveRemoteResults jobResults with
    | .error err => { result := {}, err := some err }
    | .ok parsedResults =>
      { result := {},
        err := env.statusUpdate
          { instance_ with Status := { instance_.Status with Results := parsedResults } },
        log := [Effect.statusUpdate
          { instance_ with Status := { instance_.Status with Results := parsedResults } }] }

/-- The branch of `Reconcile` for the scan type `DelveRemoteScanType`. -/
def reconcileDelveRemote (env : Env) (instance_ : ComplianceScan) : ReconcileOutcome :=
  if instance_.Spec.DelveRemoteConfigMap = "" then
    { result := {},
      err := some (GoError.other "DelveRemoteConfigMap not specified in ComplianceScan resource"),
      steps := [Step.delveRemote] }
  else
    match env.getConfigMap
        { Name := instance_.Spec.DelveRemoteConfigMap, Namespace := instance_.Namespace } with
    | .error err =>
      { result := {},
        err := some (GoError.other ("Failed to retrieve DelveRemoteConfigMap: " ++ err.Error)),
        steps := [Step.delveRemote] }
    | .ok configMap =>
      if mapGet configMap.Data "delveImage" = "" then
        { result := {}, err := some (GoError.other "Delve image not specified in ConfigMap"),
          steps := [Step.delveRemote] }
      else if mapGet configMap.Data "delveCommand" = "" then
        { result := {}, err := some (GoError.other "Delve command not specified in ConfigMap"),
          steps := [Step.delveRemote] }
      else
        match env.createJob ("delve-remote-job-" ++ instance_.Name) with
        | some err =>
          { result := {},
            err := some (GoError.other ("Failed to create DelveRemote job: " ++ err.Error)),
            log := [Effect.createJob ("delve-remote-job-" ++ instance_.Name)],
            steps := [Step.delveRemote] }
        | none =>
          (reconcileDelveResults env instance_).after
            [Effect.createJob ("delve-remote-job-" ++ instance_.Name)] [Step.delveRemote]

/-- The statements of `Reconcile` after the instance is fetched. -/
def reconcileInstance (env : Env) (instance_ : ComplianceScan) : ReconcileOutcome :=
  if instance_.Spec.ScanType = DelveRemoteScanType then reconcileDelveRemote env instance_
  else if instance_.Spec.DelveRemoteConfigMap = "" then
    { result := {},
      err := some (GoError.other "DelveRemoteConfigMap not specified in ComplianceScan resource") }
  else
    match env.createJob (instance_.Name ++ "-delve-remote-scan") with
    | some err =>
      { result := {}, err := some err,
        log := [Effect.createJob (instance_.Name ++ "-delve-remote-scan")],
        steps := [Step.createDelveJob] }
    | none =>
      (reconcileFinalizer env instance_).after
        [Effect.createJob (instance_.Name ++ "-delve-remote-scan")] [Step.createDelveJob]

/-- The method `Reconcile`. -/
def Reconcile (env : Env) (request : NamespacedName) : ReconcileOutcome :=
  match env.getScan request with
  | .error err =>
    if err.IsNotFound then { result := {}, err := none }
    else { result := {}, err := some err }
  | .ok instance_ => reconcileInstance env instance_

/-! ## A concrete reconciler over an in-memory store -/

/-- Modelled from the spec: the helper `scanResultReady` is declared outside the two
files; the completion marker of a result record is its `exit-code` field. -/
def recordReady (cm : ConfigMap) : Bool :=
  (cm.Data.lookup "exit-code").isSome

/-- Modelled from the spec: the helper `getScanResult` is declared outside the two files;
the result of a record is read from its exit code, `0` being compliant, `2`
non-compliant and anything else an error carrying the record's `error-msg`. -/
def recordResult (cm : ConfigMap) : ScanStatusResult × Option GoError :=
  if mapGet cm.Data "exit-code" = "0" then (ScanStatusResult.Compliant, none)
  else if mapGet cm.Data "exit-code" = "2" then (ScanStatusResult.NonCompliant, none)
  else (ScanStatusResult.Error, some (GoError.other (mapGet cm.Data "error-msg")))

/-- A reconciler whose client answers from a fixed store of pods, config maps and
inconsistent check results (by scan name) and accepts every write. -/
def storeEnv (pods : List Pod) (cms : List ConfigMap) (inconsistent : List (String × String))
    (now : Int) : Env where
  getPod := fun key =>
    match pods.find? (fun p => p.Name = key.Name ∧ p.Namespace = key.Namespace) with
    | some p => .ok p
    | none => .error (GoError.notFound ("pods " ++ key.Name ++ " not found"))
  getConfigMap := fun key =>
    match cms.find? (fun c => c.Name = key.Name ∧ c.Namespace = key.Namespace) with
    | some c => .ok c
    | none => .error (GoError.notFound ("configmaps " ++ key.Name ++ " not found"))
  createConfigMap := fun _ => none
  createJob := fun _ => none
  statusUpdate := fun _ => none
  update := fun _ => none
  listInconsistent := fun scanName =>
    (((inconsistent.filter (fun kv => kv.1 = scanName)).map (fun kv => kv.2)), none)
  now := now
  hasRecorder := true
  operatorNamespace := "openshift-compliance"
  DNSLengthName := fun _ _ scanName nodeName => scanName ++ "-" ++ nodeName ++ "-pod"
  scanResultReady := recordReady
  getScanResult := recordResult
  checkScanUnknownError := fun _ => none
  PodUnschedulableExitCode := "unschedulable"
  parseDuration := fun str =>
    if str = "5m" then .ok 300000000000
    else .error (GoError.other ("time: invalid duration " ++ str))
  GetResultConfigMap := fun _ cmName _ content exitcode =>
    { Name := cmName, Namespace := "openshift-compliance",
      Data := [("exit-code", exitcode), ("error-msg", content)] }
  newAggregatorPod := fun scan =>
    { Name := "aggregator-pod-" ++ scan.Name, Namespace := "openshift-compliance",
      PriorityClassName := scan.Spec.PriorityClass }
  ValidatePriorityClassExist := fun _ => (true, "")
  launchAggregatorPod := fun _ _ => none
  isAggregatorRunning := fun _ => (false, none)
  HaveOutdatedRemediations := (none, false)
  ScanTypeDelveRemote := "DelveRemote"
  getScan := fun key =>
    .error (GoError.notFound ("compliancescans " ++ key.Name ++ " not found"))
  listNodes := fun _ => ([], none)
  listJobs := fun _ => none
  deleteAllOfConfigMaps := fun _ => none
  op := fun _ _ => none
  resumeAfterRawResults := fun _ => true
  getConfigz := fun _ => ConfigzResponse.content "kubeletconfig"
  getKubeletCMNameForScan := fun scan node => "kubelet-" ++ scan.Name ++ "-" ++ node.Name
  newScanPodForNode := fun scan node =>
    { Name := scan.Name ++ "-" ++ node.Name ++ "-pod", Namespace := "openshift-compliance",
      PriorityClassName := scan.Spec.PriorityClass }
  newPlatformScanPod := fun scan =>
    { Name := scan.Name ++ "-api-checks-pod", Namespace := "openshift-compliance",
      PriorityClassName := scan.Spec.PriorityClass }
  launchScanPod := fun _ _ => none
  IsRetriable := fun _ => false
  ReturnWithRetriableError := fun _ => ({}, none)
  GetScanTypeIfValid := fun scan =>
    if scan.Spec.ScanType = "Node" then .ok "Node"
    else if scan.Spec.ScanType = "Platform" then .ok "Platform"
    else .error GoError.unknownScanType
  GetScanType := fun scan => if scan.Spec.ScanType = "Platform" then "Platform" else "Node"
  ParseQuantity := fun str =>
    if str = "1Gi" then none
    else some (GoError.other ("quantities must match the regular expression: " ++ str))

/-- A result record of the in-memory store for a scan and a target. -/
def recordFor (scanName target exitcode : String) : ConfigMap :=
  { Name := scanName ++ "-" ++ target ++ "-pod", Namespace := "openshift-compliance",
    Data := [("exit-code", exitcode)] }

/-- A result record without completion marker. -/
def incompleteRecordFor (scanName target : String) : ConfigMap :=
  { Name := scanName ++ "-" ++ target ++ "-pod", Namespace := "openshift-compliance",
    Data := [] }

/-! ## Predicates on result records, iterated timeouts and example data -/

/-- The record of `node` is present, complete and a non-skippable error. -/
def hardErrorRecord (env : Env) (scan : ComplianceScan) (node : Node) : Prop :=
  ∃ cm, getNodeScanCM env scan node.Name = .ok cm ∧ env.scanResultReady cm = true ∧
    (env.getScanResult cm).1 = ScanStatusResult.Error ∧
    (scan.IsStrictNodeScan = true ∨
      mapGet cm.Data "exit-code" ≠ env.PodUnschedulableExitCode)

/-- The record of `node` is present and complete, with the given result. -/
def recordWithResult (env : Env) (scan : ComplianceScan) (node : Node)
    (r : ScanStatusResult) : Prop :=
  ∃ cm, getNodeScanCM env scan node.Name = .ok cm ∧ env.scanResultReady cm = true ∧
    (env.getScanResult cm).1 = r

/-- The record of `node` is present and complete and its result is not Error. -/
def cleanRecord (env : Env) (scan : ComplianceScan) (node : Node) : Prop :=
  ∃ cm, getNodeScanCM env scan node.Name = .ok cm ∧ env.scanResultReady cm = true ∧
    (env.getScanResult cm).1 ≠ ScanStatusResult.Error

/-- The result record of some target of the handler cannot be read or lacks its
completion marker. -/
def scanTypeHandler.someRecordMissing (env : Env) : scanTypeHandler → Prop
  | node nh => ∃ n ∈ nh.nodes,
      ∀ cm, getNodeScanCM env nh.scan n.Name = .ok cm → env.scanResultReady cm = false
  | platform ph =>
      ∀ cm, getPlatformScanCM env ph.scan = .ok cm → env.scanResultReady cm = false

/-- No target node of a per-node handler has a present, complete, non-skippable Error
record (a cluster-wide handler has a single target). -/
def scanTypeHandler.noHardError (env : Env) : scanTypeHandler → Prop
  | node nh => ∀ n ∈ nh.nodes, ¬ hardErrorRecord env nh.scan n
  | platform _ => True

/-- The scan object after `k` timeout events, each handled by one application of
`updateScanStatusOnTimeout` to the object the previous application left. -/
def afterTimeouts (env : Env) (timeoutNodes : List String) : Nat → ComplianceScan → ComplianceScan
  | 0, scan => scan
  | k + 1, scan =>
    (updateScanStatusOnTimeout env (afterTimeouts env timeoutNodes k scan) timeoutNodes).scan

/-- The outcome of the application of `updateScanStatusOnTimeout` number `k + 1`. -/
def timeoutEvent (env : Env) (timeoutNodes : List String) (k : Nat) (scan : ComplianceScan) :
    HandlerOutcome :=
  updateScanStatusOnTimeout env (afterTimeouts env timeoutNodes k scan) timeoutNodes

/-- The scan objects sent in status writes, in order. -/
def statusWrites : List Effect → List ComplianceScan
  | [] => []
  | Effect.statusUpdate scan :: rest => scan :: statusWrites rest
  | _ :: rest => statusWrites rest

/-- A cluster-wide scan in phase Aggregating with a budget of three retries of which
`remaining` are left. -/
def aggregatingPlatformScan (remaining : Int) : ComplianceScan :=
  { Name := "s",
    Spec := { ScanType := "Platform", MaxRetryOnTimeout := 3 },
    Status := { Phase := ScanStatusPhase.Aggregating, RemainingRetries := remaining } }

/-- The scan `aggregatingPlatformScan remaining` completed at time 0 with result
Compliant, the counter untouched. -/
def completedPlatformScan (remaining : Int) : ComplianceScan :=
  { Name := "s",
    Spec := { ScanType := "Platform", MaxRetryOnTimeout := 3 },
    Status := { Phase := ScanStatusPhase.Done, Result := ScanStatusResult.Compliant,
                RemainingRetries := remaining, EndTimestamp := some 0,
                Conditions := "Ready" } }

/-- A scan of the given type in phase Running with timeout `5m`, a budget of `max`
retries and `remaining` of them left. -/
def runningScan (scanType : String) (remaining max : Int) : ComplianceScan :=
  { Name := "s",
    Spec := { ScanType := scanType, Timeout := "5m", MaxRetryOnTimeout := max },
    Status := { Phase := ScanStatusPhase.Running, Result := ScanStatusResult.NotAvailable,
                RemainingRetries := remaining } }

/-- The execution unit of scan `s` for a target, in the store of `storeEnv`. -/
def scanPod (target : String) (phase : PodPhase) (created : Int) : Pod :=
  { Name := "s-" ++ target ++ "-pod", Namespace := "openshift-compliance", Phase := phase,
    CreationTimestamp := created }

/-- The scan after the assignment `scan.Status.Phase = PhaseLaunching` of the self-heal
branch of `handleRunningScan`. -/
def regressedToLaunching (scan : ComplianceScan) : ComplianceScan :=
  { scan with Status := { scan.Status with Phase := ScanStatusPhase.Launching } }

/-- The loop of `nodeScanTypeHandler.handleRunningScan` goes on to the next node after the
poll of `node`: its unit has finished, or it is unschedulable and its synthetic result
record exists or could be created. -/
def pollPasses (env : Env) (scan : ComplianceScan) (timeoutVal : Duration) (node : Node) :
    Prop :=
  (isPodRunningInNode env scan node timeoutVal).1 = false ∧
  ((isPodRunningInNode env scan node timeoutVal).2 = none ∨
    ∃ err, (isPodRunningInNode env scan node timeoutVal).2 = some err ∧
      err.IsNotFound = false ∧ err.AsUnschedulable = true ∧
      (ensureUnschedulableCM env scan node err).1 = none)

/-- The timeout of the scan is not set or parses, to the value `timeoutVal`. -/
def timeoutParsed (env : Env) (scan : ComplianceScan) (timeoutVal : Duration) : Prop :=
  (scan.Spec.Timeout = "" ∧ timeoutVal = podTimeoutDisable) ∨
  (scan.Spec.Timeout ≠ "" ∧ env.parseDuration scan.Spec.Timeout = .ok timeoutVal)

/-- The read of the execution unit of `target` for the scan returns not-found. -/
def unitNotFound (env : Env) (scan : ComplianceScan) (target : String) : Prop :=
  ∃ err, env.getPod { Name := getPodForNodeName env scan.Name target,
                      Namespace := env.operatorNamespace } = .error err ∧
    err.IsNotFound = true

/-- The outcome of a self-healed poll of `scan`: still running, no timed-out target, the
phase set to Launching and written, the error being that of the write. -/
def selfHealed (env : Env) (scan : ComplianceScan) (o : RunningOutcome) : Prop :=
  o.running = true ∧ o.timeoutNodes = [] ∧ o.scan = regressedToLaunching scan ∧
  statusWrites o.log = [regressedToLaunching scan] ∧
  o.err = env.statusUpdate (regressedToLaunching scan)

/-- The reconciler `env` with the nodes `nodes` matching every node selector. -/
def Env.withNodes (env : Env) (nodes : List Node) : Env :=
  { env with listNodes := fun _ => (nodes, none) }

/-- The reconciler `env` with `scan` stored under its name and namespace. -/
def Env.withScan (env : Env) (scan : ComplianceScan) : Env :=
  { env with
    getScan := fun key =>
      if key.Name = scan.Name ∧ key.Namespace = scan.Namespace then .ok scan
      else env.getScan key }

/-- A scan in phase Pending that carries the given annotations. -/
def pendingScan (annotations : List (String × String)) : ComplianceScan :=
  { Name := "s", Annotations := annotations,
    Spec := { ScanType := "Node" },
    Status := { Phase := ScanStatusPhase.Pending, EndTimestamp := some 5 } }

/-- The instance of `phaseAggregatingHandler` after the warnings returned by
`shouldLaunchAggregator`, when not empty, are stored in its status. -/
def aggregatingInstance (env : Env) (h : scanTypeHandler) : ComplianceScan :=
  if (h.shouldLaunchAggregator env).warnings ≠ "" then
    { h.getScan with
      Status := { h.getScan.Status with Warnings := (h.shouldLaunchAggregator env).warnings } }
  else h.getScan

/-- The aggregator pod `phaseAggregatingHandler` hands to `launchAggregatorPod`: the new
pod, without priority class when that class does not exist. -/
def aggregatorPod (env : Env) (inst : ComplianceScan) : Pod :=
  if !(env.ValidatePriorityClassExist (env.newAggregatorPod inst).PriorityClassName).1 then
    { env.newAggregatorPod inst with PriorityClassName := "" }
  else env.newAggregatorPod inst

/-- The pass of `phaseAggregatingHandler` gets to the check whether the aggregation unit
is running: the aggregation input is ready without error and the launch of the unit
returned no error. -/
def reachesAggregatorCheck (env : Env) (h : scanTypeHandler) : Prop :=
  (h.shouldLaunchAggregator env).err = none ∧
  (h.shouldLaunchAggregator env).isReady = true ∧
  env.launchAggregatorPod (aggregatingInstance env h)
    (aggregatorPod env (aggregatingInstance env h)) = none

/-- The pass of `phaseAggregatingHandler` gets to the result gathering: it gets to the
check of the aggregation unit, which is found not running, without error. -/
def reachesGathering (env : Env) (h : scanTypeHandler) : Prop :=
  reachesAggregatorCheck env h ∧
  (env.isAggregatorRunning (aggregatingInstance env h)).1 = false ∧
  (env.isAggregatorRunning (aggregatingInstance env h)).2 = none

/-- The result `Requeue: true, RequeueAfter: requeueAfterDefault`. -/
def requeueDefault : ReconcileResult :=
  { Requeue := true, RequeueAfter := requeueAfterDefault }

/-- A per-node scan in phase Done, completed at time 5, that carries the given
annotations. -/
def doneScan (annotations : List (String × String)) : ComplianceScan :=
  { Name := "s", Annotations := annotations,
    Spec := { ScanType := "Node", DelveRemoteConfigMap := "cfg" },
    Status := { Phase := ScanStatusPhase.Done, Result := ScanStatusResult.Compliant,
                StartTimestamp := some 1, EndTimestamp := some 5, CurrentIndex := 7 } }

/-- The part is a run of one of the five phase handlers from the phase dispatch. -/
def Step.isPhaseHandler : Step → Bool
  | Step.phasePending => true
  | Step.phaseLaunching => true
  | Step.phaseRunning => true
  | Step.phaseAggregating => true
  | Step.phaseDone => true
  | _ => false

/-- The scan copy `nodeScanTypeHandler.validate` writes when no node matched. -/
def notApplicable (scan : ComplianceScan) : ComplianceScan :=
  { scan with
    Status := { scan.Status with
      Result := ScanStatusResult.NotApplicable,
      Phase := ScanStatusPhase.Done } }

/-- A per-node scan `s` with all defaults set (type, storage size, access modes), a
config map named for the remote-debug job, and the given phase, finalizers and deletion
timestamp. -/
def nodeScan (phase : ScanStatusPhase) (finalizers : List String) (deletion : Option Int) :
    ComplianceScan :=
  { Name := "s", Finalizers := finalizers, DeletionTimestamp := deletion,
    Spec := { ScanType := "Node", DelveRemoteConfigMap := "cfg",
              RawResultStorage := { Size := "1Gi", PVAccessModes := ["ReadWriteOnce"] } },
    Status := { Phase := phase } }

/-- The request for the scan `s` of the examples. -/
def requestS : NamespacedName := { Name := "s", Namespace := "" }

/-- The names of the jobs the requests of a pass asked to create. -/
def jobsCreated : List Effect → List String
  | [] => []
  | Effect.createJob name :: rest => name :: jobsCreated rest
  | _ :: rest => jobsCreated rest

/-- The scan object in the store after the accepted writes of a pass: an update replaces
the object but not its status, a status update replaces the status only. -/
def storedScan (scan : ComplianceScan) : List Effect → ComplianceScan
  | [] => scan
  | Effect.update s :: rest => storedScan { s with Status := scan.Status } rest
  | Effect.statusUpdate s :: rest => storedScan { scan with Status := s.Status } rest
  | _ :: rest => storedScan scan rest

/-- The reconciler as a second pass finds it after a pass on `scan` whose requests `log`
were all accepted, with no other change: the scan is as stored, and the jobs the pass
created exist, so that the creation of one of them returns already-exists. -/
def Env.afterPass (env : Env) (scan : ComplianceScan) (log : List Effect) : Env :=
  { env.withScan (storedScan scan log) with
    createJob := fun name =>
      if name ∈ jobsCreated log then
        some (GoError.alreadyExists ("jobs " ++ name ++ " already exists"))
      else env.createJob name }

/-- The per-node scan `s` with all defaults set and no config map named for the
remote-debug job, with the given phase, finalizers and deletion timestamp. -/
def plainNodeScan (phase : ScanStatusPhase) (finalizers : List String)
    (deletion : Option Int) : ComplianceScan :=
  { Name := "s", Finalizers := finalizers, DeletionTimestamp := deletion,
    Spec := { ScanType := "Node",
              RawResultStorage := { Size := "1Gi", PVAccessModes := ["ReadWriteOnce"] } },
    Status := { Phase := phase } }

/-- The pass of `Reconcile` on `scan` gets to the test of the deletion timestamp: the
scan is not of the remote-debug type, names a config map for the remote-debug job, and
the creation of that job returned no error. -/
def reachesFinalizerStep (env : Env) (scan : ComplianceScan) : Prop :=
  scan.Spec.ScanType ≠ DelveRemoteScanType ∧ scan.Spec.DelveRemoteConfigMap ≠ "" ∧
  env.createJob (scan.Name ++ "-delve-remote-scan") = none

/-- The scan objects sent in object writes (`r.Client.Update`), in order. -/
def objectUpdates : List Effect → List ComplianceScan
  | [] => []
  | Effect.update scan :: rest => scan :: objectUpdates rest
  | _ :: rest => objectUpdates rest

/-- The calls `scanDeleteHandler` makes before it removes the finalizer, in order: those
of the forced Done handling (`phaseDoneHandler` with `doDelete`), the deletion of the
result records and the deletion of the raw results. -/
def deletionCalls (h : Option scanTypeHandler) (scan : ComplianceScan) : List Call :=
  doneCalls h scan doDelete
    ++ [deleteResultConfigMaps scan, Call.op Op.deleteRawResultsForScan]

/-- The reconciler `env` with the call `failing` answered by the error `err`. -/
def Env.withFailingOp (env : Env) (failing : Op) (err : GoError) : Env :=
  { env with op := fun o scan => if o = failing then some err else env.op o scan }

/-- The scan copy `validate` writes for an empty phase. -/
def pendingDefault (env : Env) (scan : ComplianceScan) : ComplianceScan :=
  { scan with
    Status := { scan.Status with
      RemainingRetries := scan.Spec.MaxRetryOnTimeout,
      Phase := ScanStatusPhase.Pending,
      StartTimestamp := some env.now,
      Conditions := "Pending" } }

/-- The scan copy `validate` writes for an empty scan type. -/
def scanTypeDefault (scan : ComplianceScan) : ComplianceScan :=
  { scan with Spec := { scan.Spec with ScanType := ScanTypeNode } }

/-- The scan copy `validate` writes for an empty raw-storage size. -/
def storageSizeDefault (scan : ComplianceScan) : ComplianceScan :=
  { scan with
    Spec := { scan.Spec with
      RawResultStorage := { scan.Spec.RawResultStorage with Size := DefaultRawStorageSize } } }

/-- The scan copy `validate` writes for empty access modes. -/
def accessModeDefault (scan : ComplianceScan) : ComplianceScan :=
  { scan with
    Spec := { scan.Spec with
      RawResultStorage := { scan.Spec.RawResultStorage with
        PVAccessModes := defaultAccessMode } } }

/-- The scan copy `validate` writes for a scan type that is not valid. -/
def invalidScanType (env : Env) (scan : ComplianceScan) : ComplianceScan :=
  { scan with
    Status := { scan.Status with
      Result := ScanStatusResult.Error,
      ErrorMessage := "Scan type '" ++ scan.Spec.ScanType ++ "' is not valid",
      Phase := ScanStatusPhase.Done,
      EndTimestamp := some env.now,
      Conditions := "Invalid" } }

/-- The scan copy `validate` writes for a raw-storage size that does not parse, `err`
being the error of the parser. -/
def invalidStorageSize (env : Env) (scan : ComplianceScan) (err : GoError) : ComplianceScan :=
  { scan with
    Status := { scan.Status with
      ErrorMessage := "Error parsing RawResultsStorageSize: " ++ err.Error,
      Result := ScanStatusResult.Error,
      Phase := ScanStatusPhase.Done,
      EndTimestamp := some env.now,
      Conditions := "Invalid" } }

/-- The spec of the scan fails validation: the scan type is set and `GetScanTypeIfValid`
rejects it, or the scan type is set and accepted, size and access modes of the raw
storage are set, and the size does not parse as a quantity. -/
def specInvalid (env : Env) (scan : ComplianceScan) : Prop :=
  scan.Spec.ScanType ≠ "" ∧
  ((∃ err, env.GetScanTypeIfValid scan = .error err) ∨
   ((∃ scantype, env.GetScanTypeIfValid scan = .ok scantype) ∧
    scan.Spec.RawResultStorage.Size ≠ "" ∧
    scan.Spec.RawResultStorage.PVAccessModes ≠ [] ∧
    ∃ err, env.ParseQuantity scan.Spec.RawResultStorage.Size = some err))

/-- The scan `s` of the examples with the finalizer set, a config map named for the
remote-debug job, and the given phase, scan type, timeout and raw-storage settings. -/
def scanWithSpec (phase : ScanStatusPhase) (scanType timeout size : String)
    (modes : List String) : ComplianceScan :=
  { Name := "s", Finalizers := [ScanFinalizer],
    Spec := { ScanType := scanType, Timeout := timeout, DelveRemoteConfigMap := "cfg",
              RawResultStorage := { Size := size, PVAccessModes := modes } },
    Status := { Phase := phase } }

/-- The timeout string of the scan is set and does not parse as a duration. -/
def timeoutInvalid (env : Env) (scan : ComplianceScan) : Prop :=
  scan.Spec.Timeout ≠ "" ∧ ∃ err, env.parseDuration scan.Spec.Timeout = .error err

/-- The handler's `validate` rejects the scan for its timeout string or, for the per-node
handler, for an unschedulable target node of a strict scan; the target set of the per-node
handler is not empty. -/
def scanTypeHandler.invalid (env : Env) : scanTypeHandler → Prop
  | node nh => nh.nodes ≠ [] ∧
      ((nh.scan.IsStrictNodeScan = true ∧ ∃ n ∈ nh.nodes, n.Unschedulable = true) ∨
        timeoutInvalid env nh.scan)
  | platform ph => timeoutInvalid env ph.scan

/-- The scan `Reconcile` validates: the fetched scan, with the finalizer appended when it
was missing. -/
def registered (scan : ComplianceScan) : ComplianceScan :=
  if ContainsFinalizer scan.Finalizers ScanFinalizer then scan else withFinalizer scan

/-- The pass of `Reconcile` on `scan` gets to the call of `validate`: it gets to the test
of the deletion timestamp, the scan is not being deleted, and the write that registers a
missing finalizer is accepted. -/
def reachesValidation (env : Env) (scan : ComplianceScan) : Prop :=
  reachesFinalizerStep env scan ∧ scan.DeletionTimestamp = none ∧
  (ContainsFinalizer scan.Finalizers ScanFinalizer = false →
    env.update (withFinalizer scan) = none)

/-- The `PodScheduled` condition of the pod is `c` and its reason is Unschedulable; `c`
is the first condition of that type in the list, the one the loop of `isPodRunning`
stops at. -/
def scheduledUnschedulable (pod : Pod) (c : PodCondition) : Prop :=
  ∃ pre post, pod.Conditions = pre ++ c :: post ∧ (∀ d ∈ pre, d.Kind ≠ PodScheduled) ∧
    c.Kind = PodScheduled ∧ c.Reason = PodReasonUnschedulable

/-- The result record `nodeScanTypeHandler.handleRunningScan` makes sure exists for a node
whose pod is unschedulable with the error `err`. -/
def unschedulableRecord (env : Env) (scan : ComplianceScan) (node : Node) (err : GoError) :
    ConfigMap :=
  env.GetResultConfigMap scan (getConfigMapForNodeName env scan.Name node.Name) node.Name
    err.Error env.PodUnschedulableExitCode

/-- The execution unit of scan `s` for a target, waiting to be scheduled, with a
`PodScheduled` condition of reason Unschedulable. -/
def unschedulablePod (target message : String) (created : Int) : Pod :=
  { Name := "s-" ++ target ++ "-pod", Namespace := "openshift-compliance",
    Phase := PodPhase.Pending, CreationTimestamp := created,
    Conditions := [{ Kind := "Ready", Reason := "", Message := "" },
                   { Kind := PodScheduled, Reason := PodReasonUnschedulable,
                     Message := message }] }

/-- The error of a read by the client that is not not-found; it is none of the typed
errors `isPodRunning` makes itself (unschedulable, timeout). -/
def plainReadError (e : GoError) : Prop :=
  e.IsNotFound = false ∧ e.AsUnschedulable = false ∧ e.AsTimeout = false

/-- The result record of `node` can be read and holds no unknown error: the loop of
`nodeScanTypeHandler.shouldLaunchAggregator` goes on to the next node. -/
def recordPasses (env : Env) (scan : ComplianceScan) (node : Node) : Prop :=
  ∃ cm, getNodeScanCM env scan node.Name = .ok cm ∧ env.checkScanUnknownError cm = none

/-- The reconciler `env` whose reads of config maps all return the error `err`. -/
def Env.withConfigMapReadError (env : Env) (err : GoError) : Env :=
  { env with getConfigMap := fun _ => .error err }

/-- The reconciler `env` whose reads of pods all return the error `err`. -/
def Env.withPodReadError (env : Env) (err : GoError) : Env :=
  { env with getPod := fun _ => .error err }

/-- The object `validate` writes when it defaults a field of the spec: the first empty
one of scan type, raw-storage size and access modes, set to its default. -/
def specDefaulted (inst u : ComplianceScan) : Prop :=
  (inst.Spec.ScanType = "" ∧ u = scanTypeDefault inst) ∨
  (inst.Spec.ScanType ≠ "" ∧ inst.Spec.RawResultStorage.Size = "" ∧
    u = storageSizeDefault inst) ∨
  (inst.Spec.ScanType ≠ "" ∧ inst.Spec.RawResultStorage.Size ≠ "" ∧
    inst.Spec.RawResultStorage.PVAccessModes = [] ∧ u = accessModeDefault inst)

/-- The request is a write to the object store: every request but an event and a
metric. -/
def Effect.isWrite : Effect → Bool
  | Effect.event _ _ _ => false
  | Effect.metric _ _ => false
  | _ => true

theorem nodeGatherLoop_hardError (env : Env) (scan : ComplianceScan) (node : Node)
    (hnode : hardErrorRecord env scan node) :
    ∀ (nodes : List Node) (st : GatherState), node ∈ nodes →
      (nodeGatherLoop env scan nodes st).result = ScanStatusResult.Error ∧
      (nodeGatherLoop env scan nodes st).isReady = true := by
  intro nodes
  induction nodes with
  | nil => intro st h; simp at h
  | cons n rest ih =>
    intro st h
    obtain ⟨cm, hread, hready, herr, hns⟩ := hnode
    rcases List.mem_cons.1 h with heq | hmem
    · subst heq
      unfold nodeGatherLoop
      simp only [hread, hready, herr]
      rcases hns with hs | hc
      · simp [hs]
      · simp [hc]
    · unfold nodeGatherLoop
      split
      · exact ih _ hmem
      · split
        · exact ih _ hmem
        · split
          · rename_i hres
            split
            · exact ih _ hmem
            · exact ⟨hres, rfl⟩
          · split
            · exact ih _ hmem
            · exact ih _ hmem

/-- C1: per-node `gatherResults`, error dominance.  If the record of some target node is
present, complete and has result Error, and the scan is strict or the record's exit code
is not the reserved unschedulable code, the handler returns result Error with
ready = true, whatever the other nodes' records are. -/
theorem C1_error_dominance (env : Env) (nh : nodeScanTypeHandler) (node : Node) (cm : ConfigMap)
    (hmem : node ∈ nh.nodes)
    (hread : getNodeScanCM env nh.scan node.Name = .ok cm)
    (hready : env.scanResultReady cm = true)
    (herr : (env.getScanResult cm).1 = ScanStatusResult.Error)
    (hns : nh.scan.IsStrictNodeScan = true ∨
      mapGet cm.Data "exit-code" ≠ env.PodUnschedulableExitCode) :
    (nh.gatherResults env).result = ScanStatusResult.Error ∧
    (nh.gatherResults env).isReady = true :=
  nodeGatherLoop_hardError env nh.scan node ⟨cm, hread, hready, herr, hns⟩ nh.nodes {} hmem

/-- C1 at a concrete input: four nodes whose records are absent, non-compliant, a hard
error and compliant. -/
theorem C1_error_dominance_witness :
    (nodeScanTypeHandler.gatherResults
      (storeEnv [] [recordFor "s" "b" "2", recordFor "s" "c" "1", recordFor "s" "d" "0"] [] 0)
      { scan := { Name := "s" },
        nodes := [{ Name := "a" }, { Name := "b" }, { Name := "c" }, { Name := "d" }] }).result
      = ScanStatusResult.Error ∧
    (nodeScanTypeHandler.gatherResults
      (storeEnv [] [recordFor "s" "b" "2", recordFor "s" "c" "1", recordFor "s" "d" "0"] [] 0)
      { scan := { Name := "s" },
        nodes := [{ Name := "a" }, { Name := "b" }, { Name := "c" }, { Name := "d" }] }).isReady
      = true :=
  C1_error_dominance
    (storeEnv [] [recordFor "s" "b" "2", recordFor "s" "c" "1", recordFor "s" "d" "0"] [] 0)
    { scan := { Name := "s" },
      nodes := [{ Name := "a" }, { Name := "b" }, { Name := "c" }, { Name := "d" }] }
    { Name := "c" } (recordFor "s" "c" "1")
    (by decide) (by rfl) (by decide) (by decide) (by decide)

theorem recordWithResult_clean (env : Env) (scan : ComplianceScan) (node : Node)
    (r : ScanStatusResult) (hr : r ≠ ScanStatusResult.Error)
    (h : recordWithResult env scan node r) : cleanRecord env scan node := by
  obtain ⟨cm, h1, h2, h3⟩ := h
  exact ⟨cm, h1, h2, by rw [h3]; exact hr⟩

theorem nodeGatherLoop_clean_ready (env : Env) (scan : ComplianceScan) :
    ∀ (nodes : List Node) (st : GatherState),
      (∀ node ∈ nodes, cleanRecord env scan node) →
      (nodeGatherLoop env scan nodes st).isReady = st.isReady ∧
      (nodeGatherLoop env scan nodes st).err = none := by
  intro nodes
  induction nodes with
  | nil =>
    intro st _
    unfold nodeGatherLoop
    split <;> exact ⟨rfl, rfl⟩
  | cons n rest ih =>
    intro st hall
    obtain ⟨cm, hread, hready, hne⟩ := hall n (List.mem_cons_self n rest)
    have hrest : ∀ node ∈ rest, cleanRecord env scan node :=
      fun node hm => hall node (List.mem_cons_of_mem n hm)
    unfold nodeGatherLoop
    simp only [hread, hready, hne, if_false, Bool.true_eq_false]
    split
    · exact ih _ hrest
    · exact ih _ hrest

theorem nodeGatherLoop_clean_nonCompliant (env : Env) (scan : ComplianceScan) :
    ∀ (nodes : List Node) (st : GatherState),
      (∀ node ∈ nodes, cleanRecord env scan node) →
      ((st.compliant = false ∧ st.lastNonCompliance = ScanStatusResult.NonCompliant) ∨
        ∃ node ∈ nodes, recordWithResult env scan node ScanStatusResult.NonCompliant) →
      (nodeGatherLoop env scan nodes st).result = ScanStatusResult.NonCompliant := by
  intro nodes
  induction nodes with
  | nil =>
    intro st _ h
    rcases h with ⟨hc, hl⟩ | ⟨node, hm, _⟩
    · unfold nodeGatherLoop
      simp [hc, hl]
    · simp at hm
  | cons n rest ih =>
    intro st hall h
    obtain ⟨cm, hread, hready, hne⟩ := hall n (List.mem_cons_self n rest)
    have hrest : ∀ node ∈ rest, cleanRecord env scan node :=
      fun node hm => hall node (List.mem_cons_of_mem n hm)
    unfold nodeGatherLoop
    simp only [hread, hready, hne, if_false, Bool.true_eq_false]
    split
    · rename_i hnc
      exact ih _ hrest (Or.inl ⟨rfl, hnc⟩)
    · rename_i hnc
      apply ih _ hrest
      rcases h with hst | ⟨node, hm, cm2, hread2, _, hres2⟩
      · exact Or.inl hst
      · rcases List.mem_cons.1 hm with heq | hm2
        · subst heq
          rw [hread] at hread2
          cases hread2
          exact absurd hres2 hnc
        · exact Or.inr ⟨node, hm2, cm2, hread2, by assumption, hres2⟩

theorem nodeGatherLoop_all_compliant (env : Env) (scan : ComplianceScan) :
    ∀ (nodes : List Node) (st : GatherState),
      (∀ node ∈ nodes, recordWithResult env scan node ScanStatusResult.Compliant) →
      st.compliant = true →
      (nodes ≠ [] ∨ st.result = ScanStatusResult.Compliant) →
      (nodeGatherLoop env scan nodes st).result = ScanStatusResult.Compliant := by
  intro nodes
  induction nodes with
  | nil =>
    intro st _ hc h
    rcases h with h | h
    · exact absurd rfl h
    · unfold nodeGatherLoop
      simp [hc, h]
  | cons n rest ih =>
    intro st hall hc _
    obtain ⟨cm, hread, hready, hres⟩ := hall n (List.mem_cons_self n rest)
    have hrest : ∀ node ∈ rest, recordWithResult env scan node ScanStatusResult.Compliant :=
      fun node hm => hall node (List.mem_cons_of_mem n hm)
    unfold nodeGatherLoop
    simp only [hread, hready, hres, if_false, Bool.true_eq_false, reduceCtorEq]
    exact ih _ hrest hc (Or.inr rfl)

/-- C2: per-node `gatherResults`, precedence without errors.  On a non-empty list of
target nodes whose records are all present and complete and none has result Error, the
handler returns (NonCompliant, ready, no error) if some record is NonCompliant and
(Compliant, ready, no error) if every record is Compliant. -/
theorem C2_precedence_without_errors (env : Env) (nh : nodeScanTypeHandler)
    (hne : nh.nodes ≠ [])
    (hall : ∀ node ∈ nh.nodes, ∃ cm, getNodeScanCM env nh.scan node.Name = .ok cm ∧
      env.scanResultReady cm = true ∧ (env.getScanResult cm).1 ≠ ScanStatusResult.Error) :
    ((∃ node ∈ nh.nodes, ∃ cm, getNodeScanCM env nh.scan node.Name = .ok cm ∧
        (env.getScanResult cm).1 = ScanStatusResult.NonCompliant) →
      (nh.gatherResults env).result = ScanStatusResult.NonCompliant ∧
      (nh.gatherResults env).isReady = true ∧ (nh.gatherResults env).err = none) ∧
    ((∀ node ∈ nh.nodes, ∃ cm, getNodeScanCM env nh.scan node.Name = .ok cm ∧
        (env.getScanResult cm).1 = ScanStatusResult.Compliant) →
      (nh.gatherResults env).result = ScanStatusResult.Compliant ∧
      (nh.gatherResults env).isReady = true ∧ (nh.gatherResults env).err = none) := by
  have hready := nodeGatherLoop_clean_ready env nh.scan nh.nodes {} hall
  refine ⟨fun hnc => ⟨?_, hready.1, hready.2⟩, fun hc => ⟨?_, hready.1, hready.2⟩⟩
  · obtain ⟨node, hm, cm, hread, hres⟩ := hnc
    obtain ⟨cm2, hread2, hready2, _⟩ := hall node hm
    have hcm : cm2 = cm := by
      rw [hread] at hread2
      cases hread2
      rfl
    subst hcm
    exact nodeGatherLoop_clean_nonCompliant env nh.scan nh.nodes {} hall
      (Or.inr ⟨node, hm, cm2, hread, hready2, hres⟩)
  · apply nodeGatherLoop_all_compliant env nh.scan nh.nodes {} _ rfl (Or.inl hne)
    intro node hm
    obtain ⟨cm, hread, hres⟩ := hc node hm
    obtain ⟨cm2, hread2, hready2, _⟩ := hall node hm
    have hcm : cm2 = cm := by
      rw [hread] at hread2
      cases hread2
      rfl
    subst hcm
    exact ⟨cm2, hread, hready2, hres⟩

/-- C2 at a concrete input: three nodes with records compliant, non-compliant and
compliant give NonCompliant; two compliant nodes give Compliant. -/
theorem C2_precedence_without_errors_witness :
    ((nodeScanTypeHandler.gatherResults
        (storeEnv [] [recordFor "s" "a" "0", recordFor "s" "b" "2", recordFor "s" "c" "0"] [] 0)
        { scan := { Name := "s" },
          nodes := [{ Name := "a" }, { Name := "b" }, { Name := "c" }] }).result
        = ScanStatusResult.NonCompliant ∧
      (nodeScanTypeHandler.gatherResults
        (storeEnv [] [recordFor "s" "a" "0", recordFor "s" "b" "2", recordFor "s" "c" "0"] [] 0)
        { scan := { Name := "s" },
          nodes := [{ Name := "a" }, { Name := "b" }, { Name := "c" }] }).isReady = true ∧
      (nodeScanTypeHandler.gatherResults
        (storeEnv [] [recordFor "s" "a" "0", recordFor "s" "b" "2", recordFor "s" "c" "0"] [] 0)
        { scan := { Name := "s" },
          nodes := [{ Name := "a" }, { Name := "b" }, { Name := "c" }] }).err = none) ∧
    ((nodeScanTypeHandler.gatherResults
        (storeEnv [] [recordFor "s" "a" "0", recordFor "s" "b" "0"] [] 0)
        { scan := { Name := "s" }, nodes := [{ Name := "a" }, { Name := "b" }] }).result
        = ScanStatusResult.Compliant ∧
      (nodeScanTypeHandler.gatherResults
        (storeEnv [] [recordFor "s" "a" "0", recordFor "s" "b" "0"] [] 0)
        { scan := { Name := "s" }, nodes := [{ Name := "a" }, { Name := "b" }] }).isReady
        = true ∧
      (nodeScanTypeHandler.gatherResults
        (storeEnv [] [recordFor "s" "a" "0", recordFor "s" "b" "0"] [] 0)
        { scan := { Name := "s" }, nodes := [{ Name := "a" }, { Name := "b" }] }).err
        = none) :=
  ⟨(C2_precedence_without_errors
      (storeEnv [] [recordFor "s" "a" "0", recordFor "s" "b" "2", recordFor "s" "c" "0"] [] 0)
      { scan := { Name := "s" }, nodes := [{ Name := "a" }, { Name := "b" }, { Name := "c" }] }
      (by decide)
      (by
        intro node hm
        simp only [List.mem_cons, List.mem_singleton, List.not_mem_nil, or_false] at hm
        rcases hm with rfl | rfl | rfl
        · exact ⟨recordFor "s" "a" "0", by rfl, by decide, by decide⟩
        · exact ⟨recordFor "s" "b" "2", by rfl, by decide, by decide⟩
        · exact ⟨recordFor "s" "c" "0", by rfl, by decide, by decide⟩)).1
      ⟨{ Name := "b" }, by decide, recordFor "s" "b" "2", by rfl, by decide⟩,
   (C2_precedence_without_errors
      (storeEnv [] [recordFor "s" "a" "0", recordFor "s" "b" "0"] [] 0)
      { scan := { Name := "s" }, nodes := [{ Name := "a" }, { Name := "b" }] }
      (by decide)
      (by
        intro node hm
        simp only [List.mem_cons, List.mem_singleton, List.not_mem_nil, or_false] at hm
        rcases hm with rfl | rfl
        · exact ⟨recordFor "s" "a" "0", by rfl, by decide, by decide⟩
        · exact ⟨recordFor "s" "b" "0", by rfl, by decide, by decide⟩)).2
      (by
        intro node hm
        simp only [List.mem_cons, List.mem_singleton, List.not_mem_nil, or_false] at hm
        rcases hm with rfl | rfl
        · exact ⟨recordFor "s" "a" "0", by rfl, by decide⟩
        · exact ⟨recordFor "s" "b" "0", by rfl, by decide⟩)⟩

/-! ## The inconsistency veto -/

/-- C3 fails as stated: with one inconsistent check result for the scan and a handler
that returned an Error result with an error, the controller-level `gatherResults`
returns the handler's Error, not Inconsistent. -/
theorem C3_veto_counterexample :
    0 < ((storeEnv [] [recordFor "s" "a" "1"] [("s", "check-1")] 0).listInconsistent "s").1.length ∧
    (scanTypeHandler.gatherResults (storeEnv [] [recordFor "s" "a" "1"] [("s", "check-1")] 0)
      (scanTypeHandler.node { scan := { Name := "s" }, nodes := [{ Name := "a" }] })).result
      = ScanStatusResult.Error ∧
    (scanTypeHandler.gatherResults (storeEnv [] [recordFor "s" "a" "1"] [("s", "check-1")] 0)
      (scanTypeHandler.node { scan := { Name := "s" }, nodes := [{ Name := "a" }] })).err
      ≠ none ∧
    (gatherResults (storeEnv [] [recordFor "s" "a" "1"] [("s", "check-1")] 0)
      (scanTypeHandler.node { scan := { Name := "s" }, nodes := [{ Name := "a" }] })).result
      ≠ ScanStatusResult.Inconsistent := by
  decide

/-- C3 as amended: when the query for inconsistent check results of the scan returns at
least one item, the controller-level `gatherResults` returns Inconsistent with a non-nil
error if the handler's `gatherResults` returned no error, whatever result the handler
computed; if the handler returned an error, the handler's result, readiness and error
are returned unchanged. -/
theorem C3_veto_amended (env : Env) (h : scanTypeHandler)
    (hitems : 0 < (env.listInconsistent h.getScan.Name).1.length) :
    ((h.gatherResults env).err = none →
      (gatherResults env h).result = ScanStatusResult.Inconsistent ∧
      (gatherResults env h).err ≠ none) ∧
    ((h.gatherResults env).err ≠ none →
      (gatherResults env h).result = (h.gatherResults env).result ∧
      (gatherResults env h).isReady = (h.gatherResults env).isReady ∧
      (gatherResults env h).err = (h.gatherResults env).err) := by
  constructor
  · intro hnone
    unfold gatherResults
    simp only [hnone]
    rw [if_pos hitems]
    exact ⟨rfl, by simp⟩
  · intro hsome
    cases herr : (h.gatherResults env).err with
    | none => exact absurd herr hsome
    | some e => simp [gatherResults, herr]

/-- C3 as amended, at a concrete input: a compliant node and one inconsistent check
result. -/
theorem C3_veto_amended_witness :
    (gatherResults (storeEnv [] [recordFor "s" "a" "0"] [("s", "check-1")] 0)
      (scanTypeHandler.node { scan := { Name := "s" }, nodes := [{ Name := "a" }] })).result
      = ScanStatusResult.Inconsistent ∧
    (gatherResults (storeEnv [] [recordFor "s" "a" "0"] [("s", "check-1")] 0)
      (scanTypeHandler.node { scan := { Name := "s" }, nodes := [{ Name := "a" }] })).err
      ≠ none :=
  (C3_veto_amended (storeEnv [] [recordFor "s" "a" "0"] [("s", "check-1")] 0)
    (scanTypeHandler.node { scan := { Name := "s" }, nodes := [{ Name := "a" }] })
    (by decide)).1 (by decide)

/-! ## Skipping unschedulable targets -/

theorem nodeGatherLoop_unschedulable_last (env : Env) (scan : ComplianceScan) (last : Node)
    (cm : ConfigMap) (hstrict : scan.IsStrictNodeScan = false)
    (hread : getNodeScanCM env scan last.Name = .ok cm)
    (hready : env.scanResultReady cm = true)
    (herr : (env.getScanResult cm).1 = ScanStatusResult.Error)
    (hcode : mapGet cm.Data "exit-code" = env.PodUnschedulableExitCode) :
    ∀ (front : List Node) (st : GatherState),
      (∀ n ∈ front, recordWithResult env scan n ScanStatusResult.Compliant) →
      st.compliant = true →
      (nodeGatherLoop env scan (front ++ [last]) st).result = ScanStatusResult.Error ∧
      (nodeGatherLoop env scan (front ++ [last]) st).isReady = st.isReady ∧
      (nodeGatherLoop env scan (front ++ [last]) st).err = none := by
  intro front
  induction front with
  | nil =>
    intro st _ hc
    simp [nodeGatherLoop, hread, hready, herr, hstrict, hcode, hc]
  | cons n rest ih =>
    intro st hall hc
    obtain ⟨cm2, hread2, hready2, hres2⟩ := hall n (List.mem_cons_self n rest)
    have hrest : ∀ m ∈ rest, recordWithResult env scan m ScanStatusResult.Compliant :=
      fun m hm => hall m (List.mem_cons_of_mem n hm)
    rw [List.cons_append]
    unfold nodeGatherLoop
    simp only [hread2, hready2, hres2, if_false, Bool.true_eq_false, reduceCtorEq]
    exact ih _ hrest hc

/-- C4, the code at the failing input: a non-strict scan over two nodes, one with a
compliant record and one with the synthetic unschedulable record.  With the
unschedulable node first the handler returns (Compliant, ready, no error); with the
unschedulable node last the stale `result` of the skipped record is returned, giving
(Error, ready, no error). -/
theorem C4_unschedulable_last_returns_error :
    ((nodeScanTypeHandler.gatherResults
        (storeEnv [] [recordFor "s" "a" "0", recordFor "s" "b" "unschedulable"] [] 0)
        { scan := { Name := "s", Spec := { StrictNodeScan := false } },
          nodes := [{ Name := "b" }, { Name := "a" }] }).result = ScanStatusResult.Compliant ∧
      (nodeScanTypeHandler.gatherResults
        (storeEnv [] [recordFor "s" "a" "0", recordFor "s" "b" "unschedulable"] [] 0)
        { scan := { Name := "s", Spec := { StrictNodeScan := false } },
          nodes := [{ Name := "b" }, { Name := "a" }] }).isReady = true ∧
      (nodeScanTypeHandler.gatherResults
        (storeEnv [] [recordFor "s" "a" "0", recordFor "s" "b" "unschedulable"] [] 0)
        { scan := { Name := "s", Spec := { StrictNodeScan := false } },
          nodes := [{ Name := "b" }, { Name := "a" }] }).err = none) ∧
    ((nodeScanTypeHandler.gatherResults
        (storeEnv [] [recordFor "s" "a" "0", recordFor "s" "b" "unschedulable"] [] 0)
        { scan := { Name := "s", Spec := { StrictNodeScan := false } },
          nodes := [{ Name := "a" }, { Name := "b" }] }).result = ScanStatusResult.Error ∧
      (nodeScanTypeHandler.gatherResults
        (storeEnv [] [recordFor "s" "a" "0", recordFor "s" "b" "unschedulable"] [] 0)
        { scan := { Name := "s", Spec := { StrictNodeScan := false } },
          nodes := [{ Name := "a" }, { Name := "b" }] }).isReady = true ∧
      (nodeScanTypeHandler.gatherResults
        (storeEnv [] [recordFor "s" "a" "0", recordFor "s" "b" "unschedulable"] [] 0)
        { scan := { Name := "s", Spec := { StrictNodeScan := false } },
          nodes := [{ Name := "a" }, { Name := "b" }] }).err = none) := by
  decide

/-! ## Readiness of the gathered results -/

theorem nodeGatherLoop_not_ready (env : Env) (scan : ComplianceScan) :
    ∀ (nodes : List Node) (st : GatherState),
      (∀ n ∈ nodes, ¬ hardErrorRecord env scan n) →
      (st.isReady = false ∨ ∃ n ∈ nodes,
        ∀ cm, getNodeScanCM env scan n.Name = .ok cm → env.scanResultReady cm = false) →
      (nodeGatherLoop env scan nodes st).isReady = false := by
  intro nodes
  induction nodes with
  | nil =>
    intro st _ h
    rcases h with h | ⟨n, hm, _⟩
    · unfold nodeGatherLoop
      split <;> exact h
    · simp at hm
  | cons n rest ih =>
    intro st hno h
    have hrest : ∀ m ∈ rest, ¬ hardErrorRecord env scan m :=
      fun m hm => hno m (List.mem_cons_of_mem n hm)
    unfold nodeGatherLoop
    split
    · exact ih _ hrest (Or.inl rfl)
    · rename_i foundCM hread
      have hkeep : env.scanResultReady foundCM = true →
          (st.isReady = false ∨ ∃ m ∈ rest,
            ∀ cm, getNodeScanCM env scan m.Name = .ok cm → env.scanResultReady cm = false) := by
        intro hready
        rcases h with hst | ⟨m, hm, hmiss⟩
        · exact Or.inl hst
        · rcases List.mem_cons.1 hm with heq | hm2
          · subst heq
            have := hmiss foundCM hread
            rw [hready] at this
            exact absurd this (by decide)
          · exact Or.inr ⟨m, hm2, hmiss⟩
      split
      · exact ih _ hrest (Or.inl rfl)
      · rename_i hnr
        have hready : env.scanResultReady foundCM = true := by
          cases hb : env.scanResultReady foundCM with
          | true => rfl
          | false => exact absurd hb hnr
        split
        · rename_i hres
          split
          · exact ih _ hrest (hkeep hready)
          · rename_i hskip
            exfalso
            apply hno n (List.mem_cons_self n rest)
            refine ⟨foundCM, hread, hready, hres, ?_⟩
            by_cases hs : scan.IsStrictNodeScan = true
            · exact Or.inl hs
            · refine Or.inr (fun hcode => hskip ⟨?_, hcode⟩)
              simpa using hs
        · split
          · exact ih _ hrest (hkeep hready)
          · exact ih _ hrest (hkeep hready)

/-- C5 fails as stated: a per-node scan whose first node has no result record and whose
second node has a complete Error record returns ready = true. -/
theorem C5_not_ready_counterexample :
    (∀ cm, getNodeScanCM (storeEnv [] [recordFor "s" "b" "1"] [] 0) { Name := "s" } "a" = .ok cm →
      (storeEnv [] [recordFor "s" "b" "1"] [] 0).scanResultReady cm = false) ∧
    (scanTypeHandler.gatherResults (storeEnv [] [recordFor "s" "b" "1"] [] 0)
      (scanTypeHandler.node
        { scan := { Name := "s" }, nodes := [{ Name := "a" }, { Name := "b" }] })).isReady
      = true := by
  refine ⟨?_, by decide⟩
  intro cm h
  exact absurd h (by simp [getNodeScanCM, getConfigMapForNodeName, storeEnv, recordFor])

/-- C5 as amended: for both handler variants, if at least one target's result record
cannot be read or lacks its completion marker, and (per-node variant) no target has a
present, complete Error record that is not skipped as unschedulable, the handler's
`gatherResults` returns ready = false. -/
theorem C5_not_ready_amended (env : Env) (h : scanTypeHandler)
    (hmissing : h.someRecordMissing env) (hnoerr : h.noHardError env) :
    (h.gatherResults env).isReady = false := by
  cases h with
  | node nh =>
    exact nodeGatherLoop_not_ready env nh.scan nh.nodes {} hnoerr (Or.inr hmissing)
  | platform ph =>
    simp only [scanTypeHandler.gatherResults, platformScanTypeHandler.gatherResults]
    split
    · rfl
    · rename_i foundCM hread
      rw [if_pos (hmissing foundCM hread)]

/-- C5 as amended, at concrete inputs: a per-node scan whose second node has no record
and whose first node is compliant, and a cluster-wide scan whose record lacks the
completion marker. -/
theorem C5_not_ready_amended_witness :
    (scanTypeHandler.gatherResults (storeEnv [] [recordFor "s" "a" "0"] [] 0)
      (scanTypeHandler.node
        { scan := { Name := "s" }, nodes := [{ Name := "a" }, { Name := "b" }] })).isReady
      = false ∧
    (scanTypeHandler.gatherResults
      (storeEnv [] [incompleteRecordFor "s" "api-checks"] [] 0)
      (scanTypeHandler.platform { scan := { Name := "s" } })).isReady = false :=
  ⟨C5_not_ready_amended (storeEnv [] [recordFor "s" "a" "0"] [] 0)
      (scanTypeHandler.node
        { scan := { Name := "s" }, nodes := [{ Name := "a" }, { Name := "b" }] })
      ⟨{ Name := "b" }, by decide, fun cm h =>
        absurd h (by simp [getNodeScanCM, getConfigMapForNodeName, storeEnv, recordFor])⟩
      (by
        intro n hm
        simp only [List.mem_cons, List.mem_singleton, List.not_mem_nil, or_false] at hm
        rintro ⟨cm, hread, _, herr, _⟩
        rcases hm with rfl | rfl
        · have hcm : cm = recordFor "s" "a" "0" := by
            have h2 : getNodeScanCM (storeEnv [] [recordFor "s" "a" "0"] [] 0) { Name := "s" }
                "a" = .ok (recordFor "s" "a" "0") := by rfl
            rw [h2] at hread
            cases hread
            rfl
          subst hcm
          exact absurd herr (by decide)
        · exact absurd hread
            (by simp [getNodeScanCM, getConfigMapForNodeName, storeEnv, recordFor])),
   C5_not_ready_amended (storeEnv [] [incompleteRecordFor "s" "api-checks"] [] 0)
      (scanTypeHandler.platform { scan := { Name := "s" } })
      (by
        intro cm hread
        have h2 : getPlatformScanCM (storeEnv [] [incompleteRecordFor "s" "api-checks"] [] 0)
            { Name := "s" } = .ok (incompleteRecordFor "s" "api-checks") := by rfl
        rw [h2] at hread
        cases hread
        decide)
      trivial⟩

/-! ## The retry budget -/

theorem generateResultEventForScan_no_retrying (env : Env) (scan : ComplianceScan) (m : String) :
    Effect.event "Warning" "Retrying" m ∉ generateResultEventForScan env scan := by
  unfold generateResultEventForScan
  intro h
  simp only [List.mem_append, List.mem_singleton, Effect.event.injEq] at h
  rcases h with (h | h) | h
  · exact absurd h.1 (by decide)
  · split at h
    · simp at h
    · split at h <;> simp at h
  · split at h <;> simp at h

theorem updateScanStatusOnTimeout_retry (env : Env) (scan : ComplianceScan)
    (timeoutNodes : List String) (h : 0 < scan.Status.RemainingRetries) :
    (updateScanStatusOnTimeout env scan timeoutNodes).scan.Status.RemainingRetries
      = scan.Status.RemainingRetries - 1 ∧
    (updateScanStatusOnTimeout env scan timeoutNodes).scan.Spec = scan.Spec ∧
    (updateScanStatusOnTimeout env scan timeoutNodes).scan.Status.Phase = ScanStatusPhase.Done ∧
    (updateScanStatusOnTimeout env scan timeoutNodes).scan.Status.Result
      = ScanStatusResult.Error ∧
    (updateScanStatusOnTimeout env scan timeoutNodes).scan.Status.ErrorMessage
      = "Timeout while waiting for the scan pod to be finished." ∧
    (updateScanStatusOnTimeout env scan timeoutNodes).err
      = env.statusUpdate (updateScanStatusOnTimeout env scan timeoutNodes).scan ∧
    (updateScanStatusOnTimeout env scan timeoutNodes).log
      = [Effect.event "Warning" "Retrying"
          ("Retrying scan " ++ scan.Name ++ " due to timeout on " ++
            ",".intercalate timeoutNodes),
         Effect.statusUpdate (updateScanStatusOnTimeout env scan timeoutNodes).scan] := by
  have hgt : scan.Status.RemainingRetries > 0 := h
  simp [updateScanStatusOnTimeout, hgt]

theorem updateScanStatusOnTimeout_exhausted (env : Env) (scan : ComplianceScan)
    (timeoutNodes : List String) (h : ¬ 0 < scan.Status.RemainingRetries) :
    (updateScanStatusOnTimeout env scan timeoutNodes).scan.Status.RemainingRetries
      = scan.Spec.MaxRetryOnTimeout ∧
    (updateScanStatusOnTimeout env scan timeoutNodes).scan.Spec = scan.Spec ∧
    (updateScanStatusOnTimeout env scan timeoutNodes).scan.Status.Phase = ScanStatusPhase.Done ∧
    (updateScanStatusOnTimeout env scan timeoutNodes).scan.Status.Result
      = ScanStatusResult.Error ∧
    (updateScanStatusOnTimeout env scan timeoutNodes).scan.Status.ErrorMessage
      = "Timeout while waiting for the scan pod to be finished." ∧
    (updateScanStatusOnTimeout env scan timeoutNodes).err
      = env.statusUpdate (updateScanStatusOnTimeout env scan timeoutNodes).scan ∧
    (updateScanStatusOnTimeout env scan timeoutNodes).log
      = generateResultEventForScan env (updateScanStatusOnTimeout env scan timeoutNodes).scan
        ++ [Effect.statusUpdate (updateScanStatusOnTimeout env scan timeoutNodes).scan] := by
  have hgt : ¬ scan.Status.RemainingRetries > 0 := h
  simp [updateScanStatusOnTimeout, hgt]

theorem afterTimeouts_budget (env : Env) (timeoutNodes : List String) (scan : ComplianceScan)
    (N : Nat) (hmax : scan.Spec.MaxRetryOnTimeout = N) (hrem : scan.Status.RemainingRetries = N) :
    ∀ k, k ≤ N →
      (afterTimeouts env timeoutNodes k scan).Spec.MaxRetryOnTimeout = N ∧
      (afterTimeouts env timeoutNodes k scan).Status.RemainingRetries = (N : Int) - (k : Int) := by
  intro k
  induction k with
  | zero =>
    intro _
    simp [afterTimeouts, hmax, hrem]
  | succ k ih =>
    intro hk
    obtain ⟨h1, h2⟩ := ih (Nat.le_of_succ_le hk)
    have hpos : 0 < (afterTimeouts env timeoutNodes k scan).Status.RemainingRetries := by
      rw [h2]
      omega
    obtain ⟨hr, hs, _⟩ :=
      updateScanStatusOnTimeout_retry env (afterTimeouts env timeoutNodes k scan) timeoutNodes hpos
    constructor
    · show (updateScanStatusOnTimeout env (afterTimeouts env timeoutNodes k scan)
        timeoutNodes).scan.Spec.MaxRetryOnTimeout = N
      rw [hs, h1]
    · show (updateScanStatusOnTimeout env (afterTimeouts env timeoutNodes k scan)
        timeoutNodes).scan.Status.RemainingRetries = (N : Int) - ((k + 1 : Nat) : Int)
      rw [hr, h2]
      omega

/-- C6: the retry budget count.  Starting from a scan with `Spec.MaxRetryOnTimeout = N`
and `Status.RemainingRetries = N` and applying `updateScanStatusOnTimeout` repeatedly with
successful status writes, each of the first `N` applications finds retries left, takes
the retry branch (it sends the Retrying event and writes the status) and lowers
`RemainingRetries` by exactly one; application number `N + 1` finds no retries left,
takes the other branch (no Retrying event) and ends with result Error. -/
theorem C6_retry_budget_count (env : Env) (timeoutNodes : List String) (scan : ComplianceScan)
    (N : Nat) (hmax : scan.Spec.MaxRetryOnTimeout = N) (hrem : scan.Status.RemainingRetries = N)
    (hwrite : ∀ s, env.statusUpdate s = none) :
    (∀ k, k < N →
      0 < (afterTimeouts env timeoutNodes k scan).Status.RemainingRetries ∧
      (timeoutEvent env timeoutNodes k scan).scan.Status.RemainingRetries
        = (afterTimeouts env timeoutNodes k scan).Status.RemainingRetries - 1 ∧
      (timeoutEvent env timeoutNodes k scan).err = none ∧
      ∃ m, (timeoutEvent env timeoutNodes k scan).log
        = [Effect.event "Warning" "Retrying" m,
           Effect.statusUpdate (timeoutEvent env timeoutNodes k scan).scan]) ∧
    ((afterTimeouts env timeoutNodes N scan).Status.RemainingRetries = 0 ∧
      (timeoutEvent env timeoutNodes N scan).scan.Status.Result = ScanStatusResult.Error ∧
      (timeoutEvent env timeoutNodes N scan).err = none ∧
      (∀ m, Effect.event "Warning" "Retrying" m ∉ (timeoutEvent env timeoutNodes N scan).log) ∧
      Effect.statusUpdate (timeoutEvent env timeoutNodes N scan).scan
        ∈ (timeoutEvent env timeoutNodes N scan).log) := by
  constructor
  · intro k hk
    obtain ⟨_, h2⟩ := afterTimeouts_budget env timeoutNodes scan N hmax hrem k (Nat.le_of_lt hk)
    have hpos : 0 < (afterTimeouts env timeoutNodes k scan).Status.RemainingRetries := by
      rw [h2]
      omega
    obtain ⟨hr, _, _, _, _, he, hl⟩ :=
      updateScanStatusOnTimeout_retry env (afterTimeouts env timeoutNodes k scan) timeoutNodes hpos
    refine ⟨hpos, hr, ?_, _, hl⟩
    unfold timeoutEvent
    rw [he]
    exact hwrite _
  · obtain ⟨_, h2⟩ := afterTimeouts_budget env timeoutNodes scan N hmax hrem N (Nat.le_refl N)
    have hzero : (afterTimeouts env timeoutNodes N scan).Status.RemainingRetries = 0 := by
      rw [h2]
      omega
    have hnot : ¬ 0 < (afterTimeouts env timeoutNodes N scan).Status.RemainingRetries := by
      rw [hzero]
      decide
    obtain ⟨_, _, _, hres, _, he, hl⟩ :=
      updateScanStatusOnTimeout_exhausted env (afterTimeouts env timeoutNodes N scan)
        timeoutNodes hnot
    refine ⟨hzero, hres, ?_, ?_, ?_⟩
    · unfold timeoutEvent
      rw [he]
      exact hwrite _
    · intro m hm
      unfold timeoutEvent at hm
      rw [hl] at hm
      rcases List.mem_append.1 hm with h | h
      · exact generateResultEventForScan_no_retrying env _ m h
      · simp at h
    · unfold timeoutEvent
      rw [hl]
      simp

/-- C6 at a concrete input: a budget of two retries. -/
theorem C6_retry_budget_count_witness :
    (afterTimeouts (storeEnv [] [] [] 0) ["a"] 2
        { Name := "s", Spec := { MaxRetryOnTimeout := 2 },
          Status := { RemainingRetries := 2 } }).Status.RemainingRetries = 0 ∧
    (timeoutEvent (storeEnv [] [] [] 0) ["a"] 2
        { Name := "s", Spec := { MaxRetryOnTimeout := 2 },
          Status := { RemainingRetries := 2 } }).scan.Status.Result = ScanStatusResult.Error :=
  ⟨(C6_retry_budget_count (storeEnv [] [] [] 0) ["a"]
      { Name := "s", Spec := { MaxRetryOnTimeout := 2 }, Status := { RemainingRetries := 2 } }
      2 rfl rfl (fun _ => rfl)).2.1,
   (C6_retry_budget_count (storeEnv [] [] [] 0) ["a"]
      { Name := "s", Spec := { MaxRetryOnTimeout := 2 }, Status := { RemainingRetries := 2 } }
      2 rfl rfl (fun _ => rfl)).2.2.1⟩

theorem statusWrites_append (a b : List Effect) :
    statusWrites (a ++ b) = statusWrites a ++ statusWrites b := by
  induction a with
  | nil => rfl
  | cons e rest ih =>
    cases e <;> simp [statusWrites, ih]

theorem statusWrites_generateResultEventForScan (env : Env) (scan : ComplianceScan) :
    statusWrites (generateResultEventForScan env scan) = [] := by
  unfold generateResultEventForScan
  simp only [statusWrites_append]
  split <;> split <;> (try split) <;> simp [statusWrites]

theorem statusWrites_updateStatusWithEvent (env : Env) (scan : ComplianceScan) :
    statusWrites (updateStatusWithEvent env scan).2 = [scan] := by
  unfold updateStatusWithEvent
  split
  · simp [statusWrites]
  · split
    · show statusWrites ([Effect.statusUpdate scan] ++ generateResultEventForScan env scan)
        = [scan]
      rw [statusWrites_append, statusWrites_generateResultEventForScan]
      rfl
    · rfl

theorem statusWrites_nodeGatherLoop (env : Env) (scan : ComplianceScan) :
    ∀ (nodes : List Node) (st : GatherState),
      statusWrites (nodeGatherLoop env scan nodes st).log = statusWrites st.log := by
  intro nodes
  induction nodes with
  | nil =>
    intro st
    unfold nodeGatherLoop
    split <;> rfl
  | cons n rest ih =>
    intro st
    unfold nodeGatherLoop
    split
    · exact ih _
    · split
      · exact ih _
      · split
        · split
          · rw [ih]
            simp [statusWrites_append, statusWrites]
          · rfl
        · split
          · exact ih _
          · exact ih _

theorem statusWrites_gatherResults (env : Env) (h : scanTypeHandler) :
    statusWrites (gatherResults env h).log = [] := by
  have hh : statusWrites (h.gatherResults env).log = [] := by
    cases h with
    | node nh => exact statusWrites_nodeGatherLoop env nh.scan nh.nodes {}
    | platform ph =>
      simp only [scanTypeHandler.gatherResults, platformScanTypeHandler.gatherResults]
      split
      · rfl
      · split <;> rfl
  simp only [gatherResults]
  split
  · exact hh
  · split <;> exact hh

theorem aggregatingOnError_budget (env : Env) (inst : ComplianceScan) (err : GoError) :
    (aggregatingOnError env inst err).scan.Status.RemainingRetries
      = inst.Status.RemainingRetries ∧
    (aggregatingOnError env inst err).scan.Spec = inst.Spec := by
  simp only [aggregatingOnError]
  split <;> exact ⟨rfl, rfl⟩

theorem aggregatingOnError_writes (env : Env) (inst : ComplianceScan) (err : GoError) :
    statusWrites (aggregatingOnError env inst err).log = [(aggregatingOnError env inst err).scan] := by
  simp only [aggregatingOnError]
  split
  · exact statusWrites_updateStatusWithEvent env _
  · simp only [statusWrites_append, statusWrites_updateStatusWithEvent]
    rfl

theorem aggregatingGather_budget (env : Env) (h : scanTypeHandler) (inst : ComplianceScan) :
    (aggregatingGather env h inst).scan.Status.RemainingRetries = inst.Status.RemainingRetries ∧
    (aggregatingGather env h inst).scan.Spec = inst.Spec := by
  simp only [aggregatingGather]
  split
  · exact ⟨rfl, rfl⟩
  · split <;> exact ⟨rfl, rfl⟩

theorem aggregatingGather_writes (env : Env) (h : scanTypeHandler) (inst : ComplianceScan) :
    statusWrites (aggregatingGather env h inst).log = [] ∨
    statusWrites (aggregatingGather env h inst).log = [(aggregatingGather env h inst).scan] := by
  simp only [aggregatingGather]
  split
  · exact Or.inl (statusWrites_gatherResults env _)
  · right
    split
    · simp only [statusWrites_append, statusWrites_updateStatusWithEvent,
        statusWrites_gatherResults]
      rfl
    · simp only [statusWrites_append, statusWrites_updateStatusWithEvent,
        statusWrites_gatherResults]
      rfl

theorem aggregatingAwait_budget (env : Env) (h : scanTypeHandler) (inst : ComplianceScan) :
    (aggregatingAwait env h inst).scan.Status.RemainingRetries = inst.Status.RemainingRetries ∧
    (aggregatingAwait env h inst).scan.Spec = inst.Spec := by
  simp only [aggregatingAwait]
  split
  · split <;> exact ⟨rfl, rfl⟩
  · split
    · split <;> exact ⟨rfl, rfl⟩
    · exact aggregatingGather_budget env h inst

theorem aggregatingAwait_writes (env : Env) (h : scanTypeHandler) (inst : ComplianceScan) :
    statusWrites (aggregatingAwait env h inst).log = [] ∨
    statusWrites (aggregatingAwait env h inst).log = [(aggregatingAwait env h inst).scan] := by
  simp only [aggregatingAwait]
  split
  · split <;> exact Or.inl rfl
  · split
    · split <;> exact Or.inr rfl
    · exact aggregatingGather_writes env h inst

theorem aggregatingLaunch_budget (env : Env) (h : scanTypeHandler) (inst : ComplianceScan) :
    (aggregatingLaunch env h inst).scan.Status.RemainingRetries = inst.Status.RemainingRetries ∧
    (aggregatingLaunch env h inst).scan.Spec = inst.Spec := by
  simp only [aggregatingLaunch]
  split
  · exact ⟨rfl, rfl⟩
  · exact aggregatingAwait_budget env h inst

theorem aggregatingLaunch_writes (env : Env) (h : scanTypeHandler) (inst : ComplianceScan) :
    statusWrites (aggregatingLaunch env h inst).log = [] ∨
    statusWrites (aggregatingLaunch env h inst).log = [(aggregatingLaunch env h inst).scan] := by
  have hpre : ∀ (b : Bool) (w : String) (p : Pod),
      statusWrites ((if b then [Effect.event "Warning" "PriorityClass" w] else [])
        ++ [Effect.launchAggregatorPod inst p]) = [] := by
    intro b w p
    cases b <;> rfl
  simp only [aggregatingLaunch]
  split
  · exact Or.inl (hpre _ _ _)
  · simp only [HandlerOutcome.after]
    rw [statusWrites_append, hpre, List.nil_append]
    exact aggregatingAwait_writes env h inst

theorem phaseAggregatingHandler_budget (env : Env) (h : scanTypeHandler) :
    (phaseAggregatingHandler env h).scan.Status.RemainingRetries
      = h.getScan.Status.RemainingRetries ∧
    (phaseAggregatingHandler env h).scan.Spec = h.getScan.Spec := by
  have hinst : ∀ (c : Prop) [Decidable c] (w : String),
      (if c then ({ h.getScan with Status := { h.getScan.Status with Warnings := w } } :
          ComplianceScan) else h.getScan).Status.RemainingRetries
        = h.getScan.Status.RemainingRetries ∧
      (if c then ({ h.getScan with Status := { h.getScan.Status with Warnings := w } } :
          ComplianceScan) else h.getScan).Spec = h.getScan.Spec := by
    intro c _ w
    split <;> exact ⟨rfl, rfl⟩
  simp only [phaseAggregatingHandler]
  split
  · rw [(aggregatingOnError_budget env _ _).1, (aggregatingOnError_budget env _ _).2]
    exact hinst _ _
  · split
    · exact hinst _ _
    · rw [(aggregatingLaunch_budget env h _).1, (aggregatingLaunch_budget env h _).2]
      exact hinst _ _

theorem phaseAggregatingHandler_writes (env : Env) (h : scanTypeHandler) :
    statusWrites (phaseAggregatingHandler env h).log = [] ∨
    statusWrites (phaseAggregatingHandler env h).log = [(phaseAggregatingHandler env h).scan] := by
  simp only [phaseAggregatingHandler]
  split
  · exact Or.inr (aggregatingOnError_writes env _ _)
  · split
    · exact Or.inl rfl
    · exact aggregatingLaunch_writes env h _

/-- C7 fails as stated: a cluster-wide scan with `MaxRetryOnTimeout = 3` of which two
retries were consumed completes with result Compliant; the one status written has phase
Done and still `RemainingRetries = 1`. -/
theorem C7_reset_counterexample :
    statusWrites (phaseAggregatingHandler
        (storeEnv [] [recordFor "s" "api-checks" "0"] [] 0)
        (scanTypeHandler.platform { scan := aggregatingPlatformScan 1 })).log
      = [completedPlatformScan 1] ∧
    (phaseAggregatingHandler
        (storeEnv [] [recordFor "s" "api-checks" "0"] [] 0)
        (scanTypeHandler.platform { scan := aggregatingPlatformScan 1 })).err = none ∧
    (completedPlatformScan 1).Status.Phase = ScanStatusPhase.Done ∧
    (completedPlatformScan 1).Status.RemainingRetries
      ≠ (completedPlatformScan 1).Spec.MaxRetryOnTimeout := by
  decide

/-- C7 as amended: every status `phaseAggregatingHandler` writes, in particular the one
with phase Done and the gathered result that completes the scan, carries the
`RemainingRetries` the scan had before the call and the same `MaxRetryOnTimeout`; the
handler never resets the counter, so it equals `Spec.MaxRetryOnTimeout` after the call
exactly when it did before. -/
theorem C7_budget_kept_amended (env : Env) (h : scanTypeHandler) (written : ComplianceScan)
    (hw : written ∈ statusWrites (phaseAggregatingHandler env h).log) :
    written.Status.RemainingRetries = h.getScan.Status.RemainingRetries ∧
    written.Spec.MaxRetryOnTimeout = h.getScan.Spec.MaxRetryOnTimeout ∧
    (written.Status.RemainingRetries = written.Spec.MaxRetryOnTimeout ↔
      h.getScan.Status.RemainingRetries = h.getScan.Spec.MaxRetryOnTimeout) := by
  have hb := phaseAggregatingHandler_budget env h
  have hscan : written = (phaseAggregatingHandler env h).scan := by
    rcases phaseAggregatingHandler_writes env h with h0 | h1
    · rw [h0] at hw
      simp at hw
    · rw [h1] at hw
      simpa using hw
  subst hscan
  refine ⟨hb.1, by rw [hb.2], ?_⟩
  rw [hb.1, hb.2]

/-- C7 as amended, at a concrete input: the completion of a scan whose budget was full
keeps it full. -/
theorem C7_budget_kept_amended_witness :
    completedPlatformScan 3 ∈ statusWrites (phaseAggregatingHandler
        (storeEnv [] [recordFor "s" "api-checks" "0"] [] 0)
        (scanTypeHandler.platform { scan := aggregatingPlatformScan 3 })).log ∧
    (completedPlatformScan 3).Status.RemainingRetries = 3 :=
  ⟨by decide,
   (C7_budget_kept_amended
      (storeEnv [] [recordFor "s" "api-checks" "0"] [] 0)
      (scanTypeHandler.platform { scan := aggregatingPlatformScan 3 })
      (completedPlatformScan 3) (by decide)).1⟩

/-! ## The timeout policy -/

/-- C8 fails as stated: called on a Running scan with one retry left,
`updateScanStatusOnTimeout` writes a status with phase Done and result Error. -/
theorem C8_retry_counterexample :
    0 < (runningScan "Node" 1 1).Status.RemainingRetries ∧
    (updateScanStatusOnTimeout (storeEnv [] [] [] 0) (runningScan "Node" 1 1)
      ["a"]).scan.Status.Phase = ScanStatusPhase.Done ∧
    (updateScanStatusOnTimeout (storeEnv [] [] [] 0) (runningScan "Node" 1 1)
      ["a"]).scan.Status.Result = ScanStatusResult.Error ∧
    statusWrites (updateScanStatusOnTimeout (storeEnv [] [] [] 0) (runningScan "Node" 1 1)
      ["a"]).log
      = [(updateScanStatusOnTimeout (storeEnv [] [] [] 0) (runningScan "Node" 1 1) ["a"]).scan] := by
  decide

/-- C8 as amended: `updateScanStatusOnTimeout` called with `RemainingRetries > 0`
decrements `RemainingRetries` by one and writes the status with phase Done, result Error
and the timeout message; called with `RemainingRetries = 0` it sets result Error with
the timeout message, resets `RemainingRetries` to `Spec.MaxRetryOnTimeout` and writes the
status with phase Done. -/
theorem C8_timeout_policy_amended (env : Env) (scan : ComplianceScan)
    (timeoutNodes : List String) :
    (0 < scan.Status.RemainingRetries →
      (updateScanStatusOnTimeout env scan timeoutNodes).scan.Status.RemainingRetries
        = scan.Status.RemainingRetries - 1 ∧
      (updateScanStatusOnTimeout env scan timeoutNodes).scan.Status.Phase
        = ScanStatusPhase.Done ∧
      (updateScanStatusOnTimeout env scan timeoutNodes).scan.Status.Result
        = ScanStatusResult.Error ∧
      (updateScanStatusOnTimeout env scan timeoutNodes).scan.Status.ErrorMessage
        = "Timeout while waiting for the scan pod to be finished." ∧
      statusWrites (updateScanStatusOnTimeout env scan timeoutNodes).log
        = [(updateScanStatusOnTimeout env scan timeoutNodes).scan]) ∧
    (scan.Status.RemainingRetries = 0 →
      (updateScanStatusOnTimeout env scan timeoutNodes).scan.Status.RemainingRetries
        = scan.Spec.MaxRetryOnTimeout ∧
      (updateScanStatusOnTimeout env scan timeoutNodes).scan.Status.Phase
        = ScanStatusPhase.Done ∧
      (updateScanStatusOnTimeout env scan timeoutNodes).scan.Status.Result
        = ScanStatusResult.Error ∧
      (updateScanStatusOnTimeout env scan timeoutNodes).scan.Status.ErrorMessage
        = "Timeout while waiting for the scan pod to be finished." ∧
      statusWrites (updateScanStatusOnTimeout env scan timeoutNodes).log
        = [(updateScanStatusOnTimeout env scan timeoutNodes).scan]) := by
  constructor
  · intro hpos
    obtain ⟨h1, _, h3, h4, h5, _, h7⟩ :=
      updateScanStatusOnTimeout_retry env scan timeoutNodes hpos
    refine ⟨h1, h3, h4, h5, ?_⟩
    rw [h7]
    rfl
  · intro hzero
    have hnot : ¬ 0 < scan.Status.RemainingRetries := by
      rw [hzero]
      decide
    obtain ⟨h1, _, h3, h4, h5, _, h7⟩ :=
      updateScanStatusOnTimeout_exhausted env scan timeoutNodes hnot
    refine ⟨h1, h3, h4, h5, ?_⟩
    rw [h7, statusWrites_append, statusWrites_generateResultEventForScan]
    rfl

/-- C8 as amended, at concrete inputs: one retry left of two, and none left of two. -/
theorem C8_timeout_policy_amended_witness :
    (updateScanStatusOnTimeout (storeEnv [] [] [] 0) (runningScan "Node" 1 2)
      ["a"]).scan.Status.RemainingRetries = 1 - 1 ∧
    (updateScanStatusOnTimeout (storeEnv [] [] [] 0) (runningScan "Node" 0 2)
      ["a"]).scan.Status.RemainingRetries = 2 :=
  ⟨((C8_timeout_policy_amended (storeEnv [] [] [] 0) (runningScan "Node" 1 2) ["a"]).1
      (by decide)).1,
   ((C8_timeout_policy_amended (storeEnv [] [] [] 0) (runningScan "Node" 0 2) ["a"]).2
      (by decide)).1⟩

/-! ## The Running phase -/

theorem phaseRunningHandler_finished (env : Env) (h : scanTypeHandler)
    (htype : h.getScan.Spec.ScanType ≠ env.ScanTypeDelveRemote)
    (herr : (h.handleRunningScan env).err = none)
    (hrun : (h.handleRunningScan env).running = false)
    (hnone : (h.handleRunningScan env).timeoutNodes = []) :
    phaseRunningHandler env h
      = { result := { Requeue := false, RequeueAfter := 0 }, err := none,
          scan := (h.handleRunningScan env).scan, log := (h.handleRunningScan env).log } := by
  simp [phaseRunningHandler, htype, herr, hrun, hnone]

theorem phaseRunningHandler_polling (env : Env) (h : scanTypeHandler)
    (htype : h.getScan.Spec.ScanType ≠ env.ScanTypeDelveRemote)
    (herr : (h.handleRunningScan env).err = none)
    (hrun : (h.handleRunningScan env).running = true) :
    phaseRunningHandler env h
      = { result := { Requeue := false, RequeueAfter := requeueAfterDefault }, err := none,
          scan := (h.handleRunningScan env).scan, log := (h.handleRunningScan env).log } := by
  simp [phaseRunningHandler, htype, herr, hrun]

/-- C9, the code at the failing input: a cluster-wide scan in phase Running whose unit
has Succeeded.  The handler reports no target running, no timed-out target and no error;
`phaseRunningHandler` returns the empty result without error, sends no request at all and
leaves the phase at Running.  With the unit still running it asks for a requeue after
the default 10 seconds, phase Running. -/
theorem C9_running_finished_stays_running :
    ((scanTypeHandler.handleRunningScan
        (storeEnv [scanPod "api-checks" PodPhase.Succeeded 0] [] [] 0)
        (scanTypeHandler.platform { scan := runningScan "Platform" 0 0 })).running = false ∧
      (scanTypeHandler.handleRunningScan
        (storeEnv [scanPod "api-checks" PodPhase.Succeeded 0] [] [] 0)
        (scanTypeHandler.platform { scan := runningScan "Platform" 0 0 })).timeoutNodes = [] ∧
      (scanTypeHandler.handleRunningScan
        (storeEnv [scanPod "api-checks" PodPhase.Succeeded 0] [] [] 0)
        (scanTypeHandler.platform { scan := runningScan "Platform" 0 0 })).err = none ∧
      phaseRunningHandler
        (storeEnv [scanPod "api-checks" PodPhase.Succeeded 0] [] [] 0)
        (scanTypeHandler.platform { scan := runningScan "Platform" 0 0 })
        = { result := { Requeue := false, RequeueAfter := 0 }, err := none,
            scan := runningScan "Platform" 0 0, log := [] }) ∧
    (phaseRunningHandler
        (storeEnv [scanPod "a" PodPhase.Succeeded 0, scanPod "b" PodPhase.Succeeded 0] [] [] 0)
        (scanTypeHandler.node
          { scan := runningScan "Node" 0 0, nodes := [{ Name := "a" }, { Name := "b" }] })
        = { result := { Requeue := false, RequeueAfter := 0 }, err := none,
            scan := runningScan "Node" 0 0, log := [] }) ∧
    (phaseRunningHandler
        (storeEnv [scanPod "api-checks" PodPhase.Running 0] [] [] 0)
        (scanTypeHandler.platform { scan := runningScan "Platform" 0 0 })
        = { result := { Requeue := false, RequeueAfter := requeueAfterDefault }, err := none,
            scan := runningScan "Platform" 0 0, log := [] }) := by
  decide

/-- C10, the code at the failing input: scans in phase Running with timeout `5m` whose
unit is still running 1000 seconds after its creation.  The handler reports the target as
timed out (with running = true); `phaseRunningHandler` only asks for a requeue after the
default interval: it sends no request, the phase stays Running and the retry budget is
untouched. -/
theorem C10_timeout_only_requeues :
    ((scanTypeHandler.handleRunningScan
        (storeEnv [scanPod "api-checks" PodPhase.Running 0] [] [] 1000000000000)
        (scanTypeHandler.platform { scan := runningScan "Platform" 1 1 })).timeoutNodes
        = ["api-checks"] ∧
      phaseRunningHandler
        (storeEnv [scanPod "api-checks" PodPhase.Running 0] [] [] 1000000000000)
        (scanTypeHandler.platform { scan := runningScan "Platform" 1 1 })
        = { result := { Requeue := false, RequeueAfter := requeueAfterDefault }, err := none,
            scan := runningScan "Platform" 1 1, log := [] }) ∧
    ((scanTypeHandler.handleRunningScan
        (storeEnv [scanPod "a" PodPhase.Succeeded 0, scanPod "b" PodPhase.Running 0] [] []
          1000000000000)
        (scanTypeHandler.node
          { scan := runningScan "Node" 1 1,
            nodes := [{ Name := "a" }, { Name := "b" }] })).timeoutNodes = ["b"] ∧
      phaseRunningHandler
        (storeEnv [scanPod "a" PodPhase.Succeeded 0, scanPod "b" PodPhase.Running 0] [] []
          1000000000000)
        (scanTypeHandler.node
          { scan := runningScan "Node" 1 1, nodes := [{ Name := "a" }, { Name := "b" }] })
        = { result := { Requeue := false, RequeueAfter := requeueAfterDefault }, err := none,
            scan := runningScan "Node" 1 1, log := [] }) := by
  decide

/-! ## Self-healing of a lost execution unit -/

theorem isPodRunning_notFound (env : Env) (podName namespace_ : String) (timeout : Duration)
    (err : GoError)
    (hget : env.getPod { Name := podName, Namespace := namespace_ } = .error err) :
    isPodRunning env podName namespace_ timeout = (false, some err) := by
  simp [isPodRunning, hget]

theorem nodeRunningLoop_notFound (env : Env) (scan : ComplianceScan) (timeoutVal : Duration)
    (node : Node) (rest : List Node) (timeoutNodes : List String) (log : List Effect)
    (hnf : unitNotFound env scan node.Name) :
    nodeRunningLoop env scan timeoutVal (node :: rest) timeoutNodes log
      = { running := true, timeoutNodes := timeoutNodes,
          err := env.statusUpdate (regressedToLaunching scan),
          scan := regressedToLaunching scan,
          log := log ++ [Effect.statusUpdate (regressedToLaunching scan)] } := by
  obtain ⟨err, hget, hisnf⟩ := hnf
  have hpoll : isPodRunningInNode env scan node timeoutVal = (false, some err) :=
    isPodRunning_notFound env _ _ timeoutVal err hget
  simp [nodeRunningLoop, hpoll, hisnf, regressedToLaunching]

theorem nodeRunningLoop_passes (env : Env) (scan : ComplianceScan) (timeoutVal : Duration)
    (node : Node) (hpass : pollPasses env scan timeoutVal node) :
    ∃ sent, statusWrites sent = [] ∧
      ∀ (rest : List Node) (timeoutNodes : List String) (log : List Effect),
        nodeRunningLoop env scan timeoutVal (node :: rest) timeoutNodes log
          = nodeRunningLoop env scan timeoutVal rest timeoutNodes (log ++ sent) := by
  obtain ⟨hrun, hcase⟩ := hpass
  rcases hcase with hnone | ⟨err, hsome, hnf, hun, hcm⟩
  · refine ⟨[], rfl, ?_⟩
    intro rest timeoutNodes log
    simp [nodeRunningLoop, hnone, hrun]
  · refine ⟨(ensureUnschedulableCM env scan node err).2, ?_, ?_⟩
    · unfold ensureUnschedulableCM
      simp only []
      split
      · rfl
      · split
        · split
          · rfl
          · split <;> rfl
        · rfl
    · intro rest timeoutNodes log
      have hpair : ensureUnschedulableCM env scan node err
          = (none, (ensureUnschedulableCM env scan node err).2) := by
        rw [← hcm]
      rw [nodeRunningLoop]
      simp only [hsome, hnf, hun, hrun]
      rw [hpair]
      simp

theorem nodeRunningLoop_front (env : Env) (scan : ComplianceScan) (timeoutVal : Duration) :
    ∀ (front : List Node), (∀ n ∈ front, pollPasses env scan timeoutVal n) →
      ∃ sent, statusWrites sent = [] ∧
        ∀ (rest : List Node) (timeoutNodes : List String) (log : List Effect),
          nodeRunningLoop env scan timeoutVal (front ++ rest) timeoutNodes log
            = nodeRunningLoop env scan timeoutVal rest timeoutNodes (log ++ sent) := by
  intro front
  induction front with
  | nil =>
    intro _
    exact ⟨[], rfl, fun rest timeoutNodes log => by simp⟩
  | cons n front ih =>
    intro hall
    obtain ⟨sent1, hw1, h1⟩ :=
      nodeRunningLoop_passes env scan timeoutVal n (hall n (List.mem_cons_self n front))
    obtain ⟨sent2, hw2, h2⟩ := ih (fun m hm => hall m (List.mem_cons_of_mem n hm))
    refine ⟨sent1 ++ sent2, by rw [statusWrites_append, hw1, hw2]; rfl, ?_⟩
    intro rest timeoutNodes log
    rw [List.cons_append, h1, h2, List.append_assoc]

/-- C11: self-heal, for both handler variants.  When the timeout is unset or parses and
the read of a target's execution unit returns not-found (cluster-wide: the one unit;
per-node: the unit of `node`, reached after the loop went on past every node of `front`),
`handleRunningScan` sets the phase to Launching, writes the status, and returns
running = true, no timed-out target and the error of that write (none when the write
succeeds); the outcome is the same whatever nodes follow, which are not examined. -/
theorem C11_self_heal (env : Env) (scan : ComplianceScan) (timeoutVal : Duration)
    (htimeout : timeoutParsed env scan timeoutVal) :
    (unitNotFound env scan PlatformScanName →
      selfHealed env scan (scanTypeHandler.handleRunningScan env
        (scanTypeHandler.platform { scan := scan })) ∧
      (env.statusUpdate (regressedToLaunching scan) = none →
        (scanTypeHandler.handleRunningScan env
          (scanTypeHandler.platform { scan := scan })).err = none)) ∧
    (∀ (front : List Node) (node : Node) (rest : List Node),
      (∀ n ∈ front, pollPasses env scan timeoutVal n) →
      unitNotFound env scan node.Name →
      selfHealed env scan (scanTypeHandler.handleRunningScan env
        (scanTypeHandler.node { scan := scan, nodes := front ++ node :: rest })) ∧
      (env.statusUpdate (regressedToLaunching scan) = none →
        (scanTypeHandler.handleRunningScan env
          (scanTypeHandler.node { scan := scan, nodes := front ++ node :: rest })).err = none) ∧
      ∀ (others : List Node),
        scanTypeHandler.handleRunningScan env
          (scanTypeHandler.node { scan := scan, nodes := front ++ node :: others })
        = scanTypeHandler.handleRunningScan env
          (scanTypeHandler.node { scan := scan, nodes := front ++ node :: rest })) := by
  have hplat : scanTypeHandler.handleRunningScan env (scanTypeHandler.platform { scan := scan })
      = platformRunningPoll env scan timeoutVal := by
    rcases htimeout with ⟨h1, h2⟩ | ⟨h1, h2⟩
    · simp [scanTypeHandler.handleRunningScan, platformScanTypeHandler.handleRunningScan,
        h1, h2]
    · simp [scanTypeHandler.handleRunningScan, platformScanTypeHandler.handleRunningScan,
        h1, h2]
  have hnode : ∀ nodes, scanTypeHandler.handleRunningScan env
      (scanTypeHandler.node { scan := scan, nodes := nodes })
      = nodeRunningLoop env scan timeoutVal nodes [] [] := by
    intro nodes
    rcases htimeout with ⟨h1, h2⟩ | ⟨h1, h2⟩
    · simp [scanTypeHandler.handleRunningScan, nodeScanTypeHandler.handleRunningScan, h1, h2]
    · simp [scanTypeHandler.handleRunningScan, nodeScanTypeHandler.handleRunningScan, h1, h2]
  constructor
  · intro hnf
    obtain ⟨err, hget, hisnf⟩ := hnf
    have hpoll : isPlatformScanPodRunning env scan timeoutVal = (false, some err) :=
      isPodRunning_notFound env _ _ timeoutVal err hget
    have hout : platformRunningPoll env scan timeoutVal
        = { running := true, timeoutNodes := [],
            err := env.statusUpdate (regressedToLaunching scan),
            scan := regressedToLaunching scan,
            log := [Effect.statusUpdate (regressedToLaunching scan)] } := by
      simp [platformRunningPoll, hpoll, hisnf, regressedToLaunching]
    rw [hplat, hout]
    exact ⟨⟨rfl, rfl, rfl, rfl, rfl⟩, fun hw => hw⟩
  · intro front node rest hfront hnf
    obtain ⟨sent, hsent, hloop⟩ := nodeRunningLoop_front env scan timeoutVal front hfront
    have hout : ∀ others, nodeRunningLoop env scan timeoutVal (front ++ node :: others) [] []
        = { running := true, timeoutNodes := [],
            err := env.statusUpdate (regressedToLaunching scan),
            scan := regressedToLaunching scan,
            log := ([] ++ sent) ++ [Effect.statusUpdate (regressedToLaunching scan)] } := by
      intro others
      rw [hloop, nodeRunningLoop_notFound env scan timeoutVal node others [] _ hnf]
    refine ⟨?_, ?_, ?_⟩
    · rw [hnode, hout]
      refine ⟨rfl, rfl, rfl, ?_, rfl⟩
      simp only [List.nil_append, statusWrites_append, hsent]
      rfl
    · intro hw
      rw [hnode, hout]
      exact hw
    · intro others
      rw [hnode, hnode, hout, hout]

/-- C11 at concrete inputs: a cluster-wide scan whose unit is missing, and a per-node
scan over three nodes whose first unit has Succeeded and whose second unit is missing. -/
theorem C11_self_heal_witness :
    (scanTypeHandler.handleRunningScan (storeEnv [] [] [] 0)
      (scanTypeHandler.platform { scan := runningScan "Platform" 0 0 })).scan.Status.Phase
      = ScanStatusPhase.Launching ∧
    (scanTypeHandler.handleRunningScan
      (storeEnv [scanPod "a" PodPhase.Succeeded 0, scanPod "c" PodPhase.Running 0] [] [] 0)
      (scanTypeHandler.node
        { scan := runningScan "Node" 0 0,
          nodes := [{ Name := "a" }] ++ { Name := "b" } :: [{ Name := "c" }] })).err = none :=
  ⟨congrArg (fun s => s.Status.Phase)
      ((C11_self_heal (storeEnv [] [] [] 0) (runningScan "Platform" 0 0) 300000000000
        (Or.inr ⟨by decide, by rfl⟩)).1
        ⟨GoError.notFound "pods s-api-checks-pod not found", by rfl, by rfl⟩).1.2.2.1,
   ((C11_self_heal
      (storeEnv [scanPod "a" PodPhase.Succeeded 0, scanPod "c" PodPhase.Running 0] [] [] 0)
      (runningScan "Node" 0 0) 300000000000 (Or.inr ⟨by decide, by rfl⟩)).2
      [{ Name := "a" }] { Name := "b" } [{ Name := "c" }]
      (by
        intro n hn
        simp only [List.mem_singleton] at hn
        subst hn
        exact ⟨by decide, Or.inl (by decide)⟩)
      ⟨GoError.notFound "pods s-b-pod not found", by rfl, by rfl⟩).2.1 (by rfl)⟩

/-! ## The Pending phase -/

theorem mapDelete_cons_eq (kv : String × String) (rest : List (String × String))
    (key : String) (h : kv.1 = key) :
    mapDelete (kv :: rest) key = mapDelete rest key := by
  simp [mapDelete, List.filter, h]

theorem mapDelete_cons_ne (kv : String × String) (rest : List (String × String))
    (key : String) (h : kv.1 ≠ key) :
    mapDelete (kv :: rest) key = kv :: mapDelete rest key := by
  simp [mapDelete, List.filter, h]

theorem lookup_cons_ne (key : String) (kv : String × String) (rest : List (String × String))
    (h : key ≠ kv.1) : List.lookup key (kv :: rest) = List.lookup key rest := by
  obtain ⟨a, b⟩ := kv
  have hb : (key == a) = false := by simpa using h
  simp [List.lookup, hb]

theorem lookup_cons_eq (key : String) (kv : String × String) (rest : List (String × String))
    (h : key = kv.1) : List.lookup key (kv :: rest) = some kv.2 := by
  obtain ⟨a, b⟩ := kv
  have hb : (key == a) = true := by simpa using h
  simp [List.lookup, hb]

theorem lookup_mapDelete_self (m : List (String × String)) (key : String) :
    (mapDelete m key).lookup key = none := by
  induction m with
  | nil => rfl
  | cons kv rest ih =>
    by_cases h : kv.1 = key
    · rw [mapDelete_cons_eq kv rest key h]
      exact ih
    · rw [mapDelete_cons_ne kv rest key h, lookup_cons_ne key kv _ (fun heq => h heq.symm)]
      exact ih

theorem lookup_mapDelete_other (m : List (String × String)) (key other : String)
    (hne : key ≠ other) :
    (mapDelete m other).lookup key = m.lookup key := by
  induction m with
  | nil => rfl
  | cons kv rest ih =>
    by_cases h : kv.1 = other
    · rw [mapDelete_cons_eq kv rest other h,
        lookup_cons_ne key kv rest (fun heq => hne (heq.trans h))]
      exact ih
    · rw [mapDelete_cons_ne kv rest other h]
      by_cases hk : key = kv.1
      · rw [lookup_cons_eq key kv _ hk, lookup_cons_eq key kv _ hk]
      · rw [lookup_cons_ne key kv _ hk, lookup_cons_ne key kv _ hk]
        exact ih

theorem withoutRescanMarkers_clear (instance_ : ComplianceScan) :
    (withoutRescanMarkers instance_).NeedsRescan = false ∧
    (withoutRescanMarkers instance_).NeedsTimeoutRescan = false := by
  constructor
  · simp only [ComplianceScan.NeedsRescan, withoutRescanMarkers]
    rw [lookup_mapDelete_other _ _ _ (by decide), lookup_mapDelete_self]
    rfl
  · simp only [ComplianceScan.NeedsTimeoutRescan, withoutRescanMarkers]
    rw [lookup_mapDelete_self]
    rfl

theorem withoutTimeoutMarker_clear (instance_ : ComplianceScan)
    (hno : instance_.NeedsRescan = false) :
    (withoutTimeoutMarker instance_).NeedsRescan = false ∧
    (withoutTimeoutMarker instance_).NeedsTimeoutRescan = false := by
  constructor
  · simp only [ComplianceScan.NeedsRescan, withoutTimeoutMarker]
    rw [lookup_mapDelete_other _ _ _ (by decide), lookup_mapDelete_other _ _ _ (by decide)]
    exact hno
  · simp only [ComplianceScan.NeedsTimeoutRescan, withoutTimeoutMarker]
    rw [lookup_mapDelete_self]
    rfl

theorem mapDelete_absent (m : List (String × String)) (key : String)
    (h : m.lookup key = none) : mapDelete m key = m := by
  induction m with
  | nil => rfl
  | cons kv rest ih =>
    by_cases hk : kv.1 = key
    · rw [lookup_cons_eq key kv rest hk.symm] at h
      cases h
    · rw [lookup_cons_ne key kv rest (fun heq => hk heq.symm)] at h
      rw [mapDelete_cons_ne kv rest key hk, ih h]

theorem withoutTimeoutMarker_annotations (instance_ : ComplianceScan)
    (hno : instance_.NeedsRescan = false) :
    (withoutTimeoutMarker instance_).Annotations
      = mapDelete (mapDelete instance_.Annotations ComplianceScanRescanAnnotation)
          ComplianceScanTimeoutAnnotation := by
  have habs : instance_.Annotations.lookup ComplianceScanRescanAnnotation = none := by
    simp only [ComplianceScan.NeedsRescan] at hno
    cases hl : instance_.Annotations.lookup ComplianceScanRescanAnnotation with
    | none => rfl
    | some v => simp [hl] at hno
  rw [mapDelete_absent instance_.Annotations _ habs]
  show mapDelete (mapDelete instance_.Annotations ComplianceScanTimeoutAnnotation)
      ComplianceScanTimeoutAnnotation = _
  exact mapDelete_absent _ _ (lookup_mapDelete_self _ _)

theorem lookup_withoutMarkers (m : List (String × String)) (key : String)
    (h1 : key ≠ ComplianceScanRescanAnnotation) (h2 : key ≠ ComplianceScanTimeoutAnnotation) :
    (mapDelete (mapDelete m ComplianceScanRescanAnnotation)
      ComplianceScanTimeoutAnnotation).lookup key = m.lookup key := by
  rw [lookup_mapDelete_other _ _ _ h2, lookup_mapDelete_other _ _ _ h1]

/-- C12: the Pending transitions.  On a scan that carries the rescan or the timeout
marker, `phasePendingHandler` sends one request, an update of the object.  The object
written is the scan itself (name, namespace, finalizers, deletion timestamp, spec and
status as they were) with both markers deleted from its annotations: no marker is left
and every other annotation is kept.  The handler returns the error of that update and
writes no status, so the phase stays as it is.  On a scan that carries neither marker it
writes a status with phase Launching, result NotAvailable, the current time as start
timestamp and no end timestamp, everything else of the scan and of its status as it
was. -/
theorem C12_pending_transitions (env : Env) (instance_ : ComplianceScan) :
    ((instance_.NeedsRescan = true ∨ instance_.NeedsTimeoutRescan = true) →
      ∃ written,
        (phasePendingHandler env instance_).log = [Effect.update written] ∧
        written.Name = instance_.Name ∧ written.Namespace = instance_.Namespace ∧
        written.Finalizers = instance_.Finalizers ∧
        written.DeletionTimestamp = instance_.DeletionTimestamp ∧
        written.Spec = instance_.Spec ∧
        written.Status = instance_.Status ∧
        written.Annotations
          = mapDelete (mapDelete instance_.Annotations ComplianceScanRescanAnnotation)
              ComplianceScanTimeoutAnnotation ∧
        (∀ key, key ≠ ComplianceScanRescanAnnotation →
          key ≠ ComplianceScanTimeoutAnnotation →
          written.Annotations.lookup key = instance_.Annotations.lookup key) ∧
        written.NeedsRescan = false ∧ written.NeedsTimeoutRescan = false ∧
        (phasePendingHandler env instance_).err = env.update written ∧
        (phasePendingHandler env instance_).scan = instance_ ∧
        statusWrites (phasePendingHandler env instance_).log = []) ∧
    ((instance_.NeedsRescan = false ∧ instance_.NeedsTimeoutRescan = false) →
      ∃ written,
        statusWrites (phasePendingHandler env instance_).log = [written] ∧
        objectUpdates (phasePendingHandler env instance_).log = [] ∧
        written.Status.Phase = ScanStatusPhase.Launching ∧
        written.Status.Result = ScanStatusResult.NotAvailable ∧
        written.Status.StartTimestamp = some env.now ∧
        written.Status.EndTimestamp = none ∧
        written.Status.ErrorMessage = instance_.Status.ErrorMessage ∧
        written.Status.Warnings = instance_.Status.Warnings ∧
        written.Status.RemainingRetries = instance_.Status.RemainingRetries ∧
        written.Status.CurrentIndex = instance_.Status.CurrentIndex ∧
        written.Status.Conditions = instance_.Status.Conditions ∧
        written.Status.Results = instance_.Status.Results ∧
        written.Name = instance_.Name ∧ written.Namespace = instance_.Namespace ∧
        written.Annotations = instance_.Annotations ∧
        written.Finalizers = instance_.Finalizers ∧
        written.DeletionTimestamp = instance_.DeletionTimestamp ∧
        written.Spec = instance_.Spec ∧
        (phasePendingHandler env instance_).err = env.statusUpdate written) := by
  constructor
  · intro hmark
    by_cases hr : instance_.NeedsRescan = true
    · refine ⟨withoutRescanMarkers instance_, ?_, rfl, rfl, rfl, rfl, rfl, rfl, rfl,
        fun key h1 h2 => lookup_withoutMarkers _ key h1 h2,
        (withoutRescanMarkers_clear instance_).1,
        (withoutRescanMarkers_clear instance_).2, ?_, ?_, ?_⟩ <;>
        simp [phasePendingHandler, hr, statusWrites]
    · have hr2 : instance_.NeedsRescan = false := by simpa using hr
      have ht : instance_.NeedsTimeoutRescan = true := by
        rcases hmark with h | h
        · exact absurd h hr
        · exact h
      have hann := withoutTimeoutMarker_annotations instance_ hr2
      refine ⟨withoutTimeoutMarker instance_, ?_, rfl, rfl, rfl, rfl, rfl, rfl, hann,
        fun key h1 h2 => by rw [hann]; exact lookup_withoutMarkers _ key h1 h2,
        (withoutTimeoutMarker_clear instance_ hr2).1,
        (withoutTimeoutMarker_clear instance_ hr2).2, ?_, ?_, ?_⟩ <;>
        simp [phasePendingHandler, hr2, ht, statusWrites]
  · rintro ⟨hr, ht⟩
    refine ⟨pendingToLaunching env instance_, ?_, ?_, rfl, rfl, rfl, rfl, rfl, rfl, rfl, rfl,
      rfl, rfl, rfl, rfl, rfl, rfl, rfl, rfl, ?_⟩
    · simp only [phasePendingHandler, hr, ht]
      cases env.statusUpdate (pendingToLaunching env instance_) <;> simp [statusWrites]
    · simp only [phasePendingHandler, hr, ht]
      cases env.statusUpdate (pendingToLaunching env instance_) <;> simp [objectUpdates]
    · simp only [phasePendingHandler, hr, ht]
      cases hres : env.statusUpdate (pendingToLaunching env instance_) <;> simp

/-- C12 at concrete inputs: a Pending scan with both markers and one more annotation, and
one with no annotation. -/
theorem C12_pending_transitions_witness :
    (∃ written,
      (phasePendingHandler (storeEnv [] [] [] 9)
        (pendingScan [( ComplianceScanTimeoutAnnotation, "a"), ("owner", "team"),
          ( ComplianceScanRescanAnnotation, "")])).log = [Effect.update written] ∧
      written.Name = "s" ∧
      written.Spec = (pendingScan []).Spec ∧
      written.Status = (pendingScan []).Status ∧
      written.Annotations = [("owner", "team")]) ∧
    (∃ written,
      statusWrites (phasePendingHandler (storeEnv [] [] [] 9) (pendingScan [])).log
        = [written] ∧
      written.Status.Phase = ScanStatusPhase.Launching ∧
      written.Status.Result = ScanStatusResult.NotAvailable ∧
      written.Status.StartTimestamp = some 9 ∧
      written.Status.EndTimestamp = none ∧
      written.Spec = (pendingScan []).Spec) :=
  ⟨match (C12_pending_transitions (storeEnv [] [] [] 9)
      (pendingScan [( ComplianceScanTimeoutAnnotation, "a"), ("owner", "team"),
        ( ComplianceScanRescanAnnotation, "")])).1 (Or.inl (by decide)) with
    | ⟨w, hlog, hname, _, _, _, hspec, hstatus, hann, _⟩ =>
      ⟨w, hlog, hname, hspec, hstatus, hann.trans (by decide)⟩,
   match (C12_pending_transitions (storeEnv [] [] [] 9) (pendingScan [])).2
      ⟨by decide, by decide⟩ with
    | ⟨w, hlog, _, hp, hr, hs, he, _, _, _, _, _, _, _, _, _, _, _, hspec, _⟩ =>
      ⟨w, hlog, hp, hr, hs, he, hspec⟩⟩

/-! ## The Aggregating phase -/

theorem nodeGatherLoop_congr (env : Env) (s1 s2 : ComplianceScan) (hname : s1.Name = s2.Name)
    (hspec : s1.Spec = s2.Spec) :
    ∀ (nodes : List Node) (st : GatherState),
      nodeGatherLoop env s1 nodes st = nodeGatherLoop env s2 nodes st := by
  have hcm : ∀ name, getNodeScanCM env s1 name = getNodeScanCM env s2 name := by
    intro name
    simp [getNodeScanCM, hname]
  have hstrict : s1.IsStrictNodeScan = s2.IsStrictNodeScan := by
    simp [ComplianceScan.IsStrictNodeScan, hspec]
  intro nodes
  induction nodes with
  | nil =>
    intro st
    simp [nodeGatherLoop]
  | cons n rest ih =>
    intro st
    rw [nodeGatherLoop, nodeGatherLoop]
    simp only [hcm, hstrict, ih]

theorem gatherResults_setScan (env : Env) (h : scanTypeHandler) (s : ComplianceScan)
    (hname : s.Name = h.getScan.Name) (hspec : s.Spec = h.getScan.Spec) :
    gatherResults env (h.setScan s) = gatherResults env h := by
  cases h with
  | node nh =>
    have hloop := nodeGatherLoop_congr env s nh.scan hname hspec nh.nodes {}
    have hn : (nh.scan.Name) = s.Name := hname.symm
    simp only [gatherResults, scanTypeHandler.setScan, scanTypeHandler.getScan,
      scanTypeHandler.gatherResults, nodeScanTypeHandler.gatherResults, hloop, hn]
  | platform ph =>
    have hn : (ph.scan.Name) = s.Name := hname.symm
    simp only [gatherResults, scanTypeHandler.setScan, scanTypeHandler.getScan,
      scanTypeHandler.gatherResults, platformScanTypeHandler.gatherResults,
      getPlatformScanCM, hn]

theorem aggregatingInstance_same (env : Env) (h : scanTypeHandler) :
    (aggregatingInstance env h).Name = h.getScan.Name ∧
    (aggregatingInstance env h).Spec = h.getScan.Spec ∧
    (aggregatingInstance env h).Status.Phase = h.getScan.Status.Phase := by
  unfold aggregatingInstance
  split <;> exact ⟨rfl, rfl, rfl⟩

theorem phaseAggregatingHandler_eq (env : Env) (h : scanTypeHandler) :
    phaseAggregatingHandler env h
      = match (h.shouldLaunchAggregator env).err with
        | some err => aggregatingOnError env (aggregatingInstance env h) err
        | none =>
          if !(h.shouldLaunchAggregator env).isReady then
            { result := requeueDefault, err := none, scan := aggregatingInstance env h }
          else aggregatingLaunch env h (aggregatingInstance env h) := by
  rfl

theorem aggregatingLaunch_launched (env : Env) (h : scanTypeHandler) (inst : ComplianceScan)
    (hl : env.launchAggregatorPod inst (aggregatorPod env inst) = none) :
    ∃ sent, statusWrites sent = [] ∧
      aggregatingLaunch env h inst = (aggregatingAwait env h inst).after sent := by
  refine ⟨(if !(env.ValidatePriorityClassExist (env.newAggregatorPod inst).PriorityClassName).1
      then [Effect.event "Warning" "PriorityClass"
        ((env.ValidatePriorityClassExist (env.newAggregatorPod inst).PriorityClassName).2
          ++ " aggregator:" ++ (env.newAggregatorPod inst).Name)]
      else []) ++ [Effect.launchAggregatorPod inst (aggregatorPod env inst)], ?_, ?_⟩
  · rw [statusWrites_append]
    split <;> rfl
  · unfold aggregatorPod at hl
    simp only [aggregatingLaunch, hl, aggregatorPod]

theorem updateStatusWithEvent_err (env : Env) (scan : ComplianceScan) :
    (updateStatusWithEvent env scan).1 = env.statusUpdate scan := by
  unfold updateStatusWithEvent
  cases h : env.statusUpdate scan with
  | none => simp only []; split <;> rfl
  | some e => rfl

theorem aggregatingGather_wait (env : Env) (h : scanTypeHandler) (inst : ComplianceScan)
    (herr : (gatherResults env (h.setScan inst)).err = none)
    (hready : (gatherResults env (h.setScan inst)).isReady = false) :
    (aggregatingGather env h inst).result = requeueDefault ∧
    (aggregatingGather env h inst).err = none ∧
    (aggregatingGather env h inst).scan = inst ∧
    statusWrites (aggregatingGather env h inst).log = [] := by
  simp only [aggregatingGather, herr, hready]
  exact ⟨rfl, rfl, rfl, statusWrites_gatherResults env _⟩

theorem aggregatingGather_done (env : Env) (h : scanTypeHandler) (inst : ComplianceScan)
    (hdone : ¬ ((gatherResults env (h.setScan inst)).err = none ∧
      (gatherResults env (h.setScan inst)).isReady = false)) :
    (aggregatingGather env h inst).result = {} ∧
    (aggregatingGather env h inst).err = env.statusUpdate (aggregatingGather env h inst).scan ∧
    (aggregatingGather env h inst).scan.Status.Phase = ScanStatusPhase.Done ∧
    (aggregatingGather env h inst).scan.Status.Result
      = (gatherResults env (h.setScan inst)).result ∧
    (aggregatingGather env h inst).scan.Status.EndTimestamp = some env.now ∧
    statusWrites (aggregatingGather env h inst).log = [(aggregatingGather env h inst).scan] := by
  have hcond : ¬ ((gatherResults env (h.setScan inst)).err.isNone = true ∧
      (!(gatherResults env (h.setScan inst)).isReady) = true) := by
    intro hc
    apply hdone
    refine ⟨?_, ?_⟩
    · simpa using hc.1
    · simpa using hc.2
  simp only [aggregatingGather, hcond, if_false]
  split
  · rename_i uerr hu
    refine ⟨rfl, ?_, rfl, rfl, rfl, ?_⟩
    · rw [← updateStatusWithEvent_err]
      exact hu.symm
    · rw [statusWrites_append, statusWrites_gatherResults, statusWrites_updateStatusWithEvent]
      rfl
  · rename_i hu
    refine ⟨rfl, ?_, rfl, rfl, rfl, ?_⟩
    · rw [← updateStatusWithEvent_err]
      exact hu.symm
    · rw [statusWrites_append, statusWrites_append, statusWrites_gatherResults,
        statusWrites_updateStatusWithEvent]
      rfl

theorem phaseAggregatingHandler_reached (env : Env) (h : scanTypeHandler)
    (hreach : reachesAggregatorCheck env h) :
    ∃ sent, statusWrites sent = [] ∧
      phaseAggregatingHandler env h
        = (aggregatingAwait env h (aggregatingInstance env h)).after sent := by
  obtain ⟨herr, hready, hlaunch⟩ := hreach
  obtain ⟨sent, hsent, heq⟩ :=
    aggregatingLaunch_launched env h (aggregatingInstance env h) hlaunch
  refine ⟨sent, hsent, ?_⟩
  rw [phaseAggregatingHandler_eq, herr]
  simp only [hready, Bool.not_true, Bool.false_eq_true, if_false]
  exact heq

/-- C13: the Aggregating transitions.  `phaseAggregatingHandler` asks for a requeue and
leaves the phase as it is (no status write) when the handler reports the aggregation
input not ready without error and when the gathered results are not ready without error;
it asks for a requeue and writes the status with phase Aggregating when the aggregation
unit is still running; in every other case that reaches the result gathering it writes
one status, with phase Done, `Status.Result` equal to the gathered result and the
current time as end timestamp, and returns the error of that write. -/
theorem C13_aggregating_transitions (env : Env) (h : scanTypeHandler) :
    ((h.shouldLaunchAggregator env).err = none →
      (h.shouldLaunchAggregator env).isReady = false →
      (phaseAggregatingHandler env h).result = requeueDefault ∧
      (phaseAggregatingHandler env h).err = none ∧
      (phaseAggregatingHandler env h).scan.Status.Phase = h.getScan.Status.Phase ∧
      statusWrites (phaseAggregatingHandler env h).log = []) ∧
    (reachesAggregatorCheck env h →
      (env.isAggregatorRunning (aggregatingInstance env h)).1 = true →
      (env.isAggregatorRunning (aggregatingInstance env h)).2 = none →
      (phaseAggregatingHandler env h).result = requeueDefault ∧
      (phaseAggregatingHandler env h).err = none ∧
      (phaseAggregatingHandler env h).scan.Status.Phase = ScanStatusPhase.Aggregating ∧
      statusWrites (phaseAggregatingHandler env h).log = [(phaseAggregatingHandler env h).scan]) ∧
    (reachesGathering env h →
      (gatherResults env h).err = none → (gatherResults env h).isReady = false →
      (phaseAggregatingHandler env h).result = requeueDefault ∧
      (phaseAggregatingHandler env h).err = none ∧
      (phaseAggregatingHandler env h).scan.Status.Phase = h.getScan.Status.Phase ∧
      statusWrites (phaseAggregatingHandler env h).log = []) ∧
    (reachesGathering env h →
      ¬ ((gatherResults env h).err = none ∧ (gatherResults env h).isReady = false) →
      (phaseAggregatingHandler env h).result = {} ∧
      (phaseAggregatingHandler env h).err
        = env.statusUpdate (phaseAggregatingHandler env h).scan ∧
      (phaseAggregatingHandler env h).scan.Status.Phase = ScanStatusPhase.Done ∧
      (phaseAggregatingHandler env h).scan.Status.Result = (gatherResults env h).result ∧
      (phaseAggregatingHandler env h).scan.Status.EndTimestamp = some env.now ∧
      statusWrites (phaseAggregatingHandler env h).log
        = [(phaseAggregatingHandler env h).scan]) := by
  have hg := gatherResults_setScan env h (aggregatingInstance env h)
    (aggregatingInstance_same env h).1 (aggregatingInstance_same env h).2.1
  have hphase := (aggregatingInstance_same env h).2.2
  refine ⟨?_, ?_, ?_, ?_⟩
  · intro herr hready
    rw [phaseAggregatingHandler_eq, herr]
    simp only [hready, Bool.not_false, if_true]
    exact ⟨trivial, trivial, hphase, rfl⟩
  · intro hreach hrun hnoerr
    obtain ⟨sent, hsent, heq⟩ := phaseAggregatingHandler_reached env h hreach
    rw [heq]
    simp only [HandlerOutcome.after, aggregatingAwait, hnoerr, hrun, if_true]
    split <;>
      exact ⟨rfl, rfl, rfl, by rw [statusWrites_append, hsent]; rfl⟩
  · intro hreach herr hready
    obtain ⟨sent, hsent, heq⟩ := phaseAggregatingHandler_reached env h hreach.1
    rw [← hg] at herr hready
    obtain ⟨h1, h2, h3, h4⟩ :=
      aggregatingGather_wait env h (aggregatingInstance env h) herr hready
    rw [heq]
    simp only [HandlerOutcome.after, aggregatingAwait, hreach.2.1, hreach.2.2,
      Bool.false_eq_true, if_false]
    refine ⟨h1, h2, ?_, ?_⟩
    · rw [h3]
      exact hphase
    · rw [statusWrites_append, hsent, h4]
      rfl
  · intro hreach hdone
    obtain ⟨sent, hsent, heq⟩ := phaseAggregatingHandler_reached env h hreach.1
    rw [← hg] at hdone
    obtain ⟨h1, h2, h3, h4, h5, h6⟩ :=
      aggregatingGather_done env h (aggregatingInstance env h) hdone
    rw [heq]
    simp only [HandlerOutcome.after, aggregatingAwait, hreach.2.1, hreach.2.2,
      Bool.false_eq_true, if_false]
    refine ⟨h1, h2, h3, ?_, h5, ?_⟩
    · rw [h4, hg]
    · rw [statusWrites_append, hsent, h6]
      rfl

/-- C13 at concrete inputs: a cluster-wide scan in phase Aggregating without result
record (input not ready), and one with a compliant record (completed). -/
theorem C13_aggregating_transitions_witness :
    ((phaseAggregatingHandler (storeEnv [] [] [] 0)
        (scanTypeHandler.platform { scan := aggregatingPlatformScan 3 })).result
        = requeueDefault ∧
      (phaseAggregatingHandler (storeEnv [] [] [] 0)
        (scanTypeHandler.platform { scan := aggregatingPlatformScan 3 })).scan.Status.Phase
        = ScanStatusPhase.Aggregating) ∧
    ((phaseAggregatingHandler (storeEnv [] [recordFor "s" "api-checks" "0"] [] 0)
        (scanTypeHandler.platform { scan := aggregatingPlatformScan 3 })).scan.Status.Phase
        = ScanStatusPhase.Done ∧
      (phaseAggregatingHandler (storeEnv [] [recordFor "s" "api-checks" "0"] [] 0)
        (scanTypeHandler.platform { scan := aggregatingPlatformScan 3 })).scan.Status.Result
        = ScanStatusResult.Compliant) :=
  ⟨⟨((C13_aggregating_transitions (storeEnv [] [] [] 0)
        (scanTypeHandler.platform { scan := aggregatingPlatformScan 3 })).1
        (by decide) (by decide)).1,
    ((C13_aggregating_transitions (storeEnv [] [] [] 0)
        (scanTypeHandler.platform { scan := aggregatingPlatformScan 3 })).1
        (by decide) (by decide)).2.2.1⟩,
   ⟨((C13_aggregating_transitions (storeEnv [] [recordFor "s" "api-checks" "0"] [] 0)
        (scanTypeHandler.platform { scan := aggregatingPlatformScan 3 })).2.2.2
        ⟨⟨by decide, by decide, by decide⟩, by decide, by decide⟩ (by decide)).2.2.1,
    ((C13_aggregating_transitions (storeEnv [] [recordFor "s" "api-checks" "0"] [] 0)
        (scanTypeHandler.platform { scan := aggregatingPlatformScan 3 })).2.2.2
        ⟨⟨by decide, by decide, by decide⟩, by decide, by decide⟩ (by decide)).2.2.2.1⟩⟩

/-! ## The Done phase and the rescan -/

theorem statusWrites_runCalls (env : Env) (scan : ComplianceScan) :
    ∀ (calls : List Call), statusWrites (runCalls env scan calls).2 = [] := by
  intro calls
  induction calls with
  | nil => rfl
  | cons c rest ih =>
    unfold runCalls
    split
    · cases c <;> rfl
    · cases c <;> exact ih

theorem phaseDoneHandler_no_rescan (env : Env) (h : Option scanTypeHandler)
    (inst : ComplianceScan) (doDelete : Bool) (hno : inst.NeedsRescan = false) :
    statusWrites (phaseDoneHandler env h inst doDelete).log = [] ∧
    (phaseDoneHandler env h inst doDelete).scan = inst := by
  simp only [phaseDoneHandler, hno]
  split
  · exact ⟨statusWrites_runCalls env inst _, rfl⟩
  · exact ⟨statusWrites_runCalls env inst _, rfl⟩

theorem phaseDoneHandler_rescan (env : Env) (h : Option scanTypeHandler)
    (inst : ComplianceScan) (doDelete : Bool) (hre : inst.NeedsRescan = true)
    (hcalls : (runCalls env inst (doneCalls h inst doDelete)).1 = none) :
    statusWrites (phaseDoneHandler env h inst doDelete).log = [rescanReset env inst] ∧
    (phaseDoneHandler env h inst doDelete).err = env.statusUpdate (rescanReset env inst) := by
  simp only [phaseDoneHandler, hre, hcalls]
  cases hw : env.statusUpdate (rescanReset env inst) with
  | none =>
    simp only [if_true]
    exact ⟨by rw [statusWrites_append, statusWrites_runCalls]; rfl, trivial⟩
  | some e =>
    simp only [if_true]
    exact ⟨by rw [statusWrites_append, statusWrites_runCalls]; rfl, trivial⟩

theorem phaseDoneHandler_writes (env : Env) (h : Option scanTypeHandler)
    (inst : ComplianceScan) (doDelete : Bool) (w : ComplianceScan)
    (hw : w ∈ statusWrites (phaseDoneHandler env h inst doDelete).log) :
    inst.NeedsRescan = true ∧ w = rescanReset env inst := by
  cases hre : inst.NeedsRescan with
  | false =>
    rw [(phaseDoneHandler_no_rescan env h inst doDelete hre).1] at hw
    simp at hw
  | true =>
    refine ⟨rfl, ?_⟩
    cases hcalls : (runCalls env inst (doneCalls h inst doDelete)).1 with
    | none =>
      rw [(phaseDoneHandler_rescan env h inst doDelete hre hcalls).1] at hw
      simpa using hw
    | some e =>
      simp only [phaseDoneHandler, hcalls, statusWrites_runCalls] at hw
      simp at hw

/-- C14 fails as stated: a Done scan completed at time 5 that carries the rescan request
is serviced at time 9; the one status written has phase Pending, result NotAvailable and
start timestamp 9, but its end timestamp is still 5. -/
theorem C14_rescan_counterexample :
    (doneScan [( ComplianceScanRescanAnnotation, "")]).NeedsRescan = true ∧
    statusWrites (phaseDoneHandler (storeEnv [] [] [] 9)
        (some (scanTypeHandler.node
          { scan := doneScan [( ComplianceScanRescanAnnotation, "")], nodes := [{ Name := "a" }] }))
        (doneScan [( ComplianceScanRescanAnnotation, "")]) dontDelete).log
      = [rescanReset (storeEnv [] [] [] 9) (doneScan [( ComplianceScanRescanAnnotation, "")])] ∧
    (rescanReset (storeEnv [] [] [] 9)
      (doneScan [( ComplianceScanRescanAnnotation, "")])).Status.Phase = ScanStatusPhase.Pending ∧
    (rescanReset (storeEnv [] [] [] 9)
      (doneScan [( ComplianceScanRescanAnnotation, "")])).Status.StartTimestamp = some 9 ∧
    (rescanReset (storeEnv [] [] [] 9)
      (doneScan [( ComplianceScanRescanAnnotation, "")])).Status.EndTimestamp = some 5 := by
  decide

/-- C14 as amended: `phaseDoneHandler` invoked from the normal Done dispatch
(doDelete = false) writes a status only if the scan carries the rescan request, and every
status it writes has phase Pending; when the scan carries the request and the cleanup
calls before the write all succeed it writes one status, with phase Pending, result
NotAvailable, the current time as start timestamp and the end timestamp left as it was;
when the scan does not carry the request it writes no status and the phase stays as it
is. -/
theorem C14_rescan_edge_amended (env : Env) (h : Option scanTypeHandler)
    (inst : ComplianceScan) :
    (∀ w ∈ statusWrites (phaseDoneHandler env h inst dontDelete).log,
      inst.NeedsRescan = true ∧ w.Status.Phase = ScanStatusPhase.Pending) ∧
    (inst.NeedsRescan = true →
      (runCalls env inst (doneCalls h inst dontDelete)).1 = none →
      ∃ w, statusWrites (phaseDoneHandler env h inst dontDelete).log = [w] ∧
        w.Status.Phase = ScanStatusPhase.Pending ∧
        w.Status.Result = ScanStatusResult.NotAvailable ∧
        w.Status.StartTimestamp = some env.now ∧
        w.Status.EndTimestamp = inst.Status.EndTimestamp ∧
        (phaseDoneHandler env h inst dontDelete).err = env.statusUpdate w) ∧
    (inst.NeedsRescan = false →
      statusWrites (phaseDoneHandler env h inst dontDelete).log = [] ∧
      (phaseDoneHandler env h inst dontDelete).scan = inst) := by
  refine ⟨?_, ?_, ?_⟩
  · intro w hw
    obtain ⟨h1, h2⟩ := phaseDoneHandler_writes env h inst dontDelete w hw
    exact ⟨h1, by rw [h2]; rfl⟩
  · intro hre hcalls
    obtain ⟨h1, h2⟩ := phaseDoneHandler_rescan env h inst dontDelete hre hcalls
    exact ⟨rescanReset env inst, h1, rfl, rfl, rfl, rfl, h2⟩
  · intro hno
    exact phaseDoneHandler_no_rescan env h inst dontDelete hno

/-- C14 as amended, at concrete inputs: a Done scan with the rescan request, and one
without. -/
theorem C14_rescan_edge_amended_witness :
    (∃ w, statusWrites (phaseDoneHandler (storeEnv [] [] [] 9) none
          (doneScan [( ComplianceScanRescanAnnotation, "")]) dontDelete).log = [w] ∧
        w.Status.Phase = ScanStatusPhase.Pending ∧
        w.Status.Result = ScanStatusResult.NotAvailable ∧
        w.Status.StartTimestamp = some (storeEnv [] [] [] 9).now ∧
        w.Status.EndTimestamp = (doneScan [( ComplianceScanRescanAnnotation, "")]).Status.EndTimestamp ∧
        (phaseDoneHandler (storeEnv [] [] [] 9) none
          (doneScan [( ComplianceScanRescanAnnotation, "")]) dontDelete).err
          = (storeEnv [] [] [] 9).statusUpdate w) ∧
    statusWrites (phaseDoneHandler (storeEnv [] [] [] 9) none (doneScan []) dontDelete).log
      = [] :=
  ⟨(C14_rescan_edge_amended (storeEnv [] [] [] 9) none
      (doneScan [( ComplianceScanRescanAnnotation, "")])).2.1 (by decide) (by decide),
   ((C14_rescan_edge_amended (storeEnv [] [] [] 9) none (doneScan [])).2.2 (by decide)).1⟩

theorem wrapInt64_of_range (x : Int) (hlo : -9223372036854775808 ≤ x)
    (hhi : x ≤ 9223372036854775807) : wrapInt64 x = x := by
  unfold wrapInt64
  have h63 : (2 : Int) ^ 63 = 9223372036854775808 := by norm_num
  have h64 : (2 : Int) ^ 64 = 18446744073709551616 := by norm_num
  rw [h63, h64]
  omega

/-- C15: the rescan index.  Every status `phaseDoneHandler` writes (it writes one only
when it services a rescan) has `CurrentIndex` 0 if the old index is `math.MaxInt64` and
the old index plus one otherwise, for every old index an `int64` can hold; for a
non-negative old index the new index is non-negative and at most `math.MaxInt64`, so the
64-bit addition does not overflow. -/
theorem C15_rescan_index_wraparound (env : Env) (h : Option scanTypeHandler)
    (inst : ComplianceScan) (doDelete : Bool) (w : ComplianceScan)
    (hw : w ∈ statusWrites (phaseDoneHandler env h inst doDelete).log)
    (hlo : -9223372036854775808 ≤ inst.Status.CurrentIndex)
    (hhi : inst.Status.CurrentIndex ≤ MaxInt64) :
    (inst.Status.CurrentIndex = MaxInt64 → w.Status.CurrentIndex = 0) ∧
    (inst.Status.CurrentIndex ≠ MaxInt64 →
      w.Status.CurrentIndex = inst.Status.CurrentIndex + 1) ∧
    (0 ≤ inst.Status.CurrentIndex →
      0 ≤ w.Status.CurrentIndex ∧ w.Status.CurrentIndex ≤ MaxInt64) := by
  obtain ⟨_, hwe⟩ := phaseDoneHandler_writes env h inst doDelete w hw
  have hidx : w.Status.CurrentIndex = nextRescanIndex inst.Status.CurrentIndex := by
    rw [hwe]
    rfl
  have hmax : MaxInt64 = 9223372036854775807 := rfl
  rw [hmax] at hhi
  refine ⟨?_, ?_, ?_⟩
  · intro heq
    rw [hidx, nextRescanIndex, if_pos heq]
  · intro hne
    rw [hidx, nextRescanIndex, if_neg hne]
    apply wrapInt64_of_range
    · omega
    · rw [hmax] at hne
      omega
  · intro hpos
    rw [hidx, nextRescanIndex]
    split
    · rw [hmax]
      omega
    · rename_i hne
      rw [hmax] at hne
      rw [wrapInt64_of_range _ (by omega) (by omega), hmax]
      omega

/-- C15 at concrete inputs: the rescan of a scan whose index is 7. -/
theorem C15_rescan_index_wraparound_witness :
    (rescanReset (storeEnv [] [] [] 9)
      (doneScan [( ComplianceScanRescanAnnotation, "")])).Status.CurrentIndex = 7 + 1 :=
  (C15_rescan_index_wraparound (storeEnv [] [] [] 9) none
    (doneScan [( ComplianceScanRescanAnnotation, "")]) dontDelete
    (rescanReset (storeEnv [] [] [] 9) (doneScan [( ComplianceScanRescanAnnotation, "")]))
    (by decide) (by decide) (by decide)).2.1 (by decide)

/-! ## Rejection of a scan without targets -/

theorem nodeValidate_noTargets (env : Env) (nh : nodeScanTypeHandler) (hempty : nh.nodes = []) :
    (nh.validate env).cont = false ∧
    (nh.validate env).err = env.statusUpdate (notApplicable nh.scan) ∧
    statusWrites (nh.validate env).log = [notApplicable nh.scan] := by
  simp only [nodeScanTypeHandler.validate, hempty, List.length_nil, if_true]
  refine ⟨trivial, updateStatusWithEvent_err env _, ?_⟩
  rw [statusWrites_append]
  exact statusWrites_updateStatusWithEvent env _

theorem reconcileHandler_noTargets (env : Env) (inst : ComplianceScan) :
    ∀ step ∈ (reconcileHandler env
        (scanTypeHandler.node { scan := inst, nodes := [] }) inst).steps,
      step.isPhaseHandler = false := by
  have hcont : (scanTypeHandler.validate env
      (scanTypeHandler.node { scan := inst, nodes := [] })).cont = false :=
    (nodeValidate_noTargets env { scan := inst, nodes := [] } rfl).1
  intro step hstep
  simp only [reconcileHandler, hcont] at hstep
  split at hstep
  · simp only [List.mem_singleton] at hstep
    rw [hstep]
    rfl
  · simp only [Bool.not_false, if_true, List.mem_singleton] at hstep
    rw [hstep]
    rfl

theorem reconcileValidated_noTargets (env : Env) (inst : ComplianceScan)
    (hnode : env.GetScanTypeIfValid inst = .ok ScanTypeNode)
    (hempty : (getTargetNodes env inst).1 = []) :
    ∀ step ∈ (reconcileValidated env inst).steps, step.isPhaseHandler = false := by
  have hh : getScanTypeHandler env inst
      = match (getTargetNodes env inst).2 with
        | some err => .error err
        | none => .ok (some (scanTypeHandler.node { scan := inst, nodes := [] })) := by
    simp only [getScanTypeHandler, hnode, newNodeScanTypeHandler, hempty]
    rw [if_neg (by decide), if_pos trivial]
    cases (getTargetNodes env inst).2 <;> rfl
  intro step hstep
  simp only [reconcileValidated] at hstep
  split at hstep
  · simp only [List.mem_singleton] at hstep
    rw [hstep]
    rfl
  · split at hstep
    · simp only [List.mem_singleton] at hstep
      rw [hstep]
      rfl
    · rw [hh] at hstep
      cases hn : (getTargetNodes env inst).2 with
      | some err =>
        simp only [hn, List.mem_cons, List.mem_singleton, List.not_mem_nil, or_false] at hstep
        rcases hstep with h | h <;> rw [h] <;> rfl
      | none =>
        simp only [hn, ReconcileOutcome.after, List.mem_append, List.mem_cons,
          List.mem_singleton, List.not_mem_nil, or_false] at hstep
        rcases hstep with (h | h) | h
        · rw [h]; rfl
        · rw [h]; rfl
        · exact reconcileHandler_noTargets env inst step h

theorem reconcileDelveRemote_steps (env : Env) (inst : ComplianceScan) :
    ∀ step ∈ (reconcileDelveRemote env inst).steps, step = Step.delveRemote := by
  intro step hstep
  simp only [reconcileDelveRemote] at hstep
  split at hstep
  · simpa using hstep
  · split at hstep
    · simpa using hstep
    · split at hstep
      · simpa using hstep
      · split at hstep
        · simpa using hstep
        · split at hstep
          · simpa using hstep
          · simp only [ReconcileOutcome.after, reconcileDelveResults,
              retrieveDelveRemoteResults, parseDelveRemoteResults] at hstep
            split at hstep <;> simpa using hstep

/-- C16: rejection of a per-node scan without targets.  When the node list computed for
the scan's spec is empty, `nodeScanTypeHandler.validate` writes one status, with result
NotApplicable and phase Done, and returns continue = false with the error of that write;
and a pass of `Reconcile` on a scan of the per-node type with such a spec returns before
the phase dispatch: none of the phase handlers (Pending, Launching, Running, Aggregating,
Done) runs in it. -/
theorem C16_no_target_rejection (env : Env) (request : NamespacedName) (scan : ComplianceScan)
    (hget : env.getScan request = .ok scan)
    (hnode : ∀ s, s.Spec = scan.Spec → env.GetScanTypeIfValid s = .ok ScanTypeNode)
    (hempty : ∀ s, s.Spec = scan.Spec → (getTargetNodes env s).1 = []) :
    (∀ nh : nodeScanTypeHandler, nh.nodes = [] →
      (nh.validate env).cont = false ∧
      (nh.validate env).err = env.statusUpdate (notApplicable nh.scan) ∧
      statusWrites (nh.validate env).log = [notApplicable nh.scan] ∧
      (notApplicable nh.scan).Status.Result = ScanStatusResult.NotApplicable ∧
      (notApplicable nh.scan).Status.Phase = ScanStatusPhase.Done) ∧
    (∀ step ∈ (Reconcile env request).steps, step.isPhaseHandler = false) := by
  constructor
  · intro nh hnh
    obtain ⟨h1, h2, h3⟩ := nodeValidate_noTargets env nh hnh
    exact ⟨h1, h2, h3, rfl, rfl⟩
  · intro step hstep
    simp only [Reconcile, hget, reconcileInstance] at hstep
    split at hstep
    · rw [reconcileDelveRemote_steps env scan step hstep]
      rfl
    · split at hstep
      · simp at hstep
      · split at hstep
        · simp only [List.mem_singleton] at hstep
          rw [hstep]
          rfl
        · simp only [ReconcileOutcome.after, List.mem_append, List.mem_singleton] at hstep
          rcases hstep with h | h
          · rw [h]
            rfl
          · simp only [reconcileFinalizer] at h
            split at h
            · split at h
              · split at h
                · simp only [List.mem_singleton] at h
                  rw [h]
                  rfl
                · simp only [ReconcileOutcome.after, List.mem_append,
                    List.mem_singleton] at h
                  rcases h with h | h
                  · rw [h]
                    rfl
                  · exact reconcileValidated_noTargets env (withFinalizer scan)
                      (hnode _ rfl) (hempty _ rfl) step h
              · exact reconcileValidated_noTargets env scan (hnode _ rfl) (hempty _ rfl)
                  step h
            · simp only [ReconcileOutcome.ofHandler, List.mem_singleton] at h
              rw [h]
              rfl

/-- C16 at a concrete input: a Pending per-node scan when no node matches. -/
theorem C16_no_target_rejection_witness :
    (nodeScanTypeHandler.validate ((storeEnv [] [] [] 0).withScan
        (nodeScan ScanStatusPhase.Pending [ScanFinalizer] none))
      { scan := nodeScan ScanStatusPhase.Pending [ScanFinalizer] none, nodes := [] }).cont
      = false ∧
    Step.isPhaseHandler Step.handlerValidate = false :=
  ⟨((C16_no_target_rejection
      ((storeEnv [] [] [] 0).withScan (nodeScan ScanStatusPhase.Pending [ScanFinalizer] none))
      requestS (nodeScan ScanStatusPhase.Pending [ScanFinalizer] none) (by rfl)
      (by
        intro s hs
        simp [storeEnv, Env.withScan, hs, nodeScan, ScanTypeNode])
      (by
        intro s hs
        simp [getTargetNodes, storeEnv, Env.withScan, hs, nodeScan, ScanTypeNode,
          ScanTypePlatform])).1
      { scan := nodeScan ScanStatusPhase.Pending [ScanFinalizer] none, nodes := [] } rfl).1,
   (C16_no_target_rejection
      ((storeEnv [] [] [] 0).withScan (nodeScan ScanStatusPhase.Pending [ScanFinalizer] none))
      requestS (nodeScan ScanStatusPhase.Pending [ScanFinalizer] none) (by rfl)
      (by
        intro s hs
        simp [storeEnv, Env.withScan, hs, nodeScan, ScanTypeNode])
      (by
        intro s hs
        simp [getTargetNodes, storeEnv, Env.withScan, hs, nodeScan, ScanTypeNode,
          ScanTypePlatform])).2
      Step.handlerValidate (by decide)⟩

/-! ## Status writes of the parts of a pass -/

theorem validateStatusWrite_writes (env : Env) (copy : ComplianceScan) (pre : List Effect) :
    statusWrites (validateStatusWrite env copy pre).log = statusWrites pre ++ [copy] := by
  unfold validateStatusWrite
  split
  · rw [statusWrites_append]
    rfl
  · rw [statusWrites_append]
    rfl

theorem validate_writes (env : Env) (inst w : ComplianceScan)
    (hw : w ∈ statusWrites (validate env inst).log) :
    (inst.Status.Phase = ScanStatusPhase.unset ∧ w.Status.Phase = ScanStatusPhase.Pending) ∨
    w.Status.Phase = ScanStatusPhase.Done := by
  unfold validate at hw
  split at hw
  · rename_i hp
    rw [validateStatusWrite_writes] at hw
    simp only [statusWrites, List.nil_append, List.mem_singleton] at hw
    exact Or.inl ⟨hp, by rw [hw]⟩
  · split at hw
    · simp [statusWrites] at hw
    · split at hw
      · rw [validateStatusWrite_writes] at hw
        simp only [statusWrites, List.nil_append, List.mem_singleton] at hw
        exact Or.inr (by rw [hw])
      · split at hw
        · simp [statusWrites] at hw
        · split at hw
          · simp [statusWrites] at hw
          · split at hw
            · rw [validateStatusWrite_writes] at hw
              simp only [statusWrites, List.nil_append, List.mem_singleton] at hw
              exact Or.inr (by rw [hw])
            · simp [statusWrites] at hw

theorem validateTimeout_writes (env : Env) (scan : ComplianceScan) :
    statusWrites (validateTimeout env scan).log = [] := by
  unfold validateTimeout
  split
  · split <;> rfl
  · rfl

theorem handlerValidate_writes (env : Env) (h : scanTypeHandler) (w : ComplianceScan)
    (hw : w ∈ statusWrites (h.validate env).log) :
    w.Status.Phase = ScanStatusPhase.Done := by
  cases h with
  | platform ph =>
    simp only [scanTypeHandler.validate, platformScanTypeHandler.validate,
      validateTimeout_writes] at hw
    simp at hw
  | node nh =>
    simp only [scanTypeHandler.validate, nodeScanTypeHandler.validate] at hw
    split at hw
    · rw [statusWrites_append, statusWrites_updateStatusWithEvent] at hw
      simp only [statusWrites, List.nil_append, List.mem_singleton] at hw
      rw [hw]
    · split at hw
      · simp [statusWrites] at hw
      · rw [validateTimeout_writes] at hw
        simp at hw

theorem statusWrites_nodeCreateWorkloadLoop (env : Env) (scan : ComplianceScan) :
    ∀ (nodes : List Node) (log : List Effect),
      statusWrites (nodeCreateWorkloadLoop env scan nodes log).2 = statusWrites log := by
  intro nodes
  induction nodes with
  | nil => intro log; rfl
  | cons n rest ih =>
    intro log
    unfold nodeCreateWorkloadLoop
    split
    · split
      · rw [statusWrites_append]
        simp [statusWrites]
      · rw [ih, statusWrites_append]
        simp [statusWrites]
    · split
      · rw [statusWrites_append]
        simp [statusWrites]
      · rw [ih, statusWrites_append]
        simp [statusWrites]

theorem statusWrites_createScanWorkload (env : Env) (h : scanTypeHandler) :
    statusWrites (h.createScanWorkload env).2 = [] := by
  cases h with
  | node nh => exact statusWrites_nodeCreateWorkloadLoop env nh.scan nh.nodes []
  | platform ph =>
    simp only [scanTypeHandler.createScanWorkload, platformScanTypeHandler.createScanWorkload]
    split <;> rfl

theorem statusWrites_createKubeletConfigCM (env : Env) (inst : ComplianceScan) (node : Node) :
    statusWrites (createKubeletConfigCM env inst node).2 = [] := by
  unfold createKubeletConfigCM
  split <;> rfl

theorem statusWrites_kubeletConfigLoop (env : Env) (inst : ComplianceScan) :
    ∀ (nodes : List Node) (log : List Effect),
      statusWrites (kubeletConfigLoop env inst nodes log).2 = statusWrites log := by
  intro nodes
  induction nodes with
  | nil => intro log; rfl
  | cons n rest ih =>
    intro log
    unfold kubeletConfigLoop
    split
    · exact ih log
    · split
      · rfl
      · split
        · rw [statusWrites_append, statusWrites_createKubeletConfigCM, List.append_nil]
        · rw [ih, statusWrites_append, statusWrites_createKubeletConfigCM, List.append_nil]

theorem statusWrites_handleRuntimeKubeletConfig (env : Env) (inst : ComplianceScan) :
    statusWrites (handleRuntimeKubeletConfig env inst).2 = [] := by
  unfold handleRuntimeKubeletConfig
  split
  · rfl
  · split
    · rfl
    · exact statusWrites_kubeletConfigLoop env inst _ []

theorem launchingWorkload_writes (env : Env) (h : scanTypeHandler) (w : ComplianceScan)
    (hw : w ∈ statusWrites (launchingWorkload env h).log) :
    w.Status.Phase = ScanStatusPhase.Running ∨ w.Status.Phase = ScanStatusPhase.Done := by
  unfold launchingWorkload at hw
  split at hw
  · split at hw
    · split at hw
      · rw [statusWrites_append, statusWrites_createScanWorkload] at hw
        simp only [statusWrites, List.nil_append, List.mem_singleton] at hw
        exact Or.inr (by rw [hw]; rfl)
      · rw [statusWrites_append, statusWrites_createScanWorkload] at hw
        simp only [statusWrites, List.nil_append, List.mem_singleton] at hw
        exact Or.inr (by rw [hw]; rfl)
    · rw [statusWrites_createScanWorkload] at hw
      simp at hw
  · split at hw
    · rw [statusWrites_append, statusWrites_createScanWorkload] at hw
      simp only [statusWrites, List.nil_append, List.mem_singleton] at hw
      exact Or.inl (by rw [hw]; rfl)
    · rw [statusWrites_append, statusWrites_createScanWorkload] at hw
      simp only [statusWrites, List.nil_append, List.mem_singleton] at hw
      exact Or.inl (by rw [hw]; rfl)

theorem phaseLaunchingHandler_writes (env : Env) (h : scanTypeHandler) (w : ComplianceScan)
    (hw : w ∈ statusWrites (phaseLaunchingHandler env h).log) :
    w.Status.Phase = ScanStatusPhase.Running ∨ w.Status.Phase = ScanStatusPhase.Done := by
  unfold phaseLaunchingHandler at hw
  split at hw
  · rw [statusWrites_runCalls] at hw
    simp at hw
  · split at hw
    · rw [statusWrites_runCalls] at hw
      simp at hw
    · simp only [HandlerOutcome.after, statusWrites_append, statusWrites_runCalls,
        List.nil_append] at hw
      unfold launchingServer at hw
      split at hw
      · simp [statusWrites] at hw
      · split at hw
        · simp [statusWrites, statusWrites_handleRuntimeKubeletConfig] at hw
        · simp only [HandlerOutcome.after] at hw
          rw [show ∀ (e : Effect) (l m : List Effect), e :: l ++ m = [e] ++ (l ++ m) from
            fun _ _ _ => rfl] at hw
          rw [statusWrites_append, statusWrites_append,
            statusWrites_handleRuntimeKubeletConfig] at hw
          simp only [statusWrites, List.nil_append] at hw
          exact launchingWorkload_writes env h w hw

theorem statusWrites_ensureUnschedulableCM (env : Env) (scan : ComplianceScan) (node : Node)
    (err : GoError) : statusWrites (ensureUnschedulableCM env scan node err).2 = [] := by
  unfold ensureUnschedulableCM
  simp only []
  split
  · rfl
  · split
    · split
      · rfl
      · split <;> rfl
    · rfl

theorem nodeRunningLoop_outcome (env : Env) (scan : ComplianceScan) (timeoutVal : Duration) :
    ∀ (nodes : List Node) (timeoutNodes : List String) (log : List Effect),
      ((nodeRunningLoop env scan timeoutVal nodes timeoutNodes log).running = false →
        (nodeRunningLoop env scan timeoutVal nodes timeoutNodes log).timeoutNodes
          = timeoutNodes) ∧
      ∀ w ∈ statusWrites (nodeRunningLoop env scan timeoutVal nodes timeoutNodes log).log,
        w ∈ statusWrites log ∨ w.Status.Phase = ScanStatusPhase.Launching := by
  intro nodes
  induction nodes with
  | nil =>
    intro timeoutNodes log
    unfold nodeRunningLoop
    exact ⟨fun _ => rfl, fun w hw => Or.inl hw⟩
  | cons n rest ih =>
    intro timeoutNodes log
    unfold nodeRunningLoop
    simp only []
    split
    · split
      · exact ⟨fun hf => absurd hf (by simp), fun w hw => Or.inl hw⟩
      · exact ih timeoutNodes log
    · split
      · refine ⟨fun hf => absurd hf (by simp), fun w hw => ?_⟩
        rw [statusWrites_append] at hw
        simp only [statusWrites, List.mem_append, List.mem_singleton] at hw
        rcases hw with hw | hw
        · exact Or.inl hw
        · exact Or.inr (by rw [hw])
      · split
        · split
          · rename_i cmErr sent heq
            have hs : statusWrites sent = [] :=
              (congrArg (fun p => statusWrites p.2) heq).symm.trans
                (statusWrites_ensureUnschedulableCM env scan n _)
            refine ⟨fun hf => absurd hf (by simp), fun w hw => ?_⟩
            rw [statusWrites_append, hs, List.append_nil] at hw
            exact Or.inl hw
          · rename_i sent heq
            have hs : statusWrites sent = [] :=
              (congrArg (fun p => statusWrites p.2) heq).symm.trans
                (statusWrites_ensureUnschedulableCM env scan n _)
            split
            · refine ⟨fun hf => absurd hf (by simp), fun w hw => ?_⟩
              rw [statusWrites_append, hs, List.append_nil] at hw
              exact Or.inl hw
            · obtain ⟨h1, h2⟩ := ih timeoutNodes (log ++ sent)
              refine ⟨h1, fun w hw => ?_⟩
              rcases h2 w hw with h | h
              · rw [statusWrites_append, hs, List.append_nil] at h
                exact Or.inl h
              · exact Or.inr h
        · split
          · exact ⟨fun hf => absurd hf (by simp), fun w hw => Or.inl hw⟩
          · exact ⟨fun hf => absurd hf (by simp), fun w hw => Or.inl hw⟩

theorem platformRunningPoll_outcome (env : Env) (scan : ComplianceScan)
    (timeoutVal : Duration) :
    ((platformRunningPoll env scan timeoutVal).running = false →
      (platformRunningPoll env scan timeoutVal).timeoutNodes = []) ∧
    ∀ w ∈ statusWrites (platformRunningPoll env scan timeoutVal).log,
      w.Status.Phase = ScanStatusPhase.Launching := by
  unfold platformRunningPoll
  simp only []
  split
  · exact ⟨fun _ => rfl, fun w hw => by simp [statusWrites] at hw⟩
  · split
    · refine ⟨fun _ => rfl, fun w hw => ?_⟩
      simp only [statusWrites, List.mem_singleton] at hw
      rw [hw]
    · split
      · exact ⟨fun hf => absurd hf (by simp), fun w hw => by simp [statusWrites] at hw⟩
      · exact ⟨fun _ => rfl, fun w hw => by simp [statusWrites] at hw⟩

theorem handleRunningScan_outcome (env : Env) (h : scanTypeHandler) :
    ((h.handleRunningScan env).running = false → (h.handleRunningScan env).timeoutNodes = []) ∧
    ∀ w ∈ statusWrites (h.handleRunningScan env).log,
      w.Status.Phase = ScanStatusPhase.Launching := by
  have hnode : ∀ (nh : nodeScanTypeHandler) (tv : Duration),
      ((nodeRunningLoop env nh.scan tv nh.nodes [] []).running = false →
        (nodeRunningLoop env nh.scan tv nh.nodes [] []).timeoutNodes = []) ∧
      ∀ w ∈ statusWrites (nodeRunningLoop env nh.scan tv nh.nodes [] []).log,
        w.Status.Phase = ScanStatusPhase.Launching := by
    intro nh tv
    obtain ⟨h1, h2⟩ := nodeRunningLoop_outcome env nh.scan tv nh.nodes [] []
    refine ⟨h1, fun w hw => ?_⟩
    rcases h2 w hw with h | h
    · simp [statusWrites] at h
    · exact h
  cases h with
  | node nh =>
    simp only [scanTypeHandler.handleRunningScan, nodeScanTypeHandler.handleRunningScan]
    split
    · split
      · exact ⟨fun _ => rfl, fun w hw => by simp [statusWrites] at hw⟩
      · exact hnode nh _
    · exact hnode nh _
  | platform ph =>
    simp only [scanTypeHandler.handleRunningScan, platformScanTypeHandler.handleRunningScan]
    split
    · split
      · exact ⟨fun _ => rfl, fun w hw => by simp [statusWrites] at hw⟩
      · exact platformRunningPoll_outcome env ph.scan _
    · exact platformRunningPoll_outcome env ph.scan _

theorem withoutRescanAnnotation_clear (scan : ComplianceScan) :
    ( withoutRescanAnnotation scan).NeedsRescan = false := by
  unfold withoutRescanAnnotation
  split
  · simp only [ComplianceScan.NeedsRescan]
    rw [lookup_mapDelete_self]
    rfl
  · rename_i hno
    simpa using hno

theorem reconcileInstance_jobExists (env : Env) (scan : ComplianceScan) (err : GoError)
    (htype : scan.Spec.ScanType ≠ DelveRemoteScanType)
    (hcfg : scan.Spec.DelveRemoteConfigMap ≠ "")
    (hjob : env.createJob (scan.Name ++ "-delve-remote-scan") = some err) :
    reconcileInstance env scan
      = { result := {}, err := some err,
          log := [Effect.createJob (scan.Name ++ "-delve-remote-scan")],
          steps := [Step.createDelveJob] } := by
  simp [reconcileInstance, htype, hcfg, hjob]

theorem reconcileInstance_noConfig (env : Env) (scan : ComplianceScan)
    (htype : scan.Spec.ScanType ≠ DelveRemoteScanType)
    (hcfg : scan.Spec.DelveRemoteConfigMap = "") :
    reconcileInstance env scan
      = { result := {},
          err := some (GoError.other
            "DelveRemoteConfigMap not specified in ComplianceScan resource"),
          log := [], steps := [] } := by
  simp [reconcileInstance, htype, hcfg]

/-- C18, the code at the failing input: a new per-node scan `s` that names a config map.
The first pass of `Reconcile` returns no error and creates the job `s-delve-remote-scan`
(and adds the finalizer and sets the phase Pending).  The second pass, on the store the
first one left, asks to create the same job again, gets already-exists and returns that
error; it goes through nothing else. -/
theorem C18_second_pass_returns_already_exists :
    (Reconcile ((storeEnv [] [] [] 0).withScan (nodeScan ScanStatusPhase.unset [] none))
      requestS).err = none ∧
    jobsCreated (Reconcile
      ((storeEnv [] [] [] 0).withScan (nodeScan ScanStatusPhase.unset [] none))
      requestS).log = ["s-delve-remote-scan"] ∧
    (storedScan (nodeScan ScanStatusPhase.unset [] none) (Reconcile
      ((storeEnv [] [] [] 0).withScan (nodeScan ScanStatusPhase.unset [] none))
      requestS).log).Finalizers = [ScanFinalizer] ∧
    Reconcile ((storeEnv [] [] [] 0).afterPass (nodeScan ScanStatusPhase.unset [] none)
        (Reconcile ((storeEnv [] [] [] 0).withScan (nodeScan ScanStatusPhase.unset [] none))
          requestS).log) requestS
      = { result := {},
          err := some (GoError.alreadyExists "jobs s-delve-remote-scan already exists"),
          log := [Effect.createJob "s-delve-remote-scan"],
          steps := [Step.createDelveJob] } := by
  decide

/-- C20, the code at the failing input: per-node scans `s` under deletion (deletion
timestamp 3, finalizer present).  Without a config map named for the remote-debug job,
`Reconcile` returns the error about the missing config map and does not run
`scanDeleteHandler`; with one, it first asks to create the job `s-delve-remote-scan` and
only then runs `scanDeleteHandler`. -/
theorem C20_deletion_blocked_by_job :
    Reconcile ((storeEnv [] [] [] 0).withScan
        (plainNodeScan ScanStatusPhase.Done [ScanFinalizer] (some 3))) requestS
      = { result := {},
          err := some (GoError.other
            "DelveRemoteConfigMap not specified in ComplianceScan resource"),
          log := [], steps := [] } ∧
    (Reconcile ((storeEnv [] [] [] 0).withScan
        (nodeScan ScanStatusPhase.Done [ScanFinalizer] (some 3))) requestS).steps
      = [Step.createDelveJob, Step.scanDeleteHandler] ∧
    (Reconcile ((storeEnv [] [] [] 0).withScan
        (nodeScan ScanStatusPhase.Done [ScanFinalizer] (some 3))) requestS).log.head?
      = some (Effect.createJob "s-delve-remote-scan") := by
  decide

theorem reconcileDispatch_steps (env : Env) (h : scanTypeHandler) (inst : ComplianceScan) :
    Step.addFinalizer ∉ (reconcileDispatch env h inst).steps := by
  unfold reconcileDispatch
  split <;> simp [ReconcileOutcome.ofHandler]

theorem reconcileHandler_steps (env : Env) (h : scanTypeHandler) (inst : ComplianceScan) :
    Step.addFinalizer ∉ (reconcileHandler env h inst).steps := by
  unfold reconcileHandler
  split
  · simp
  · split
    · simp
    · simp only [ReconcileOutcome.after, List.mem_append, List.mem_singleton, not_or]
      exact ⟨by decide, reconcileDispatch_steps env h inst⟩

theorem reconcileValidated_steps (env : Env) (inst : ComplianceScan) :
    (∃ rest, (reconcileValidated env inst).steps = Step.validate :: rest) ∧
    Step.addFinalizer ∉ (reconcileValidated env inst).steps := by
  unfold reconcileValidated
  split
  · exact ⟨⟨[], rfl⟩, by simp⟩
  · split
    · exact ⟨⟨[], rfl⟩, by simp⟩
    · split
      · exact ⟨⟨_, rfl⟩, by simp⟩
      · exact ⟨⟨_, rfl⟩, by simp⟩
      · refine ⟨⟨_, rfl⟩, ?_⟩
        simp only [ReconcileOutcome.after, List.mem_append, List.mem_cons,
          List.mem_singleton, List.not_mem_nil, or_false, not_or]
        exact ⟨⟨by decide, by decide⟩, reconcileHandler_steps env _ inst⟩

/-- C19 fails as stated: on a new per-node scan without finalizer that is not under
deletion, the pass that appends and writes the finalizer goes on in the same pass with
the validation, which writes the status with phase Pending. -/
theorem C19_finalizer_counterexample :
    (nodeScan ScanStatusPhase.unset [] none).DeletionTimestamp = none ∧
    ContainsFinalizer (nodeScan ScanStatusPhase.unset [] none).Finalizers ScanFinalizer
      = false ∧
    (Reconcile ((storeEnv [] [] [] 0).withScan (nodeScan ScanStatusPhase.unset [] none))
      requestS).steps = [Step.createDelveJob, Step.addFinalizer, Step.validate] ∧
    (statusWrites (Reconcile
      ((storeEnv [] [] [] 0).withScan (nodeScan ScanStatusPhase.unset [] none))
      requestS).log).length = 1 := by
  decide

/-- C19 as amended: for every scan that is not under deletion and for which the pass
gets to the finalizer step.  If the scan lacks the scan finalizer, `Reconcile` appends it
(the list then holds exactly one copy) and writes the object; when that write fails the
pass ends with its error and nothing further runs; when it succeeds the pass goes on, in
the same pass, with the validation of the object with the finalizer and whatever follows
it.  If the scan already has the finalizer, the finalizer step is not run: the pass goes
on with the validation of the object as it is. -/
theorem C19_finalizer_registration_amended (env : Env) (request : NamespacedName)
    (scan : ComplianceScan) (hget : env.getScan request = .ok scan)
    (hlive : scan.DeletionTimestamp = none) (hreach : reachesFinalizerStep env scan) :
    (ContainsFinalizer scan.Finalizers ScanFinalizer = false →
      (withFinalizer scan).Finalizers.count ScanFinalizer = 1 ∧
      (∀ err, env.update (withFinalizer scan) = some err →
        Reconcile env request
          = { result := {}, err := some err,
              log := [Effect.createJob (scan.Name ++ "-delve-remote-scan"),
                      Effect.update (withFinalizer scan)],
              steps := [Step.createDelveJob, Step.addFinalizer] }) ∧
      (env.update (withFinalizer scan) = none →
        Reconcile env request
          = (reconcileValidated env (withFinalizer scan)).after
              [Effect.createJob (scan.Name ++ "-delve-remote-scan"),
               Effect.update (withFinalizer scan)]
              [Step.createDelveJob, Step.addFinalizer] ∧
        Step.validate ∈ (Reconcile env request).steps)) ∧
    (ContainsFinalizer scan.Finalizers ScanFinalizer = true →
      Reconcile env request
        = (reconcileValidated env scan).after
            [Effect.createJob (scan.Name ++ "-delve-remote-scan")] [Step.createDelveJob] ∧
      Step.addFinalizer ∉ (Reconcile env request).steps) := by
  obtain ⟨htype, hcfg, hjob⟩ := hreach
  have hlive2 : scan.DeletionTimestamp.isNone = true := by rw [hlive]; rfl
  have hrec : Reconcile env request
      = (reconcileFinalizer env scan).after
          [Effect.createJob (scan.Name ++ "-delve-remote-scan")] [Step.createDelveJob] := by
    simp [Reconcile, hget, reconcileInstance, htype, hcfg, hjob]
  constructor
  · intro hno
    refine ⟨?_, ?_, ?_⟩
    · have hmem : ScanFinalizer ∉ scan.Finalizers := by
        intro hm
        have : ContainsFinalizer scan.Finalizers ScanFinalizer = true := by
          simpa [ContainsFinalizer] using hm
        rw [hno] at this
        exact absurd this (by decide)
      simp [withFinalizer, List.count_append, List.count_eq_zero_of_not_mem hmem]
    · intro err herr
      rw [hrec]
      simp [reconcileFinalizer, hlive2, hno, herr, ReconcileOutcome.after]
    · intro hok
      have heq : Reconcile env request
          = (reconcileValidated env (withFinalizer scan)).after
              [Effect.createJob (scan.Name ++ "-delve-remote-scan"),
               Effect.update (withFinalizer scan)]
              [Step.createDelveJob, Step.addFinalizer] := by
        rw [hrec]
        simp [reconcileFinalizer, hlive2, hno, hok, ReconcileOutcome.after]
      refine ⟨heq, ?_⟩
      obtain ⟨rest, hrest⟩ := (reconcileValidated_steps env (withFinalizer scan)).1
      rw [heq]
      simp [ReconcileOutcome.after, hrest]
  · intro hhas
    have heq : Reconcile env request
        = (reconcileValidated env scan).after
            [Effect.createJob (scan.Name ++ "-delve-remote-scan")] [Step.createDelveJob] := by
      rw [hrec]
      simp [reconcileFinalizer, hlive2, hhas]
    refine ⟨heq, ?_⟩
    rw [heq]
    simp only [ReconcileOutcome.after, List.mem_append, List.mem_singleton, not_or]
    exact ⟨by decide, (reconcileValidated_steps env scan).2⟩

/-- C19 as amended, at concrete inputs: a new scan without finalizer, and a Pending scan
with it. -/
theorem C19_finalizer_registration_amended_witness :
    (withFinalizer (nodeScan ScanStatusPhase.unset [] none)).Finalizers.count ScanFinalizer
      = 1 ∧
    Step.addFinalizer ∉ (Reconcile
      ((storeEnv [] [] [] 0).withScan (nodeScan ScanStatusPhase.Pending [ScanFinalizer] none))
      requestS).steps :=
  ⟨((C19_finalizer_registration_amended
      ((storeEnv [] [] [] 0).withScan (nodeScan ScanStatusPhase.unset [] none)) requestS
      (nodeScan ScanStatusPhase.unset [] none) (by rfl) (by rfl)
      ⟨by decide, by decide, by rfl⟩).1 (by decide)).1,
   ((C19_finalizer_registration_amended
      ((storeEnv [] [] [] 0).withScan (nodeScan ScanStatusPhase.Pending [ScanFinalizer] none))
      requestS (nodeScan ScanStatusPhase.Pending [ScanFinalizer] none) (by rfl) (by rfl)
      ⟨by decide, by decide, by rfl⟩).2 (by decide)).2⟩


/-! ## Deletion: the finalizer gate -/

theorem objectUpdates_append (a b : List Effect) :
    objectUpdates (a ++ b) = objectUpdates a ++ objectUpdates b := by
  induction a with
  | nil => rfl
  | cons e rest ih =>
    cases e <;> simp [objectUpdates, ih]

theorem objectUpdates_runCalls (env : Env) (scan : ComplianceScan) :
    ∀ (calls : List Call), objectUpdates (runCalls env scan calls).2 = [] := by
  intro calls
  induction calls with
  | nil => rfl
  | cons c rest ih =>
    unfold runCalls
    split
    · cases c <;> rfl
    · cases c <;> exact ih

theorem Call.effect_injective (scan : ComplianceScan) (c d : Call)
    (h : c.effect scan = d.effect scan) : c = d := by
  cases c <;> cases d <;> simp [Call.effect] at h <;> simp [h]

theorem runCalls_append (env : Env) (scan : ComplianceScan) (b : List Call) :
    ∀ (a : List Call), runCalls env scan (a ++ b) =
      match (runCalls env scan a).1 with
      | some err => (some err, (runCalls env scan a).2)
      | none => ((runCalls env scan b).1, (runCalls env scan a).2 ++ (runCalls env scan b).2) := by
  intro a
  induction a with
  | nil => simp [runCalls]
  | cons c rest ih =>
    simp only [List.cons_append, runCalls]
    cases hc : c.response env scan with
    | some e => rfl
    | none =>
      rw [show rest.append b = rest ++ b from rfl, ih]
      cases hr : (runCalls env scan rest).1 <;> simp

/-- A call whose request was sent and which returned an error is the call the sequence
stopped at: the sequence returns its error. -/
theorem runCalls_mem_err (env : Env) (scan : ComplianceScan) (c : Call) (err : GoError)
    (hresp : c.response env scan = some err) :
    ∀ (calls : List Call), c.effect scan ∈ (runCalls env scan calls).2 →
      (runCalls env scan calls).1 = some err := by
  intro calls
  induction calls with
  | nil => intro h; simp [runCalls] at h
  | cons d rest ih =>
    intro h
    simp only [runCalls] at h ⊢
    cases hd : d.response env scan with
    | some e =>
      simp only [hd, List.mem_singleton] at h
      have hcd := Call.effect_injective scan c d h
      subst hcd
      rw [hresp] at hd
      exact hd.symm
    | none =>
      simp only [hd, List.mem_cons] at h
      rcases h with h | h
      · have hcd := Call.effect_injective scan c d h
        subst hcd
        rw [hresp] at hd
        cases hd
      · exact ih h

/-- A sequence that returned no error made every call, each without error. -/
theorem runCalls_none (env : Env) (scan : ComplianceScan) :
    ∀ (calls : List Call), (runCalls env scan calls).1 = none →
      (runCalls env scan calls).2 = calls.map (Call.effect scan) ∧
      ∀ c ∈ calls, c.response env scan = none := by
  intro calls
  induction calls with
  | nil => intro _; exact ⟨rfl, by simp⟩
  | cons d rest ih =>
    intro h
    simp only [runCalls] at h ⊢
    cases hd : d.response env scan with
    | some e => simp [hd] at h
    | none =>
      simp only [hd] at h
      obtain ⟨h1, h2⟩ := ih h
      refine ⟨by simp [h1], ?_⟩
      intro c hc
      rcases List.mem_cons.mp hc with hc | hc
      · rw [hc]; exact hd
      · exact h2 c hc

theorem runCalls_ok (env : Env) (scan : ComplianceScan) :
    ∀ (calls : List Call), (∀ c ∈ calls, c.response env scan = none) →
      (runCalls env scan calls).1 = none := by
  intro calls
  induction calls with
  | nil => intro _; rfl
  | cons d rest ih =>
    intro h
    simp only [runCalls, h d (List.mem_cons_self d rest)]
    exact ih (fun c hc => h c (List.mem_cons_of_mem d hc))


theorem deletionCalls_eq (h : Option scanTypeHandler) (scan : ComplianceScan)
    (hno : scan.NeedsRescan = false) :
    deletionCalls h scan =
      (match h with
        | some hh => [hh.cleanup]
        | none => []) ++
      [Call.op Op.deleteAggregator, Call.op Op.deleteResultServer,
       Call.op Op.deleteResultServerSecret, Call.op Op.deleteResultClientSecret,
       Call.op Op.deleteRootCASecret, deleteScriptConfigMaps scan,
       deleteKubeletConfigConfigMaps scan, deleteResultConfigMaps scan,
       Call.op Op.deleteRawResultsForScan] := by
  cases h <;> simp [deletionCalls, doneCalls, doDelete, hno]

theorem scanDeleteCleanup_eq (env : Env) (h : Option scanTypeHandler) (scan : ComplianceScan)
    (hno : scan.NeedsRescan = false) :
    (scanDeleteCleanup env h scan).log =
        (runCalls env scan (deletionCalls h scan)).2 ++
          (match (runCalls env scan (deletionCalls h scan)).1 with
            | some _ => []
            | none => [Effect.update (withoutFinalizer scan)]) ∧
    (scanDeleteCleanup env h scan).err =
        (match (runCalls env scan (deletionCalls h scan)).1 with
          | some err => some err
          | none => env.update (withoutFinalizer scan)) ∧
    ((runCalls env scan (deletionCalls h scan)).1 = none →
      (scanDeleteCleanup env h scan).scan = withoutFinalizer scan) := by
  unfold deletionCalls
  rw [runCalls_append]
  simp only [scanDeleteCleanup, phaseDoneHandler, hno]
  cases h1 : (runCalls env scan (doneCalls h scan doDelete)).1 with
  | some e => simp
  | none =>
    cases h2 : (runCalls env scan
      [deleteResultConfigMaps scan, Call.op Op.deleteRawResultsForScan]).1 <;> simp

/-- The gate of `scanDeleteHandler` stated for the statements after the handler is
obtained. -/
theorem scanDeleteCleanup_gate (env : Env) (h : Option scanTypeHandler)
    (scan : ComplianceScan) (hno : scan.NeedsRescan = false) :
    (∀ (c : Call) (err : GoError),
      c.effect scan ∈ (scanDeleteCleanup env h scan).log →
      c.response env scan = some err →
      (scanDeleteCleanup env h scan).err = some err ∧
      objectUpdates (scanDeleteCleanup env h scan).log = []) ∧
    (∀ u, u ∈ objectUpdates (scanDeleteCleanup env h scan).log →
      u = withoutFinalizer scan ∧
      (scanDeleteCleanup env h scan).err = env.update u ∧
      (scanDeleteCleanup env h scan).log.getLast? = some (Effect.update u) ∧
      ∀ c ∈ deletionCalls h scan,
        c.effect scan ∈ (scanDeleteCleanup env h scan).log ∧ c.response env scan = none) ∧
    ((∀ c ∈ deletionCalls h scan, c.response env scan = none) →
      objectUpdates (scanDeleteCleanup env h scan).log = [withoutFinalizer scan] ∧
      (scanDeleteCleanup env h scan).err = env.update (withoutFinalizer scan) ∧
      (scanDeleteCleanup env h scan).scan = withoutFinalizer scan) := by
  obtain ⟨hlog, herr, hscan⟩ := scanDeleteCleanup_eq env h scan hno
  rw [hlog, herr]
  cases hrun : (runCalls env scan (deletionCalls h scan)).1 with
  | some e =>
    refine ⟨?_, ?_, ?_⟩
    · intro c err hc hresp
      simp only [List.append_nil] at hc ⊢
      have := runCalls_mem_err env scan c err hresp _ hc
      rw [hrun] at this
      exact ⟨this, objectUpdates_runCalls env scan _⟩
    · intro u hu
      simp only [List.append_nil, objectUpdates_runCalls] at hu
      simp at hu
    · intro hall
      rw [runCalls_ok env scan _ hall] at hrun
      cases hrun
  | none =>
    obtain ⟨hsent, hresp⟩ := runCalls_none env scan _ hrun
    have hupd : objectUpdates ((runCalls env scan (deletionCalls h scan)).2
        ++ [Effect.update (withoutFinalizer scan)]) = [withoutFinalizer scan] := by
      rw [objectUpdates_append, objectUpdates_runCalls]
      rfl
    refine ⟨?_, ?_, ?_⟩
    · intro c err hc hr
      simp only [List.mem_append, List.mem_singleton] at hc
      rcases hc with hc | hc
      · have := runCalls_mem_err env scan c err hr _ hc
        rw [hrun] at this
        cases this
      · cases c <;> simp [Call.effect] at hc
    · intro u hu
      simp only [hupd, List.mem_singleton] at hu
      subst hu
      refine ⟨rfl, rfl, by simp, ?_⟩
      intro c hc
      refine ⟨?_, hresp c hc⟩
      rw [hsent]
      exact List.mem_append_left _ (List.mem_map_of_mem _ hc)
    · intro _
      exact ⟨hupd, rfl, hscan hrun⟩


theorem scanDeleteHandler_cases (env : Env) (inst : ComplianceScan)
    (hfin : ContainsFinalizer inst.Finalizers ScanFinalizer = true) :
    (∃ e, getScanTypeHandler env inst = .error e ∧ e.IsUnknownScanType = false ∧
      (scanDeleteHandler env inst).log = [] ∧ (scanDeleteHandler env inst).err = some e) ∨
    (∃ h, scanDeleteHandler env inst = scanDeleteCleanup env h ( withoutRescanAnnotation inst) ∧
      ∀ hh, getScanTypeHandler env inst = .ok (some hh) →
        h = some (hh.setScan ( withoutRescanAnnotation inst))) := by
  simp only [scanDeleteHandler, hfin, if_true]
  cases hget : getScanTypeHandler env inst with
  | error e =>
    cases hu : e.IsUnknownScanType with
    | false => exact Or.inl ⟨e, rfl, hu, by simp [hu], by simp [hu]⟩
    | true => exact Or.inr ⟨none, by simp [hu], by intro hh h; cases h⟩
  | ok h =>
    cases h with
    | none => exact Or.inr ⟨none, rfl, by intro hh h; cases h⟩
    | some hh =>
      refine Or.inr ⟨some (hh.setScan ( withoutRescanAnnotation inst)), rfl, ?_⟩
      intro hh2 h
      cases h
      rfl

theorem not_mem_RemoveFinalizer (finalizers : List String) (f : String) :
    f ∉ RemoveFinalizer finalizers f := by
  simp [RemoveFinalizer]

/-- C21: finalizer gate on deletion.  A scan without the finalizer gets no request at all
and no error.  Every deletion call of `scanDeleteHandler` whose request was sent and which
returned an error ends the handler with that error and without any object write, so the
stored finalizer list is unchanged.  An object write, when one is sent, is the last
request; it carries the scan with the finalizer removed, its response is what the handler
returns, and before it the cleanup of the handler (when the scan type has one), the
Done-path deletions, the deletion of the result records and the deletion of the raw
results were all requested and all returned no error.  When the scan has the finalizer,
the handler could be obtained (or the scan type is unknown) and every deletion call
succeeds, exactly that one object write is sent. -/
theorem C21_finalizer_gate (env : Env) (inst : ComplianceScan) :
    (ContainsFinalizer inst.Finalizers ScanFinalizer = false →
      (scanDeleteHandler env inst).log = [] ∧ (scanDeleteHandler env inst).err = none) ∧
    (∀ (c : Call) (err : GoError),
      c.effect ( withoutRescanAnnotation inst) ∈ (scanDeleteHandler env inst).log →
      c.response env ( withoutRescanAnnotation inst) = some err →
      (scanDeleteHandler env inst).err = some err ∧
      objectUpdates (scanDeleteHandler env inst).log = []) ∧
    (∀ u, u ∈ objectUpdates (scanDeleteHandler env inst).log →
      u = withoutFinalizer ( withoutRescanAnnotation inst) ∧
      ScanFinalizer ∉ u.Finalizers ∧
      (scanDeleteHandler env inst).err = env.update u ∧
      (scanDeleteHandler env inst).log.getLast? = some (Effect.update u) ∧
      (∀ h, getScanTypeHandler env inst = .ok (some h) →
        h.cleanup.effect ( withoutRescanAnnotation inst) ∈ (scanDeleteHandler env inst).log ∧
        h.cleanup.response env ( withoutRescanAnnotation inst) = none) ∧
      ∀ c ∈ [Call.op Op.deleteAggregator, Call.op Op.deleteResultServer,
          Call.op Op.deleteResultServerSecret, Call.op Op.deleteResultClientSecret,
          Call.op Op.deleteRootCASecret, deleteScriptConfigMaps ( withoutRescanAnnotation inst),
          deleteKubeletConfigConfigMaps ( withoutRescanAnnotation inst),
          deleteResultConfigMaps ( withoutRescanAnnotation inst),
          Call.op Op.deleteRawResultsForScan],
        c.effect ( withoutRescanAnnotation inst) ∈ (scanDeleteHandler env inst).log ∧
        c.response env ( withoutRescanAnnotation inst) = none) ∧
    (ContainsFinalizer inst.Finalizers ScanFinalizer = true →
      (∀ e, getScanTypeHandler env inst = .error e → e.IsUnknownScanType = true) →
      (∀ c : Call, c.response env ( withoutRescanAnnotation inst) = none) →
      objectUpdates (scanDeleteHandler env inst).log
        = [withoutFinalizer ( withoutRescanAnnotation inst)] ∧
      (scanDeleteHandler env inst).err
        = env.update (withoutFinalizer ( withoutRescanAnnotation inst)) ∧
      ScanFinalizer ∉ (scanDeleteHandler env inst).scan.Finalizers) := by
  have hno := withoutRescanAnnotation_clear inst
  cases hfin : ContainsFinalizer inst.Finalizers ScanFinalizer with
  | false =>
    have hlog : (scanDeleteHandler env inst).log = [] := by
      simp [scanDeleteHandler, hfin]
    have herr : (scanDeleteHandler env inst).err = none := by
      simp [scanDeleteHandler, hfin]
    refine ⟨fun _ => ⟨hlog, herr⟩, ?_, ?_, ?_⟩
    · intro c err hc
      rw [hlog] at hc
      simp at hc
    · intro u hu
      rw [hlog] at hu
      simp [objectUpdates] at hu
    · intro h
      cases h
  | true =>
    refine ⟨fun h => (by cases h), ?_⟩
    rcases scanDeleteHandler_cases env inst hfin with ⟨e, hget, hu, hlog, herr⟩ | ⟨h, heq, hh⟩
    · refine ⟨?_, ?_, ?_⟩
      · intro c err hc
        rw [hlog] at hc
        simp at hc
      · intro u hu
        rw [hlog] at hu
        simp [objectUpdates] at hu
      · intro _ hall
        have := hall e hget
        rw [hu] at this
        cases this
    · obtain ⟨g1, g2, g3⟩ := scanDeleteCleanup_gate env h ( withoutRescanAnnotation inst) hno
      rw [heq]
      refine ⟨g1, ?_, ?_⟩
      · intro u hu
        obtain ⟨e1, e2, e3, e4⟩ := g2 u hu
        refine ⟨e1, ?_, e2, e3, ?_, ?_⟩
        · rw [e1]
          exact not_mem_RemoveFinalizer _ _
        · intro hd hget
          have hsome := hh hd hget
          have hc : hd.cleanup ∈ deletionCalls h ( withoutRescanAnnotation inst) := by
            rw [deletionCalls_eq _ _ hno, hsome]
            cases hd <;> simp [scanTypeHandler.setScan, scanTypeHandler.cleanup]
          exact e4 _ hc
        · intro c hc
          apply e4
          rw [deletionCalls_eq _ _ hno]
          exact List.mem_append_right _ hc
      · intro _ _ hall
        obtain ⟨f1, f2, f3⟩ := g3 (fun c _ => hall c)
        refine ⟨f1, f2, ?_⟩
        rw [f3]
        exact not_mem_RemoveFinalizer _ _

theorem C21_finalizer_gate_witness :
    ((scanDeleteHandler ((storeEnv [] [] [] 0).withFailingOp Op.deleteRawResultsForScan
        (GoError.other "volume busy"))
      (nodeScan ScanStatusPhase.Done [ScanFinalizer] (some 5))).err
        = some (GoError.other "volume busy") ∧
     objectUpdates (scanDeleteHandler ((storeEnv [] [] [] 0).withFailingOp
        Op.deleteRawResultsForScan (GoError.other "volume busy"))
      (nodeScan ScanStatusPhase.Done [ScanFinalizer] (some 5))).log = []) ∧
    objectUpdates (scanDeleteHandler (storeEnv [] [] [] 0)
      (nodeScan ScanStatusPhase.Done [ScanFinalizer] (some 5))).log
        = [nodeScan ScanStatusPhase.Done [] (some 5)] :=
  ⟨(C21_finalizer_gate ((storeEnv [] [] [] 0).withFailingOp Op.deleteRawResultsForScan
      (GoError.other "volume busy"))
      (nodeScan ScanStatusPhase.Done [ScanFinalizer] (some 5))).2.1
      (Call.op Op.deleteRawResultsForScan) (GoError.other "volume busy")
      (by decide) (by decide),
   ((C21_finalizer_gate (storeEnv [] [] [] 0)
      (nodeScan ScanStatusPhase.Done [ScanFinalizer] (some 5))).2.2.2
      (by decide)
      (fun e h => by
        have hok : getScanTypeHandler (storeEnv [] [] [] 0)
            (nodeScan ScanStatusPhase.Done [ScanFinalizer] (some 5))
            = Except.ok (some (scanTypeHandler.node
              { scan := nodeScan ScanStatusPhase.Done [ScanFinalizer] (some 5),
                nodes := [] })) := by rfl
        rw [hok] at h
        cases h)
      (by intro c; cases c <;> rfl)).1.trans
      (by decide)⟩


/-! ## Validation of the spec -/

theorem append_ne_empty (a b : String) (ha : 0 < a.length) : a ++ b ≠ "" := by
  intro h
  have hl := congrArg String.length h
  rw [String.length_append] at hl
  have h0 : ("" : String).length = 0 := rfl
  omega

theorem objectUpdates_validateStatusWrite (env : Env) (copy : ComplianceScan)
    (pre : List Effect) :
    objectUpdates (validateStatusWrite env copy pre).log = objectUpdates pre := by
  unfold validateStatusWrite
  split
  · rw [objectUpdates_append]
    simp [objectUpdates]
  · rw [objectUpdates_append]
    simp [objectUpdates]

theorem validateStatusWrite_outcome (env : Env) (copy : ComplianceScan) (pre : List Effect) :
    (validateStatusWrite env copy pre).cont = false ∧
    (validateStatusWrite env copy pre).err = env.statusUpdate copy := by
  unfold validateStatusWrite
  split
  · rename_i e he
    exact ⟨rfl, he.symm⟩
  · rename_i he
    exact ⟨rfl, he.symm⟩

/-- C22: spec validation failure is terminal in status.  For a scan with a non-empty phase
whose scan type is set but rejected, or whose scan type is accepted and whose raw-storage
size (set, with access modes set) does not parse, `validate` sends exactly one status
write and no object write; the written status has result Error, phase Done, a non-empty
error message and the end timestamp; `validate` returns continue = false, and the error it
returns is the response to that write, so no error once the write is accepted. -/
theorem C22_spec_validation_terminal (env : Env) (inst : ComplianceScan)
    (hphase : inst.Status.Phase ≠ ScanStatusPhase.unset) (hbad : specInvalid env inst) :
    ∃ w, statusWrites (validate env inst).log = [w] ∧
      objectUpdates (validate env inst).log = [] ∧
      w.Status.Result = ScanStatusResult.Error ∧
      w.Status.Phase = ScanStatusPhase.Done ∧
      w.Status.ErrorMessage ≠ "" ∧
      w.Status.EndTimestamp = some env.now ∧
      w.Spec = inst.Spec ∧
      (validate env inst).cont = false ∧
      (validate env inst).err = env.statusUpdate w ∧
      (env.statusUpdate w = none → (validate env inst).err = none) := by
  obtain ⟨htype, hcase⟩ := hbad
  rcases hcase with ⟨e, he⟩ | ⟨⟨t, ht⟩, hsize, hmodes, e, he⟩
  · refine ⟨invalidScanType env inst, ?_⟩
    have hv : validate env inst = validateStatusWrite env (invalidScanType env inst)
        [Effect.event "Warning" "InvalidScanType" "The scan type was invalid"] := by
      simp only [validate, hphase, htype, he, if_false]
      rfl
    rw [hv, validateStatusWrite_writes, objectUpdates_validateStatusWrite]
    obtain ⟨h1, h2⟩ := validateStatusWrite_outcome env (invalidScanType env inst)
      [Effect.event "Warning" "InvalidScanType" "The scan type was invalid"]
    refine ⟨rfl, rfl, rfl, rfl, ?_, rfl, rfl, h1, h2, fun h => h2.trans h⟩
    have h11 : ("Scan type '" : String).length = 11 := by decide
    exact append_ne_empty _ _ (by rw [String.length_append]; omega)
  · refine ⟨invalidStorageSize env inst e, ?_⟩
    have hlen : ¬ inst.Spec.RawResultStorage.PVAccessModes.length = 0 := by
      intro h
      exact hmodes (List.length_eq_zero.mp h)
    have hv : validate env inst = validateStatusWrite env (invalidStorageSize env inst e)
        [] := by
      simp only [validate, hphase, htype, ht, hsize, hlen, he, if_false]
      rfl
    rw [hv, validateStatusWrite_writes, objectUpdates_validateStatusWrite]
    obtain ⟨h1, h2⟩ := validateStatusWrite_outcome env (invalidStorageSize env inst e) []
    refine ⟨rfl, rfl, rfl, rfl, ?_, rfl, rfl, h1, h2, fun h => h2.trans h⟩
    exact append_ne_empty _ _ (by decide)

theorem C22_spec_validation_terminal_witness :
    ∃ w, statusWrites (validate (storeEnv [] [] [] 7)
        (scanWithSpec ScanStatusPhase.Pending "Bogus" "" "1Gi" ["ReadWriteOnce"])).log = [w] ∧
      objectUpdates (validate (storeEnv [] [] [] 7)
        (scanWithSpec ScanStatusPhase.Pending "Bogus" "" "1Gi" ["ReadWriteOnce"])).log = [] ∧
      w.Status.Result = ScanStatusResult.Error ∧
      w.Status.Phase = ScanStatusPhase.Done ∧
      w.Status.ErrorMessage ≠ "" ∧
      w.Status.EndTimestamp = some (storeEnv [] [] [] 7).now ∧
      w.Spec = (scanWithSpec ScanStatusPhase.Pending "Bogus" "" "1Gi" ["ReadWriteOnce"]).Spec ∧
      (validate (storeEnv [] [] [] 7)
        (scanWithSpec ScanStatusPhase.Pending "Bogus" "" "1Gi" ["ReadWriteOnce"])).cont = false ∧
      (validate (storeEnv [] [] [] 7)
        (scanWithSpec ScanStatusPhase.Pending "Bogus" "" "1Gi" ["ReadWriteOnce"])).err
        = (storeEnv [] [] [] 7).statusUpdate w ∧
      ((storeEnv [] [] [] 7).statusUpdate w = none →
        (validate (storeEnv [] [] [] 7)
          (scanWithSpec ScanStatusPhase.Pending "Bogus" "" "1Gi" ["ReadWriteOnce"])).err
          = none) :=
  C22_spec_validation_terminal (storeEnv [] [] [] 7)
    (scanWithSpec ScanStatusPhase.Pending "Bogus" "" "1Gi" ["ReadWriteOnce"])
    (by decide) ⟨by decide, Or.inl ⟨GoError.unknownScanType, by rfl⟩⟩


/-! ## Validation by the handler -/

theorem firstUnschedulable_some (scan : ComplianceScan) (hstrict : scan.IsStrictNodeScan = true) :
    ∀ (nodes : List Node), (∃ n ∈ nodes, n.Unschedulable = true) →
      ∃ name, firstUnschedulable scan nodes = some name := by
  intro nodes
  induction nodes with
  | nil => intro h; simp at h
  | cons node rest ih =>
    intro h
    unfold firstUnschedulable
    by_cases hn : node.Unschedulable = true
    · exact ⟨node.Name, by simp [hstrict, hn]⟩
    · have hrest : ∃ n ∈ rest, n.Unschedulable = true := by
        obtain ⟨n, hmem, hu⟩ := h
        rcases List.mem_cons.mp hmem with heq | hmem
        · rw [heq] at hu
          exact absurd hu hn
        · exact ⟨n, hmem, hu⟩
      obtain ⟨name, hname⟩ := ih hrest
      exact ⟨name, by simp [hn, hname]⟩

theorem validateTimeout_invalid (env : Env) (scan : ComplianceScan)
    (hbad : timeoutInvalid env scan) :
    ∃ message, validateTimeout env scan =
      { cont := false, err := none, log := [Effect.event "Warning" "InvalidTimeout" message] } := by
  obtain ⟨hset, err, herr⟩ := hbad
  exact ⟨"Cannot parse timeout value" ++ err.Error, by simp [validateTimeout, hset, herr]⟩

theorem handlerValidate_invalid (env : Env) (h : scanTypeHandler) (hbad : h.invalid env) :
    ∃ reason message, h.validate env =
        { cont := false, err := none, log := [Effect.event "Warning" reason message] } ∧
      (reason = "UnschedulableNode" ∨ reason = "InvalidTimeout") := by
  cases h with
  | platform ph =>
    obtain ⟨message, hm⟩ := validateTimeout_invalid env ph.scan hbad
    exact ⟨"InvalidTimeout", message, hm, Or.inr rfl⟩
  | node nh =>
    obtain ⟨hnodes, hcase⟩ := hbad
    have hlen : ¬ nh.nodes.length = 0 := fun h0 => hnodes (List.length_eq_zero.mp h0)
    simp only [scanTypeHandler.validate, nodeScanTypeHandler.validate, hlen, if_false]
    cases hfirst : firstUnschedulable nh.scan nh.nodes with
    | some name =>
      exact ⟨"UnschedulableNode", "Not continuing scan: Node is unschedulable: " ++ name,
        rfl, Or.inl rfl⟩
    | none =>
      rcases hcase with ⟨hstrict, hex⟩ | htime
      · obtain ⟨name, hname⟩ := firstUnschedulable_some nh.scan hstrict nh.nodes hex
        rw [hname] at hfirst
        cases hfirst
      · obtain ⟨message, hm⟩ := validateTimeout_invalid env nh.scan htime
        exact ⟨"InvalidTimeout", message, hm, Or.inr rfl⟩

/-- C23, counterexample: a cluster-wide scan in phase Running whose timeout string does
not parse, and a strict per-node scan with an unschedulable target node.  In both the
handler's `validate` returns continue = false without error and sends no status write,
and the whole pass of `Reconcile` sends no status write: the status keeps phase Running
and is not set to result Error and phase Done. -/
theorem C23_handler_validation_counterexample :
    ((scanTypeHandler.platform
        { scan := scanWithSpec ScanStatusPhase.Running "Platform" "soon" "1Gi"
            ["ReadWriteOnce"] }).validate (storeEnv [] [] [] 0)).cont = false ∧
    ((scanTypeHandler.platform
        { scan := scanWithSpec ScanStatusPhase.Running "Platform" "soon" "1Gi"
            ["ReadWriteOnce"] }).validate (storeEnv [] [] [] 0)).err = none ∧
    statusWrites (Reconcile ((storeEnv [] [] [] 0).withScan
      (scanWithSpec ScanStatusPhase.Running "Platform" "soon" "1Gi" ["ReadWriteOnce"]))
      requestS).log = [] ∧
    (Reconcile ((storeEnv [] [] [] 0).withScan
      (scanWithSpec ScanStatusPhase.Running "Platform" "soon" "1Gi" ["ReadWriteOnce"]))
      requestS).steps = [Step.createDelveJob, Step.validate, Step.getScanTypeHandler,
        Step.handlerValidate] ∧
    ((scanTypeHandler.node
        { scan := scanWithSpec ScanStatusPhase.Running "Node" "5m" "1Gi" ["ReadWriteOnce"],
          nodes := [{ Name := "n1", Unschedulable := true }] }).validate
        (storeEnv [] [] [] 0)).cont = false ∧
    statusWrites (Reconcile (((storeEnv [] [] [] 0).withNodes
        [{ Name := "n1", Unschedulable := true }]).withScan
      (scanWithSpec ScanStatusPhase.Running "Node" "5m" "1Gi" ["ReadWriteOnce"]))
      requestS).log = [] ∧
    (Reconcile (((storeEnv [] [] [] 0).withNodes
        [{ Name := "n1", Unschedulable := true }]).withScan
      (scanWithSpec ScanStatusPhase.Running "Node" "5m" "1Gi" ["ReadWriteOnce"]))
      requestS).steps = [Step.createDelveJob, Step.validate, Step.getScanTypeHandler,
        Step.handlerValidate] := by
  decide

/-- C23, amended: for both handler variants, when the timeout string is set and does not
parse as a duration, and for the per-node variant also when the scan is strict and a
target node is unschedulable, `validate` returns continue = false without error, and the
only request it sends is one Warning event, with reason `InvalidTimeout` or
`UnschedulableNode`: it sends no status write and no object write, so the scan's
persisted status is left as it was. -/
theorem C23_handler_validation_amended (env : Env) (h : scanTypeHandler)
    (hbad : h.invalid env) :
    (h.validate env).cont = false ∧ (h.validate env).err = none ∧
    statusWrites (h.validate env).log = [] ∧
    objectUpdates (h.validate env).log = [] ∧
    ∃ reason message, (h.validate env).log = [Effect.event "Warning" reason message] ∧
      (reason = "UnschedulableNode" ∨ reason = "InvalidTimeout") := by
  obtain ⟨reason, message, hv, hr⟩ := handlerValidate_invalid env h hbad
  rw [hv]
  exact ⟨rfl, rfl, rfl, rfl, reason, message, rfl, hr⟩

theorem C23_handler_validation_amended_witness :
    ((scanTypeHandler.node
        { scan := scanWithSpec ScanStatusPhase.Running "Node" "5m" "1Gi" ["ReadWriteOnce"],
          nodes := [{ Name := "n1", Unschedulable := true }] }).validate
        (storeEnv [] [] [] 0)).cont = false ∧
    ((scanTypeHandler.node
        { scan := scanWithSpec ScanStatusPhase.Running "Node" "5m" "1Gi" ["ReadWriteOnce"],
          nodes := [{ Name := "n1", Unschedulable := true }] }).validate
        (storeEnv [] [] [] 0)).err = none ∧
    statusWrites ((scanTypeHandler.node
        { scan := scanWithSpec ScanStatusPhase.Running "Node" "5m" "1Gi" ["ReadWriteOnce"],
          nodes := [{ Name := "n1", Unschedulable := true }] }).validate
        (storeEnv [] [] [] 0)).log = [] :=
  have h := C23_handler_validation_amended (storeEnv [] [] [] 0)
    (scanTypeHandler.node
      { scan := scanWithSpec ScanStatusPhase.Running "Node" "5m" "1Gi" ["ReadWriteOnce"],
        nodes := [{ Name := "n1", Unschedulable := true }] })
    ⟨by decide, Or.inl ⟨by decide, { Name := "n1", Unschedulable := true }, by decide,
      by decide⟩⟩
  ⟨h.1, h.2.1, h.2.2.1⟩


/-! ## The return of a pass after a failed validation -/

theorem Reconcile_reachesValidation (env : Env) (request : NamespacedName)
    (scan : ComplianceScan) (hget : env.getScan request = .ok scan)
    (hreach : reachesValidation env scan) :
    (Reconcile env request).result = (reconcileValidated env (registered scan)).result ∧
    (Reconcile env request).err = (reconcileValidated env (registered scan)).err := by
  obtain ⟨⟨htype, hcfg, hjob⟩, hlive, hupd⟩ := hreach
  simp only [Reconcile, hget, reconcileInstance, htype, hcfg, hjob, if_false,
    ReconcileOutcome.after, reconcileFinalizer, hlive, registered]
  cases hfin : ContainsFinalizer scan.Finalizers ScanFinalizer with
  | true => simp
  | false => simp [hupd hfin, ReconcileOutcome.after]

/-- C24, counterexample: a Pending scan whose scan type is not valid.  `validate` reports
the failure (continue = false, no error) and `Reconcile` returns a result that requests a
requeue after ten seconds. -/
theorem C24_requeue_counterexample :
    (validate (storeEnv [] [] [] 0)
      (scanWithSpec ScanStatusPhase.Pending "Bogus" "" "1Gi" ["ReadWriteOnce"])).cont = false ∧
    (validate (storeEnv [] [] [] 0)
      (scanWithSpec ScanStatusPhase.Pending "Bogus" "" "1Gi" ["ReadWriteOnce"])).err = none ∧
    (Reconcile ((storeEnv [] [] [] 0).withScan
      (scanWithSpec ScanStatusPhase.Pending "Bogus" "" "1Gi" ["ReadWriteOnce"]))
      requestS).result = { Requeue := true, RequeueAfter := 10000000000 } ∧
    (Reconcile ((storeEnv [] [] [] 0).withScan
      (scanWithSpec ScanStatusPhase.Pending "Bogus" "" "1Gi" ["ReadWriteOnce"]))
      requestS).err = none := by
  decide

/-- C24, amended: whenever a pass of `Reconcile` gets to the validation and the
reconciler's `validate` reports continue = false without error, or `validate` lets the
pass continue, the handler is obtained and the handler's `validate` reports
continue = false without error, `Reconcile` returns no error and a result that requests a
requeue after the default interval (Requeue = true and RequeueAfter = ten seconds). -/
theorem C24_validation_requeue_amended (env : Env) (request : NamespacedName)
    (scan : ComplianceScan) (hget : env.getScan request = .ok scan)
    (hreach : reachesValidation env scan) :
    ((validate env (registered scan)).cont = false →
      (validate env (registered scan)).err = none →
      (Reconcile env request).result
        = { Requeue := true, RequeueAfter := requeueAfterDefault } ∧
      (Reconcile env request).err = none) ∧
    (∀ h, (validate env (registered scan)).cont = true →
      (validate env (registered scan)).err = none →
      getScanTypeHandler env (registered scan) = .ok (some h) →
      (h.validate env).cont = false → (h.validate env).err = none →
      (Reconcile env request).result
        = { Requeue := true, RequeueAfter := requeueAfterDefault } ∧
      (Reconcile env request).err = none) := by
  obtain ⟨hres, herr⟩ := Reconcile_reachesValidation env request scan hget hreach
  rw [hres, herr]
  constructor
  · intro hcont hnone
    simp [reconcileValidated, hcont, hnone]
  · intro h hcont hnone hh hhcont hhnone
    simp [reconcileValidated, hcont, hnone, hh, ReconcileOutcome.after, reconcileHandler,
      hhcont, hhnone]

theorem C24_validation_requeue_amended_witness :
    (Reconcile ((storeEnv [] [] [] 0).withScan
      (scanWithSpec ScanStatusPhase.Running "Platform" "soon" "1Gi" ["ReadWriteOnce"]))
      requestS).result = { Requeue := true, RequeueAfter := requeueAfterDefault } ∧
    (Reconcile ((storeEnv [] [] [] 0).withScan
      (scanWithSpec ScanStatusPhase.Running "Platform" "soon" "1Gi" ["ReadWriteOnce"]))
      requestS).err = none :=
  (C24_validation_requeue_amended ((storeEnv [] [] [] 0).withScan
      (scanWithSpec ScanStatusPhase.Running "Platform" "soon" "1Gi" ["ReadWriteOnce"]))
    requestS (scanWithSpec ScanStatusPhase.Running "Platform" "soon" "1Gi" ["ReadWriteOnce"])
    (by rfl) ⟨⟨by decide, by decide, by rfl⟩, by rfl, by decide⟩).2
    (scanTypeHandler.platform
      { scan := scanWithSpec ScanStatusPhase.Running "Platform" "soon" "1Gi"
          ["ReadWriteOnce"] })
    (by decide) (by decide) (by rfl) (by decide) (by decide)


/-! ## The Done phase without rescan: what is cleaned up -/

theorem runCalls_sent (env : Env) (scan : ComplianceScan) :
    ∀ (calls : List Call), ∀ e ∈ (runCalls env scan calls).2,
      e ∈ calls.map (Call.effect scan) := by
  intro calls
  induction calls with
  | nil => intro e he; simp [runCalls] at he
  | cons c rest ih =>
    intro e he
    simp only [runCalls] at he
    cases hc : c.response env scan with
    | some err =>
      simp only [hc, List.mem_singleton] at he
      simp [he]
    | none =>
      simp only [hc, List.mem_cons] at he
      rcases he with he | he
      · simp [he]
      · exact List.mem_cons_of_mem _ (ih e he)

theorem phaseDoneHandler_eq_no_rescan (env : Env) (h : Option scanTypeHandler)
    (inst : ComplianceScan) (doDelete : Bool) (hno : inst.NeedsRescan = false) :
    (phaseDoneHandler env h inst doDelete).log
      = (runCalls env inst (doneCalls h inst doDelete)).2 ∧
    (phaseDoneHandler env h inst doDelete).err
      = (runCalls env inst (doneCalls h inst doDelete)).1 := by
  simp only [phaseDoneHandler, hno]
  cases h1 : (runCalls env inst (doneCalls h inst doDelete)).1 <;> simp

/-- C25, counterexample: a per-node scan in phase Done with Debug = false and no rescan
pending, every call succeeding.  The normal Done dispatch deletes the scan pods and the
aggregator and scales the result server down; it sends no request to delete the result
server, its secrets, the script config maps or the kubelet config maps. -/
theorem C25_cleanup_counterexample :
    (doneScan []).Spec.Debug = false ∧ (doneScan []).NeedsRescan = false ∧
    (phaseDoneHandler (storeEnv [] [] [] 9)
      (some (scanTypeHandler.node { scan := doneScan [], nodes := [{ Name := "n1" }] }))
      (doneScan []) dontDelete).log
      = [Effect.op Op.deleteScanPods "s", Effect.op Op.deleteAggregator "s",
         Effect.op Op.scaleDownResultServer "s"] ∧
    (phaseDoneHandler (storeEnv [] [] [] 9)
      (some (scanTypeHandler.node { scan := doneScan [], nodes := [{ Name := "n1" }] }))
      (doneScan []) dontDelete).err = none ∧
    Effect.op Op.deleteResultServer "s" ∉ (phaseDoneHandler (storeEnv [] [] [] 9)
      (some (scanTypeHandler.node { scan := doneScan [], nodes := [{ Name := "n1" }] }))
      (doneScan []) dontDelete).log := by
  decide

/-- C25, amended: for a scan in phase Done with no rescan pending, the normal Done
dispatch of `phaseDoneHandler` (not the deletion) with Debug = false requests only the
cleanup of the handler (the execution units), the deletion of the aggregator and the
scale-down of the result server, all three when each succeeds; with Debug = true it
requests only the scale-down of the result server.  In both cases no request deletes the
result server, its server, client or CA secret, the script config maps or the kubelet
config maps. -/
theorem C25_done_cleanup_amended (env : Env) (h : scanTypeHandler) (inst : ComplianceScan)
    (hno : inst.NeedsRescan = false) :
    (inst.Spec.Debug = false →
      (∀ e ∈ (phaseDoneHandler env (some h) inst dontDelete).log,
        e ∈ [h.cleanup.effect inst, Effect.op Op.deleteAggregator inst.Name,
             Effect.op Op.scaleDownResultServer inst.Name]) ∧
      ((∀ c ∈ [h.cleanup, Call.op Op.deleteAggregator, Call.op Op.scaleDownResultServer],
          c.response env inst = none) →
        (phaseDoneHandler env (some h) inst dontDelete).log
          = [h.cleanup.effect inst, Effect.op Op.deleteAggregator inst.Name,
             Effect.op Op.scaleDownResultServer inst.Name] ∧
        (phaseDoneHandler env (some h) inst dontDelete).err = none)) ∧
    (inst.Spec.Debug = true →
      (∀ e ∈ (phaseDoneHandler env (some h) inst dontDelete).log,
        e = Effect.op Op.scaleDownResultServer inst.Name) ∧
      (env.op Op.scaleDownResultServer inst = none →
        (phaseDoneHandler env (some h) inst dontDelete).log
          = [Effect.op Op.scaleDownResultServer inst.Name] ∧
        (phaseDoneHandler env (some h) inst dontDelete).err = none)) ∧
    (∀ c ∈ [Call.op Op.deleteResultServer, Call.op Op.deleteResultServerSecret,
        Call.op Op.deleteResultClientSecret, Call.op Op.deleteRootCASecret,
        deleteScriptConfigMaps inst, deleteKubeletConfigConfigMaps inst],
      c.effect inst ∉ (phaseDoneHandler env (some h) inst dontDelete).log) := by
  obtain ⟨hlog, herr⟩ := phaseDoneHandler_eq_no_rescan env (some h) inst dontDelete hno
  rw [hlog, herr]
  have hfalse : inst.Spec.Debug = false →
      doneCalls (some h) inst dontDelete
        = [h.cleanup, Call.op Op.deleteAggregator, Call.op Op.scaleDownResultServer] := by
    intro hd
    simp [doneCalls, dontDelete, hno, hd]
  have htrue : inst.Spec.Debug = true →
      doneCalls (some h) inst dontDelete = [Call.op Op.scaleDownResultServer] := by
    intro hd
    simp [doneCalls, dontDelete, hno, hd]
  refine ⟨?_, ?_, ?_⟩
  · intro hd
    rw [hfalse hd]
    refine ⟨?_, ?_⟩
    · intro e he
      have := runCalls_sent env inst _ e he
      simpa [Call.effect] using this
    · intro hall
      have hok := runCalls_ok env inst _ hall
      exact ⟨by rw [(runCalls_none env inst _ hok).1]; rfl, hok⟩
  · intro hd
    rw [htrue hd]
    refine ⟨?_, ?_⟩
    · intro e he
      have := runCalls_sent env inst _ e he
      simpa [Call.effect] using this
    · intro hone
      have hall : ∀ c ∈ [Call.op Op.scaleDownResultServer], c.response env inst = none := by
        intro c hc
        rw [List.mem_singleton.mp hc]
        exact hone
      have hok := runCalls_ok env inst _ hall
      exact ⟨by rw [(runCalls_none env inst _ hok).1]; rfl, hok⟩
  · intro c hc hmem
    have hsent := runCalls_sent env inst _ _ hmem
    obtain ⟨d, hd, hcd⟩ := List.mem_map.mp hsent
    have hdc := Call.effect_injective inst d c hcd
    subst hdc
    cases hdebug : inst.Spec.Debug with
    | false =>
      rw [hfalse hdebug] at hd
      cases h <;>
        simp [scanTypeHandler.cleanup, deleteScriptConfigMaps,
          deleteKubeletConfigConfigMaps] at hd hc <;>
        rcases hd with hd | hd | hd <;> simp [hd] at hc
    | true =>
      rw [htrue hdebug] at hd
      simp [deleteScriptConfigMaps, deleteKubeletConfigConfigMaps] at hd hc
      simp [hd] at hc

theorem C25_done_cleanup_amended_witness :
    (phaseDoneHandler (storeEnv [] [] [] 9)
      (some (scanTypeHandler.node { scan := doneScan [], nodes := [{ Name := "n1" }] }))
      (doneScan []) dontDelete).log
      = [Effect.op Op.deleteScanPods "s", Effect.op Op.deleteAggregator "s",
         Effect.op Op.scaleDownResultServer "s"] ∧
    (Call.op Op.deleteResultServer).effect (doneScan []) ∉
      (phaseDoneHandler (storeEnv [] [] [] 9)
        (some (scanTypeHandler.node { scan := doneScan [], nodes := [{ Name := "n1" }] }))
        (doneScan []) dontDelete).log :=
  have h := C25_done_cleanup_amended (storeEnv [] [] [] 9)
    (scanTypeHandler.node { scan := doneScan [], nodes := [{ Name := "n1" }] })
    (doneScan []) (by decide)
  ⟨((h.1 (by decide)).2 (by intro c _; cases c <;> rfl)).1,
   h.2.2 (Call.op Op.deleteResultServer) (by simp)⟩


/-! ## Polling a unit: timeout and unschedulable -/

/-- C26, counterexample: a unit in the Failed state, created at time 0 and polled at
1000 s with a timeout of 300 s.  The timeout is not zero and the age is greater than the
timeout, yet `isPodRunning` returns running = true without error; for a unit in the
Running state of the same age it returns the timeout error. -/
theorem C26_failed_unit_counterexample :
    (storeEnv [scanPod "n1" PodPhase.Failed 0] [] [] 1000000000000).getPod
      { Name := "s-n1-pod", Namespace := "openshift-compliance" }
      = .ok (scanPod "n1" PodPhase.Failed 0) ∧
    podScheduledUnschedulable (scanPod "n1" PodPhase.Failed 0).Conditions = none ∧
    (300000000000 : Duration) ≠ podTimeoutDisable ∧
    (storeEnv [scanPod "n1" PodPhase.Failed 0] [] [] 1000000000000).now
      - (scanPod "n1" PodPhase.Failed 0).CreationTimestamp > 300000000000 ∧
    timeSub (storeEnv [scanPod "n1" PodPhase.Failed 0] [] [] 1000000000000).now
      (scanPod "n1" PodPhase.Failed 0).CreationTimestamp > 300000000000 ∧
    isPodRunning (storeEnv [scanPod "n1" PodPhase.Failed 0] [] [] 1000000000000)
      "s-n1-pod" "openshift-compliance" 300000000000 = (true, none) ∧
    isPodRunning (storeEnv [scanPod "n1" PodPhase.Running 0] [] [] 1000000000000)
      "s-n1-pod" "openshift-compliance" 300000000000
      = (true, some (GoError.timeout
          "Timeout reached while waiting for the scan to finish in the pod: s-n1-pod")) :=
  ⟨by rfl, by decide, by decide, by decide, by decide, by decide, by decide⟩

theorem timeSub_gt (t u timeout : Int) (hlo : (-9223372036854775808 : Int) ≤ timeout)
    (hhi : timeout < (9223372036854775807 : Int)) :
    (timeSub t u : Int) > timeout ↔ t - u > timeout := by
  simp only [timeSub, maxDuration, minDuration]
  split
  · exact ⟨fun _ => by omega, fun _ => hhi⟩
  · split
    · rename_i h1 h2
      constructor
      · intro h
        have h3 : timeout < (-9223372036854775808 : Int) := h
        omega
      · intro h
        omega
    · exact Iff.rfl

theorem timeSub_le_max (t u : Int) : (timeSub t u : Int) ≤ (9223372036854775807 : Int) := by
  simp only [timeSub, maxDuration, minDuration]
  split
  · exact le_refl _
  · split
    · decide
    · rename_i h1 h2
      exact not_lt.mp h1

/-- C26, amended: for every unit that exists, has not Succeeded, is not reported
unschedulable and is not in the Failed state, `isPodRunning` returns running = true, and
it returns an error, the typed timeout error, if and only if the timeout is not zero and
the time since the creation of the unit, as `time.Since` reports it, is greater than the
timeout.  The reported time is the difference of the two times saturated at the largest
and the smallest duration, so for every timeout below the largest duration the condition
is that the elapsed time itself is greater than the timeout, and a timeout equal to the
largest duration never expires.  A zero timeout never yields a timeout.  A unit in the
Failed state is reported as running without error whatever its age. -/
theorem C26_timeout_detection_amended (env : Env) (podName namespace_ : String)
    (timeout : Duration) (pod : Pod)
    (hget : env.getPod { Name := podName, Namespace := namespace_ } = .ok pod)
    (hphase : pod.Phase ≠ PodPhase.Succeeded)
    (hsched : podScheduledUnschedulable pod.Conditions = none) :
    (pod.Phase ≠ PodPhase.Failed →
      (isPodRunning env podName namespace_ timeout).1 = true ∧
      ((∃ e, (isPodRunning env podName namespace_ timeout).2 = some e ∧ e.AsTimeout = true) ↔
        (timeout ≠ podTimeoutDisable ∧ timeSub env.now pod.CreationTimestamp > timeout)) ∧
      (∀ e, (isPodRunning env podName namespace_ timeout).2 = some e → e.AsTimeout = true) ∧
      (minDuration ≤ timeout → timeout < maxDuration →
        ((∃ e, (isPodRunning env podName namespace_ timeout).2 = some e ∧
            e.AsTimeout = true) ↔
          (timeout ≠ podTimeoutDisable ∧ env.now - pod.CreationTimestamp > timeout))) ∧
      (timeout = maxDuration → (isPodRunning env podName namespace_ timeout).2 = none)) ∧
    (timeout = podTimeoutDisable → isPodRunning env podName namespace_ timeout = (true, none)) ∧
    (pod.Phase = PodPhase.Failed → isPodRunning env podName namespace_ timeout = (true, none)) := by
  refine ⟨?_, ?_, ?_⟩
  · intro hf
    have hmaxle := timeSub_le_max env.now pod.CreationTimestamp
    by_cases hz : timeout = podTimeoutDisable
    · have hval : isPodRunning env podName namespace_ timeout = (true, none) := by
        simp only [isPodRunning, hget, hphase, hsched, hf, hz, if_true, if_false]
      rw [hval]
      refine ⟨rfl, ?_, ?_, ?_, ?_⟩
      · exact ⟨fun ⟨e, he, _⟩ => (by cases he), fun h => absurd hz h.1⟩
      · intro e he
        cases he
      · intro _ _
        exact ⟨fun ⟨e, he, _⟩ => (by cases he), fun h => absurd hz h.1⟩
      · intro _
        rfl
    · by_cases hold : timeSub env.now pod.CreationTimestamp > timeout
      · have hval : isPodRunning env podName namespace_ timeout
            = (true, some (GoError.timeout
                ("Timeout reached while waiting for the scan to finish in the pod: "
                  ++ podName))) := by
          simp only [isPodRunning, hget, hphase, hsched, hf, hz, hold, if_true, if_false]
        rw [hval]
        refine ⟨rfl, ?_, ?_, ?_, ?_⟩
        · exact ⟨fun _ => ⟨hz, hold⟩, fun _ => ⟨_, rfl, rfl⟩⟩
        · intro e he
          cases he
          rfl
        · intro hlo hhi
          exact ⟨fun _ => ⟨hz, (timeSub_gt env.now pod.CreationTimestamp timeout hlo hhi).mp
            hold⟩, fun _ => ⟨_, rfl, rfl⟩⟩
        · intro hmx
          rw [hmx] at hold
          exact absurd hmaxle (not_le.mpr hold)
      · have hval : isPodRunning env podName namespace_ timeout = (true, none) := by
          simp only [isPodRunning, hget, hphase, hsched, hf, hz, hold, if_false]
        rw [hval]
        refine ⟨rfl, ?_, ?_, ?_, ?_⟩
        · exact ⟨fun ⟨e, he, _⟩ => (by cases he), fun h => absurd h.2 hold⟩
        · intro e he
          cases he
        · intro hlo hhi
          exact ⟨fun ⟨e, he, _⟩ => (by cases he), fun h => absurd
            ((timeSub_gt env.now pod.CreationTimestamp timeout hlo hhi).mpr h.2) hold⟩
        · intro _
          rfl
  · intro hz
    simp only [isPodRunning, hget, hphase, hsched, hz, if_true, if_false]
    split <;> rfl
  · intro hf
    simp [isPodRunning, hget, hsched, hf]

theorem C26_timeout_detection_amended_witness :
    (isPodRunning (storeEnv [scanPod "n1" PodPhase.Running 0] [] [] 1000000000000)
      "s-n1-pod" "openshift-compliance" 300000000000).1 = true ∧
    ((∃ e, (isPodRunning (storeEnv [scanPod "n1" PodPhase.Running 0] [] [] 1000000000000)
        "s-n1-pod" "openshift-compliance" 300000000000).2 = some e ∧ e.AsTimeout = true) ↔
      ((300000000000 : Duration) ≠ podTimeoutDisable ∧
        timeSub (storeEnv [scanPod "n1" PodPhase.Running 0] [] [] 1000000000000).now
          (scanPod "n1" PodPhase.Running 0).CreationTimestamp > 300000000000)) :=
  have h := (C26_timeout_detection_amended (storeEnv [scanPod "n1" PodPhase.Running 0] [] []
      1000000000000) "s-n1-pod" "openshift-compliance" 300000000000
    (scanPod "n1" PodPhase.Running 0) (by rfl) (by decide) (by decide)).1 (by decide)
  ⟨h.1, h.2.1⟩

theorem podScheduledUnschedulable_first (post : List PodCondition) (c : PodCondition)
    (hkind : c.Kind = PodScheduled) (hreason : c.Reason = PodReasonUnschedulable) :
    ∀ (pre : List PodCondition), (∀ d ∈ pre, d.Kind ≠ PodScheduled) →
      podScheduledUnschedulable (pre ++ c :: post) = some c.Message := by
  intro pre
  induction pre with
  | nil =>
    intro _
    simp [podScheduledUnschedulable, hkind, hreason]
  | cons d rest ih =>
    intro hpre
    have hd : d.Kind ≠ PodScheduled := hpre d (List.mem_cons_self d rest)
    simp only [List.cons_append, podScheduledUnschedulable, hd, if_false]
    exact ih (fun x hx => hpre x (List.mem_cons_of_mem d hx))

theorem isPodRunning_unschedulable (env : Env) (podName namespace_ : String)
    (timeout : Duration) (pod : Pod) (c : PodCondition)
    (hget : env.getPod { Name := podName, Namespace := namespace_ } = .ok pod)
    (hphase : pod.Phase ≠ PodPhase.Succeeded) (hcond : scheduledUnschedulable pod c) :
    isPodRunning env podName namespace_ timeout
      = (false, some (GoError.podUnschedulable pod.Name c.Message)) := by
  obtain ⟨pre, post, hlist, hpre, hkind, hreason⟩ := hcond
  have hs := podScheduledUnschedulable_first post c hkind hreason pre hpre
  rw [← hlist] at hs
  simp only [isPodRunning, hget, hphase, hs, if_false]

/-- The iteration of the loop of `nodeScanTypeHandler.handleRunningScan` for a node whose
poll returned the unschedulable error `err`. -/
theorem nodeRunningLoop_unschedulable (env : Env) (scan : ComplianceScan)
    (timeoutVal : Duration) (node : Node) (p m : String)
    (hpoll : isPodRunningInNode env scan node timeoutVal
      = (false, some (GoError.podUnschedulable p m)))
    (rest : List Node) (timeoutNodes : List String) (log : List Effect) :
    nodeRunningLoop env scan timeoutVal (node :: rest) timeoutNodes log =
      match ensureUnschedulableCM env scan node (GoError.podUnschedulable p m) with
      | (some cmErr, sent) =>
        { running := true, timeoutNodes := timeoutNodes, err := some cmErr, scan := scan,
          log := log ++ sent }
      | (none, sent) => nodeRunningLoop env scan timeoutVal rest timeoutNodes (log ++ sent) := by
  simp only [nodeRunningLoop, hpoll, GoError.IsNotFound, GoError.AsUnschedulable]
  cases hens : ensureUnschedulableCM env scan node (GoError.podUnschedulable p m) with
  | mk e sent =>
    cases e <;> simp

/-- C27: unschedulable is not a timeout.  For every unit that has not Succeeded and whose
`PodScheduled` condition has reason Unschedulable, `isPodRunning` returns running = false
with the unschedulable error, which is not the timeout error, for every timeout and every
age.  The loop of the per-node `handleRunningScan`, at a node with such a unit, leaves the
list of timed-out targets as it is and makes sure the synthetic result record with the
reserved unschedulable exit code exists: when the record is there it goes on to the next
node without request; when it is not found it requests its creation and, the creation
accepted or answered already-exists, goes on to the next node; when the record cannot be
ensured it returns that error, the list still unchanged. -/
theorem C27_unschedulable_not_timeout (env : Env) (podName namespace_ : String)
    (timeout : Duration) (pod : Pod) (c : PodCondition)
    (hget : env.getPod { Name := podName, Namespace := namespace_ } = .ok pod)
    (hphase : pod.Phase ≠ PodPhase.Succeeded) (hcond : scheduledUnschedulable pod c) :
    isPodRunning env podName namespace_ timeout
      = (false, some (GoError.podUnschedulable pod.Name c.Message)) ∧
    (GoError.podUnschedulable pod.Name c.Message).AsTimeout = false ∧
    ∀ (scan : ComplianceScan) (node : Node) (rest : List Node) (timeoutNodes : List String)
      (log : List Effect),
      podName = getPodForNodeName env scan.Name node.Name →
      namespace_ = env.operatorNamespace →
      ((∃ found, env.getConfigMap
          { Name := (unschedulableRecord env scan node
              (GoError.podUnschedulable pod.Name c.Message)).Name,
            Namespace := (unschedulableRecord env scan node
              (GoError.podUnschedulable pod.Name c.Message)).Namespace } = .ok found) →
        nodeRunningLoop env scan timeout (node :: rest) timeoutNodes log
          = nodeRunningLoop env scan timeout rest timeoutNodes log) ∧
      (∀ e, env.getConfigMap
          { Name := (unschedulableRecord env scan node
              (GoError.podUnschedulable pod.Name c.Message)).Name,
            Namespace := (unschedulableRecord env scan node
              (GoError.podUnschedulable pod.Name c.Message)).Namespace } = .error e →
        e.IsNotFound = true →
        (env.createConfigMap (unschedulableRecord env scan node
            (GoError.podUnschedulable pod.Name c.Message)) = none ∨
          ∃ ce, env.createConfigMap (unschedulableRecord env scan node
            (GoError.podUnschedulable pod.Name c.Message)) = some ce ∧
            ce.IsAlreadyExists = true) →
        nodeRunningLoop env scan timeout (node :: rest) timeoutNodes log
          = nodeRunningLoop env scan timeout rest timeoutNodes
              (log ++ [Effect.createConfigMap (unschedulableRecord env scan node
                (GoError.podUnschedulable pod.Name c.Message))])) ∧
      (∀ cmErr, (ensureUnschedulableCM env scan node
          (GoError.podUnschedulable pod.Name c.Message)).1 = some cmErr →
        (nodeRunningLoop env scan timeout (node :: rest) timeoutNodes log).timeoutNodes
          = timeoutNodes ∧
        (nodeRunningLoop env scan timeout (node :: rest) timeoutNodes log).running = true ∧
        (nodeRunningLoop env scan timeout (node :: rest) timeoutNodes log).err
          = some cmErr) := by
  have hrun := isPodRunning_unschedulable env podName namespace_ timeout pod c hget hphase hcond
  refine ⟨hrun, rfl, ?_⟩
  intro scan node rest timeoutNodes log hname hns
  have hpoll : isPodRunningInNode env scan node timeout
      = (false, some (GoError.podUnschedulable pod.Name c.Message)) := by
    unfold isPodRunningInNode
    rw [← hname, ← hns]
    exact hrun
  rw [nodeRunningLoop_unschedulable env scan timeout node _ _ hpoll rest timeoutNodes log]
  refine ⟨?_, ?_, ?_⟩
  · rintro ⟨found, hfound⟩
    have hens : ensureUnschedulableCM env scan node
        (GoError.podUnschedulable pod.Name c.Message) = (none, []) := by
      simp only [unschedulableRecord] at hfound
      simp only [ensureUnschedulableCM, hfound]
    rw [hens]
    simp
  · intro e hread hnf hcreate
    simp only [unschedulableRecord] at hread hcreate ⊢
    rcases hcreate with hc | ⟨ce, hc, hae⟩
    · have hens : ensureUnschedulableCM env scan node
          (GoError.podUnschedulable pod.Name c.Message)
          = (none, [Effect.createConfigMap (env.GetResultConfigMap scan
              (getConfigMapForNodeName env scan.Name node.Name) node.Name
              (GoError.podUnschedulable pod.Name c.Message).Error
              env.PodUnschedulableExitCode)]) := by
        simp only [ensureUnschedulableCM, hread, hnf, hc, if_true]
      rw [hens]
    · have hens : ensureUnschedulableCM env scan node
          (GoError.podUnschedulable pod.Name c.Message)
          = (none, [Effect.createConfigMap (env.GetResultConfigMap scan
              (getConfigMapForNodeName env scan.Name node.Name) node.Name
              (GoError.podUnschedulable pod.Name c.Message).Error
              env.PodUnschedulableExitCode)]) := by
        simp [ensureUnschedulableCM, hread, hnf, hc, hae]
      rw [hens]
  · intro cmErr hens
    cases hpair : ensureUnschedulableCM env scan node
        (GoError.podUnschedulable pod.Name c.Message) with
    | mk e sent =>
      rw [hpair] at hens
      simp only at hens
      subst hens
      exact ⟨rfl, rfl, rfl⟩

theorem C27_unschedulable_not_timeout_witness :
    isPodRunning (storeEnv [unschedulablePod "n1" "0/3 nodes are available" 0] [] []
        1000000000000) "s-n1-pod" "openshift-compliance" 300000000000
      = (false, some (GoError.podUnschedulable "s-n1-pod" "0/3 nodes are available")) ∧
    nodeRunningLoop (storeEnv [unschedulablePod "n1" "0/3 nodes are available" 0] [] []
        1000000000000) (runningScan "Node" 3 3) 300000000000
        [{ Name := "n1" }, { Name := "n2" }] [] []
      = nodeRunningLoop (storeEnv [unschedulablePod "n1" "0/3 nodes are available" 0] [] []
          1000000000000) (runningScan "Node" 3 3) 300000000000 [{ Name := "n2" }] []
          ([] ++ [Effect.createConfigMap
            { Name := "s-n1-pod", Namespace := "openshift-compliance",
              Data := [("exit-code", "unschedulable"),
                ("error-msg",
                  "Couldn't schedule scan pod s-n1-pod: 0/3 nodes are available")] }]) :=
  have h := C27_unschedulable_not_timeout
    (storeEnv [unschedulablePod "n1" "0/3 nodes are available" 0] [] [] 1000000000000)
    "s-n1-pod" "openshift-compliance" 300000000000
    (unschedulablePod "n1" "0/3 nodes are available" 0)
    { Kind := PodScheduled, Reason := PodReasonUnschedulable,
      Message := "0/3 nodes are available" }
    (by rfl) (by decide)
    ⟨[{ Kind := "Ready", Reason := "", Message := "" }], [], rfl, by decide, rfl, rfl⟩
  ⟨h.1, (h.2.2 (runningScan "Node" 3 3) { Name := "n1" } [{ Name := "n2" }] [] []
    (by decide) (by decide)).2.1
    (GoError.notFound "configmaps s-n1-pod not found") (by rfl) (by rfl)
    (Or.inl (by rfl))⟩


/-! ## Read errors while polling and while waiting for the records -/

theorem handleRunningScan_platform_eq (env : Env) (scan : ComplianceScan)
    (timeoutVal : Duration) (htimeout : timeoutParsed env scan timeoutVal) :
    scanTypeHandler.handleRunningScan env (scanTypeHandler.platform { scan := scan })
      = platformRunningPoll env scan timeoutVal := by
  rcases htimeout with ⟨h1, h2⟩ | ⟨h1, h2⟩
  · simp [scanTypeHandler.handleRunningScan, platformScanTypeHandler.handleRunningScan,
      h1, h2]
  · simp [scanTypeHandler.handleRunningScan, platformScanTypeHandler.handleRunningScan,
      h1, h2]

theorem handleRunningScan_node_eq (env : Env) (scan : ComplianceScan)
    (timeoutVal : Duration) (htimeout : timeoutParsed env scan timeoutVal)
    (nodes : List Node) :
    scanTypeHandler.handleRunningScan env
      (scanTypeHandler.node { scan := scan, nodes := nodes })
      = nodeRunningLoop env scan timeoutVal nodes [] [] := by
  rcases htimeout with ⟨h1, h2⟩ | ⟨h1, h2⟩
  · simp [scanTypeHandler.handleRunningScan, nodeScanTypeHandler.handleRunningScan, h1, h2]
  · simp [scanTypeHandler.handleRunningScan, nodeScanTypeHandler.handleRunningScan, h1, h2]

theorem nodeShouldLaunchLoop_front (env : Env) (scan : ComplianceScan) :
    ∀ (front : List Node), (∀ n ∈ front, recordPasses env scan n) →
      ∀ (rest : List Node) (warnings : String),
        ∃ warnings1, nodeShouldLaunchLoop env scan (front ++ rest) warnings
          = nodeShouldLaunchLoop env scan rest warnings1 := by
  intro front
  induction front with
  | nil =>
    intro _ rest warnings
    exact ⟨warnings, rfl⟩
  | cons n front ih =>
    intro hall rest warnings
    obtain ⟨cm, hread, hcheck⟩ := hall n (List.mem_cons_self n front)
    simp only [List.cons_append, nodeShouldLaunchLoop, hread, hcheck]
    exact ih (fun x hx => hall x (List.mem_cons_of_mem n hx)) rest _

/-- C28, counterexample: every read of a result record fails with an error that is not
not-found.  `shouldLaunchAggregator` of both handler variants returns ready = false and
no error: the read error is not returned to the caller. -/
theorem C28_swallowed_read_error_counterexample :
    (GoError.other "connection refused").IsNotFound = false ∧
    scanTypeHandler.shouldLaunchAggregator
      ((storeEnv [] [] [] 0).withConfigMapReadError (GoError.other "connection refused"))
      (scanTypeHandler.platform { scan := aggregatingPlatformScan 3 })
      = { isReady := false, warnings := "", err := none } ∧
    scanTypeHandler.shouldLaunchAggregator
      ((storeEnv [] [] [] 0).withConfigMapReadError (GoError.other "connection refused"))
      (scanTypeHandler.node { scan := aggregatingPlatformScan 3, nodes := [{ Name := "n1" }] })
      = { isReady := false, warnings := "", err := none } := by
  decide

/-- C28, amended: for both handler variants, a read error on a target's execution unit
in `handleRunningScan` that is not not-found is returned to the caller as the error, with
running = true (for the per-node variant the nodes before it having been polled and
passed); a read error on a target's result record in `shouldLaunchAggregator`, not-found
or any other, yields ready = false, no warnings and no error. -/
theorem C28_read_errors_amended (env : Env) (scan : ComplianceScan) (timeoutVal : Duration)
    (e : GoError) (htimeout : timeoutParsed env scan timeoutVal)
    (hplain : plainReadError e) :
    (env.getPod { Name := getPodForNodeName env scan.Name PlatformScanName,
                  Namespace := env.operatorNamespace } = .error e →
      (scanTypeHandler.handleRunningScan env
        (scanTypeHandler.platform { scan := scan })).err = some e ∧
      (scanTypeHandler.handleRunningScan env
        (scanTypeHandler.platform { scan := scan })).running = true) ∧
    (∀ (front : List Node) (node : Node) (rest : List Node),
      (∀ n ∈ front, pollPasses env scan timeoutVal n) →
      env.getPod { Name := getPodForNodeName env scan.Name node.Name,
                   Namespace := env.operatorNamespace } = .error e →
      (scanTypeHandler.handleRunningScan env
        (scanTypeHandler.node { scan := scan, nodes := front ++ node :: rest })).err = some e ∧
      (scanTypeHandler.handleRunningScan env
        (scanTypeHandler.node { scan := scan, nodes := front ++ node :: rest })).running
          = true) ∧
    (∀ anyErr, getPlatformScanCM env scan = .error anyErr →
      scanTypeHandler.shouldLaunchAggregator env (scanTypeHandler.platform { scan := scan })
        = { isReady := false, warnings := "", err := none }) ∧
    (∀ (front : List Node) (node : Node) (rest : List Node) (anyErr : GoError),
      (∀ n ∈ front, recordPasses env scan n) →
      getNodeScanCM env scan node.Name = .error anyErr →
      scanTypeHandler.shouldLaunchAggregator env
        (scanTypeHandler.node { scan := scan, nodes := front ++ node :: rest })
        = { isReady := false, warnings := "", err := none }) := by
  obtain ⟨hnf, hun, hto⟩ := hplain
  refine ⟨?_, ?_, ?_, ?_⟩
  · intro hget
    rw [handleRunningScan_platform_eq env scan timeoutVal htimeout]
    have hpoll : isPlatformScanPodRunning env scan timeoutVal = (false, some e) :=
      isPodRunning_notFound env _ _ timeoutVal e hget
    simp [platformRunningPoll, hpoll, hnf, hto]
  · intro front node rest hfront hget
    rw [handleRunningScan_node_eq env scan timeoutVal htimeout]
    obtain ⟨sent, _, hskip⟩ := nodeRunningLoop_front env scan timeoutVal front hfront
    rw [hskip]
    have hpoll : isPodRunningInNode env scan node timeoutVal = (false, some e) :=
      isPodRunning_notFound env _ _ timeoutVal e hget
    simp [nodeRunningLoop, hpoll, hnf, hun, hto]
  · intro anyErr hread
    simp [scanTypeHandler.shouldLaunchAggregator,
      platformScanTypeHandler.shouldLaunchAggregator, hread]
  · intro front node rest anyErr hfront hread
    simp only [scanTypeHandler.shouldLaunchAggregator,
      nodeScanTypeHandler.shouldLaunchAggregator]
    obtain ⟨w1, hw1⟩ := nodeShouldLaunchLoop_front env scan front hfront (node :: rest) ""
    rw [hw1]
    simp [nodeShouldLaunchLoop, hread]

theorem C28_read_errors_amended_witness :
    (scanTypeHandler.handleRunningScan
      ((storeEnv [] [] [] 0).withPodReadError (GoError.other "connection refused"))
      (scanTypeHandler.platform { scan := runningScan "Platform" 3 3 })).err
      = some (GoError.other "connection refused") ∧
    (scanTypeHandler.handleRunningScan
      ((storeEnv [] [] [] 0).withPodReadError (GoError.other "connection refused"))
      (scanTypeHandler.platform { scan := runningScan "Platform" 3 3 })).running = true :=
  (C28_read_errors_amended
    ((storeEnv [] [] [] 0).withPodReadError (GoError.other "connection refused"))
    (runningScan "Platform" 3 3) 300000000000 (GoError.other "connection refused")
    (Or.inr ⟨by decide, by rfl⟩) ⟨by rfl, by rfl, by rfl⟩).1 (by rfl)


/-! ## Defaulting: one mutation per pass -/

theorem validate_phase (env : Env) (inst : ComplianceScan)
    (hp : inst.Status.Phase = ScanStatusPhase.unset) :
    validate env inst = validateStatusWrite env (pendingDefault env inst) [] := by
  simp only [validate, hp, if_true]
  rfl

theorem validate_type (env : Env) (inst : ComplianceScan)
    (hp : inst.Status.Phase ≠ ScanStatusPhase.unset) (ht : inst.Spec.ScanType = "") :
    validate env inst =
      { cont := false, err := env.update (scanTypeDefault inst),
        log := [Effect.update (scanTypeDefault inst)] } := by
  simp only [validate, hp, ht, if_true, if_false]
  rfl

theorem validate_invalidType (env : Env) (inst : ComplianceScan) (e : GoError)
    (hp : inst.Status.Phase ≠ ScanStatusPhase.unset) (ht : inst.Spec.ScanType ≠ "")
    (hv : env.GetScanTypeIfValid inst = .error e) :
    validate env inst = validateStatusWrite env (invalidScanType env inst)
      [Effect.event "Warning" "InvalidScanType" "The scan type was invalid"] := by
  simp only [validate, hp, ht, hv, if_false]
  rfl

theorem validate_size (env : Env) (inst : ComplianceScan) (t : String)
    (hp : inst.Status.Phase ≠ ScanStatusPhase.unset) (ht : inst.Spec.ScanType ≠ "")
    (hv : env.GetScanTypeIfValid inst = .ok t) (hs : inst.Spec.RawResultStorage.Size = "") :
    validate env inst =
      { cont := false, err := env.update (storageSizeDefault inst),
        log := [Effect.update (storageSizeDefault inst)] } := by
  simp only [validate, hp, ht, hv, hs, if_true, if_false]
  rfl

theorem validate_modes (env : Env) (inst : ComplianceScan) (t : String)
    (hp : inst.Status.Phase ≠ ScanStatusPhase.unset) (ht : inst.Spec.ScanType ≠ "")
    (hv : env.GetScanTypeIfValid inst = .ok t) (hs : inst.Spec.RawResultStorage.Size ≠ "")
    (hm : inst.Spec.RawResultStorage.PVAccessModes = []) :
    validate env inst =
      { cont := false, err := env.update (accessModeDefault inst),
        log := [Effect.update (accessModeDefault inst)] } := by
  simp only [validate, hp, ht, hv, hs, hm, List.length_nil, if_true, if_false]
  rfl

theorem validate_parse (env : Env) (inst : ComplianceScan) (t : String)
    (hp : inst.Status.Phase ≠ ScanStatusPhase.unset) (ht : inst.Spec.ScanType ≠ "")
    (hv : env.GetScanTypeIfValid inst = .ok t) (hs : inst.Spec.RawResultStorage.Size ≠ "")
    (hm : inst.Spec.RawResultStorage.PVAccessModes ≠ []) :
    validate env inst =
      match env.ParseQuantity inst.Spec.RawResultStorage.Size with
      | some err => validateStatusWrite env (invalidStorageSize env inst err) []
      | none => { cont := true, err := none } := by
  have hlen : ¬ inst.Spec.RawResultStorage.PVAccessModes.length = 0 :=
    fun h => hm (List.length_eq_zero.mp h)
  simp only [validate, hp, ht, hv, hs, hlen, if_false]
  cases env.ParseQuantity inst.Spec.RawResultStorage.Size <;> rfl

/-- The three shapes of what `validate` returns: one status write, one object write that
defaults a field of the spec, or nothing written and continue = true. -/
theorem validate_shape (env : Env) (inst : ComplianceScan) :
    (∃ copy pre, validate env inst = validateStatusWrite env copy pre ∧
      pre.filter Effect.isWrite = [] ∧ objectUpdates pre = []) ∨
    (∃ u, validate env inst
        = { cont := false, err := env.update u, log := [Effect.update u] } ∧
      inst.Status.Phase ≠ ScanStatusPhase.unset ∧ specDefaulted inst u) ∨
    validate env inst = { cont := true, err := none } := by
  by_cases hp : inst.Status.Phase = ScanStatusPhase.unset
  · exact Or.inl ⟨_, _, validate_phase env inst hp, rfl, rfl⟩
  · by_cases ht : inst.Spec.ScanType = ""
    · exact Or.inr (Or.inl ⟨_, validate_type env inst hp ht, hp, Or.inl ⟨ht, rfl⟩⟩)
    · cases hv : env.GetScanTypeIfValid inst with
      | error e => exact Or.inl ⟨_, _, validate_invalidType env inst e hp ht hv, rfl, rfl⟩
      | ok t =>
        by_cases hs : inst.Spec.RawResultStorage.Size = ""
        · exact Or.inr (Or.inl ⟨_, validate_size env inst t hp ht hv hs, hp,
            Or.inr (Or.inl ⟨ht, hs, rfl⟩)⟩)
        · by_cases hm : inst.Spec.RawResultStorage.PVAccessModes = []
          · exact Or.inr (Or.inl ⟨_, validate_modes env inst t hp ht hv hs hm, hp,
              Or.inr (Or.inr ⟨ht, hs, hm, rfl⟩)⟩)
          · have hparse := validate_parse env inst t hp ht hv hs hm
            cases hq : env.ParseQuantity inst.Spec.RawResultStorage.Size with
            | some err =>
              rw [hq] at hparse
              exact Or.inl ⟨_, _, hparse, rfl, rfl⟩
            | none =>
              rw [hq] at hparse
              exact Or.inr (Or.inr hparse)


theorem validateStatusWrite_one_write (env : Env) (copy : ComplianceScan) (pre : List Effect)
    (hpre : pre.filter Effect.isWrite = []) :
    (validateStatusWrite env copy pre).log.filter Effect.isWrite
      = [Effect.statusUpdate copy] := by
  unfold validateStatusWrite
  split <;> simp [List.filter_append, hpre, Effect.isWrite]

/-- C29, counterexample: a scan in phase Pending whose scan type is set and not valid and
whose raw-storage size is empty.  The phase and the scan type are not empty and the size
is, yet `validate` does not default the size: it sends no object write, and its one write
is the status with phase Done and result Error, the size still empty. -/
theorem C29_invalid_type_counterexample :
    (scanWithSpec ScanStatusPhase.Pending "Bogus" "" "" []).Status.Phase
      ≠ ScanStatusPhase.unset ∧
    (scanWithSpec ScanStatusPhase.Pending "Bogus" "" "" []).Spec.ScanType ≠ "" ∧
    (scanWithSpec ScanStatusPhase.Pending "Bogus" "" "" []).Spec.RawResultStorage.Size = "" ∧
    objectUpdates (validate (storeEnv [] [] [] 7)
      (scanWithSpec ScanStatusPhase.Pending "Bogus" "" "" [])).log = [] ∧
    statusWrites (validate (storeEnv [] [] [] 7)
      (scanWithSpec ScanStatusPhase.Pending "Bogus" "" "" [])).log
      = [invalidScanType (storeEnv [] [] [] 7)
          (scanWithSpec ScanStatusPhase.Pending "Bogus" "" "" [])] ∧
    (invalidScanType (storeEnv [] [] [] 7)
      (scanWithSpec ScanStatusPhase.Pending "Bogus" "" "" [])).Status.Phase
      = ScanStatusPhase.Done ∧
    (invalidScanType (storeEnv [] [] [] 7)
      (scanWithSpec ScanStatusPhase.Pending "Bogus" "" "" [])).Status.Result
      = ScanStatusResult.Error ∧
    (invalidScanType (storeEnv [] [] [] 7)
      (scanWithSpec ScanStatusPhase.Pending "Bogus" "" "" [])).Spec.RawResultStorage.Size
      = "" := by
  decide

/-- C29, amended: defaulting, one mutation per pass.  Every call of `validate` sends at
most one write.  An empty phase is written as Pending with `Status.RemainingRetries` set
to `Spec.MaxRetryOnTimeout` (a status write that leaves the spec as it is); otherwise an
empty scan type is written as the per-node type; otherwise, for a scan type that
`GetScanTypeIfValid` accepts, an empty raw-storage size is written as the default size,
and otherwise empty access modes as the default access mode; in each case that one write
is the only request and continue = false.  Whenever `validate` writes the object, the
phase is set, the object written is the scan with the first empty one of scan type, size
and access modes defaulted and nothing else changed, it is the only request, the error
returned is the response to it and continue = false.  When `validate` returns
continue = true it has sent no request at all.  For a scan type that is set and rejected
`validate` defaults nothing: it sends no object write and returns continue = false. -/
theorem C29_defaulting_amended (env : Env) (inst : ComplianceScan) :
    ((validate env inst).log.filter Effect.isWrite).length ≤ 1 ∧
    (inst.Status.Phase = ScanStatusPhase.unset →
      (validate env inst).log.filter Effect.isWrite
        = [Effect.statusUpdate (pendingDefault env inst)] ∧
      (validate env inst).cont = false ∧
      (pendingDefault env inst).Status.Phase = ScanStatusPhase.Pending ∧
      (pendingDefault env inst).Status.RemainingRetries = inst.Spec.MaxRetryOnTimeout ∧
      (pendingDefault env inst).Spec = inst.Spec) ∧
    (inst.Status.Phase ≠ ScanStatusPhase.unset → inst.Spec.ScanType = "" →
      (validate env inst).log = [Effect.update (scanTypeDefault inst)] ∧
      (validate env inst).cont = false ∧
      (scanTypeDefault inst).Spec.ScanType = ScanTypeNode) ∧
    (inst.Status.Phase ≠ ScanStatusPhase.unset → inst.Spec.ScanType ≠ "" →
      (∃ t, env.GetScanTypeIfValid inst = .ok t) →
      inst.Spec.RawResultStorage.Size = "" →
      (validate env inst).log = [Effect.update (storageSizeDefault inst)] ∧
      (validate env inst).cont = false ∧
      (storageSizeDefault inst).Spec.RawResultStorage.Size = DefaultRawStorageSize) ∧
    (inst.Status.Phase ≠ ScanStatusPhase.unset → inst.Spec.ScanType ≠ "" →
      (∃ t, env.GetScanTypeIfValid inst = .ok t) →
      inst.Spec.RawResultStorage.Size ≠ "" →
      inst.Spec.RawResultStorage.PVAccessModes = [] →
      (validate env inst).log = [Effect.update (accessModeDefault inst)] ∧
      (validate env inst).cont = false ∧
      (accessModeDefault inst).Spec.RawResultStorage.PVAccessModes = defaultAccessMode) ∧
    (∀ u ∈ objectUpdates (validate env inst).log,
      (validate env inst).log = [Effect.update u] ∧
      (validate env inst).cont = false ∧
      (validate env inst).err = env.update u ∧
      inst.Status.Phase ≠ ScanStatusPhase.unset ∧ specDefaulted inst u ∧
      u.Status = inst.Status) ∧
    ((validate env inst).cont = true → (validate env inst).log = []) ∧
    (inst.Status.Phase ≠ ScanStatusPhase.unset → inst.Spec.ScanType ≠ "" →
      (∃ e, env.GetScanTypeIfValid inst = .error e) →
      objectUpdates (validate env inst).log = [] ∧ (validate env inst).cont = false) := by
  refine ⟨?_, ?_, ?_, ?_, ?_, ?_, ?_, ?_⟩
  · rcases validate_shape env inst with ⟨copy, pre, hv, hpre, _⟩ | ⟨u, hv, _, _⟩ | hv
    · rw [hv, validateStatusWrite_one_write env copy pre hpre]
      simp
    · rw [hv]
      simp [Effect.isWrite]
    · rw [hv]
      simp
  · intro hp
    rw [validate_phase env inst hp, validateStatusWrite_one_write env _ [] rfl]
    exact ⟨rfl, (validateStatusWrite_outcome env _ []).1, rfl, rfl, rfl⟩
  · intro hp ht
    rw [validate_type env inst hp ht]
    exact ⟨rfl, rfl, rfl⟩
  · rintro hp ht ⟨t, hv⟩ hs
    rw [validate_size env inst t hp ht hv hs]
    exact ⟨rfl, rfl, rfl⟩
  · rintro hp ht ⟨t, hv⟩ hs hm
    rw [validate_modes env inst t hp ht hv hs hm]
    exact ⟨rfl, rfl, rfl⟩
  · intro u hu
    rcases validate_shape env inst with ⟨copy, pre, hv, _, hpre⟩ | ⟨v, hv, hp, hd⟩ | hv
    · rw [hv, objectUpdates_validateStatusWrite, hpre] at hu
      simp at hu
    · rw [hv] at hu ⊢
      simp only [objectUpdates, List.mem_singleton] at hu
      subst hu
      refine ⟨rfl, rfl, rfl, hp, hd, ?_⟩
      rcases hd with ⟨_, h⟩ | ⟨_, _, h⟩ | ⟨_, _, _, h⟩ <;> rw [h] <;> rfl
    · rw [hv] at hu
      simp [objectUpdates] at hu
  · intro hc
    rcases validate_shape env inst with ⟨copy, pre, hv, _, _⟩ | ⟨u, hv, _, _⟩ | hv
    · rw [hv, (validateStatusWrite_outcome env copy pre).1] at hc
      cases hc
    · rw [hv] at hc
      cases hc
    · rw [hv]
  · rintro hp ht ⟨e, hv⟩
    rw [validate_invalidType env inst e hp ht hv, objectUpdates_validateStatusWrite]
    exact ⟨rfl, (validateStatusWrite_outcome env _ _).1⟩

theorem C29_defaulting_amended_witness :
    (validate (storeEnv [] [] [] 7)
      (scanWithSpec ScanStatusPhase.Pending "Node" "" "" [])).log
      = [Effect.update (scanWithSpec ScanStatusPhase.Pending "Node" "" "1Gi" [])] ∧
    (validate (storeEnv [] [] [] 7)
      (scanWithSpec ScanStatusPhase.Pending "Node" "" "" [])).cont = false ∧
    (storageSizeDefault (scanWithSpec ScanStatusPhase.Pending "Node" "" "" [])
      ).Spec.RawResultStorage.Size = DefaultRawStorageSize :=
  (C29_defaulting_amended (storeEnv [] [] [] 7)
    (scanWithSpec ScanStatusPhase.Pending "Node" "" "" [])).2.2.2.1
    (by decide) (by decide) ⟨"Node", by rfl⟩ (by decide)


/-! ## Timed-out targets and the running flag -/

theorem nodeRunningLoop_timeouts (env : Env) (scan : ComplianceScan) (timeoutVal : Duration) :
    ∀ (nodes : List Node) (timeoutNodes : List String) (log : List Effect),
      (nodeRunningLoop env scan timeoutVal nodes timeoutNodes log).timeoutNodes = timeoutNodes ∨
      ∃ n ∈ nodes, (nodeRunningLoop env scan timeoutVal nodes timeoutNodes log).timeoutNodes
        = timeoutNodes ++ [n.Name] := by
  intro nodes
  induction nodes with
  | nil =>
    intro timeoutNodes log
    unfold nodeRunningLoop
    exact Or.inl rfl
  | cons n rest ih =>
    intro timeoutNodes log
    have hrest : ∀ (log1 : List Effect),
        (nodeRunningLoop env scan timeoutVal rest timeoutNodes log1).timeoutNodes
          = timeoutNodes ∨
        ∃ m ∈ n :: rest,
          (nodeRunningLoop env scan timeoutVal rest timeoutNodes log1).timeoutNodes
            = timeoutNodes ++ [m.Name] := by
      intro log1
      rcases ih timeoutNodes log1 with h | ⟨m, hm, h⟩
      · exact Or.inl h
      · exact Or.inr ⟨m, List.mem_cons_of_mem n hm, h⟩
    unfold nodeRunningLoop
    simp only []
    split
    · split
      · exact Or.inl rfl
      · exact hrest log
    · split
      · exact Or.inl rfl
      · split
        · split
          · exact Or.inl rfl
          · split
            · exact Or.inl rfl
            · exact hrest _
        · split
          · exact Or.inr ⟨n, List.mem_cons_self n rest, rfl⟩
          · exact Or.inl rfl

theorem handleRunningScan_timeouts (env : Env) (h : scanTypeHandler) :
    (h.handleRunningScan env).timeoutNodes.length ≤ 1 := by
  have hnode : ∀ (nh : nodeScanTypeHandler) (tv : Duration),
      (nodeRunningLoop env nh.scan tv nh.nodes [] []).timeoutNodes.length ≤ 1 := by
    intro nh tv
    rcases nodeRunningLoop_timeouts env nh.scan tv nh.nodes [] [] with h1 | ⟨m, _, h1⟩
    · rw [h1]
      simp
    · rw [h1]
      simp
  have hplat : ∀ (scan : ComplianceScan) (tv : Duration),
      (platformRunningPoll env scan tv).timeoutNodes.length ≤ 1 := by
    intro scan tv
    unfold platformRunningPoll
    simp only []
    split
    · simp
    · split
      · simp
      · split <;> simp
  cases h with
  | node nh =>
    simp only [scanTypeHandler.handleRunningScan, nodeScanTypeHandler.handleRunningScan]
    split
    · split
      · simp
      · exact hnode nh _
    · exact hnode nh _
  | platform ph =>
    simp only [scanTypeHandler.handleRunningScan, platformScanTypeHandler.handleRunningScan]
    split
    · split
      · simp
      · exact hplat ph.scan _
    · exact hplat ph.scan _

/-- C30: timed-out targets imply still running.  For both handler variants and every
reconciler, when `handleRunningScan` returns a non-empty list of timed-out targets it
returns running = true and the list has exactly one element; when it returns
running = false the list is empty.  So the condition of the branch of
`phaseRunningHandler` that calls `phaseAggregatingHandler` (running = false and a
non-empty list) never holds: whenever the poll returns no error and running = false,
`phaseRunningHandler` returns the empty result without error, having sent only the
requests of the poll. -/
theorem C30_timeout_implies_running (env : Env) (h : scanTypeHandler) :
    ((h.handleRunningScan env).timeoutNodes ≠ [] →
      (h.handleRunningScan env).running = true ∧
      (h.handleRunningScan env).timeoutNodes.length = 1) ∧
    ((h.handleRunningScan env).running = false →
      (h.handleRunningScan env).timeoutNodes = []) ∧
    ¬ ((h.handleRunningScan env).running = false ∧
      (h.handleRunningScan env).timeoutNodes.length > 0) ∧
    (h.getScan.Spec.ScanType ≠ env.ScanTypeDelveRemote →
      (h.handleRunningScan env).err = none →
      (h.handleRunningScan env).running = false →
      phaseRunningHandler env h
        = { result := { Requeue := false, RequeueAfter := 0 }, err := none,
            scan := (h.handleRunningScan env).scan,
            log := (h.handleRunningScan env).log }) := by
  have hempty := (handleRunningScan_outcome env h).1
  have hlen := handleRunningScan_timeouts env h
  refine ⟨?_, hempty, ?_, ?_⟩
  · intro hne
    constructor
    · cases hrun : (h.handleRunningScan env).running with
      | true => rfl
      | false => exact absurd (hempty hrun) hne
    · have hpos : 0 < (h.handleRunningScan env).timeoutNodes.length :=
        List.length_pos.mpr hne
      omega
  · rintro ⟨hrun, hpos⟩
    rw [hempty hrun] at hpos
    simp at hpos
  · intro htype herr hrun
    exact phaseRunningHandler_finished env h htype herr hrun (hempty hrun)

theorem C30_timeout_implies_running_witness :
    (scanTypeHandler.handleRunningScan
      (storeEnv [scanPod "n1" PodPhase.Succeeded 0, scanPod "n2" PodPhase.Running 0] [] []
        1000000000000)
      (scanTypeHandler.node
        { scan := runningScan "Node" 3 3,
          nodes := [{ Name := "n1" }, { Name := "n2" }, { Name := "n3" }] })).running = true ∧
    (scanTypeHandler.handleRunningScan
      (storeEnv [scanPod "n1" PodPhase.Succeeded 0, scanPod "n2" PodPhase.Running 0] [] []
        1000000000000)
      (scanTypeHandler.node
        { scan := runningScan "Node" 3 3,
          nodes := [{ Name := "n1" }, { Name := "n2" }, { Name := "n3" }] })
      ).timeoutNodes.length = 1 :=
  (C30_timeout_implies_running
    (storeEnv [scanPod "n1" PodPhase.Succeeded 0, scanPod "n2" PodPhase.Running 0] [] []
      1000000000000)
    (scanTypeHandler.node
      { scan := runningScan "Node" 3 3,
        nodes := [{ Name := "n1" }, { Name := "n2" }, { Name := "n3" }] })).1 (by decide)


/-! ## The steps of the phase in one pass -/

end compliancescan
